import Mathlib

/-!
# Ethernet/UDP FireWire port: packet codec and transaction engine

A shallow embedding of `lib/code/EthBasePort.cpp` and `lib/code/EthUdpPort.cpp`,
and of the sector and serial-number arithmetic of `programmer/pgm1394.cpp`.

Conventions of the embedding:

* machine integers are natural numbers; `u32` truncates to 32 bits where the
  C++ converts to `uint32_t`/`quadlet_t`;
* a byte buffer (`unsigned char *`) is a `List Nat`; reading element `i`
  (`byteAt`) yields an 8-bit value;
* a quadlet buffer (`quadlet_t *`) is a `List Nat` of host-order values; the
  host is little-endian (the code relies on `bswap_32` to produce big-endian
  wire order), so `bytesOfQuads` lays every quadlet out least significant
  byte first, which is what `reinterpret_cast<const char *>` exposes to the
  socket;
* the port object is an explicit state record `Port`; every method returns
  its result together with the new state.
-/

namespace Amp1394

/-! ## Constants

The header files that declare these constants are not part of the sources at
hand; the values are the ones fixed by the wire-format description. -/

/-- Modelled from the spec: `FW_NODE_MASK`, declared in the missing header;
the node id is the low 6 bits of the header byte. -/
def FW_NODE_MASK : Nat := 0x3F
/-- Modelled from the spec: `FW_NODE_BROADCAST`, declared in the missing
header; broadcast node id = 63. -/
def FW_NODE_BROADCAST : Nat := 0x3F
/-- Modelled from the spec: `FW_TL_MASK`, declared in the missing header; the
transaction label is a 6-bit counter. -/
def FW_TL_MASK : Nat := 0x3F
/-- Modelled from the spec: `FW_NODE_FLAGS_MASK`, declared in the missing
header; the two flag bits carried in the upper bits of the board-id byte. -/
def FW_NODE_FLAGS_MASK : Nat := 0xC0
/-- Modelled from the spec: `FW_NODE_NOFORWARD_MASK`, declared in the missing
header; the NO_FORWARD flag bit of the board-id byte. -/
def FW_NODE_NOFORWARD_MASK : Nat := 0x40
/-- Modelled from the spec: `FW_NODE_ETH_BROADCAST_MASK`, declared in the
missing header; the ETH_BROADCAST flag bit of the board-id byte. -/
def FW_NODE_ETH_BROADCAST_MASK : Nat := 0x80
/-- Modelled from the spec: `MAX_NODES`, declared in the missing header; the
sentinel one past the largest node id 0..63. -/
def MAX_NODES : Nat := 64
/-- Modelled from the spec: `BoardIO::MAX_BOARDS`, declared in the missing
header; board ids are 0..15. -/
def MAX_BOARDS : Nat := 16

/-- Modelled from the spec: transaction code `QWRITE`, declared in the missing header. -/
def QWRITE : Nat := 0
/-- Modelled from the spec: transaction code `BWRITE`, declared in the missing header. -/
def BWRITE : Nat := 1
/-- Modelled from the spec: transaction code `QREAD`, declared in the missing header. -/
def QREAD : Nat := 4
/-- Modelled from the spec: transaction code `BREAD`, declared in the missing header. -/
def BREAD : Nat := 5
/-- Modelled from the spec: transaction code `QRESPONSE`, declared in the missing header. -/
def QRESPONSE : Nat := 6
/-- Modelled from the spec: transaction code `BRESPONSE`, declared in the missing header. -/
def BRESPONSE : Nat := 7

/-- Modelled from the spec: `FW_CRC_SIZE`, declared in the missing header; one quadlet. -/
def FW_CRC_SIZE : Nat := 4
/-- Modelled from the spec: `FW_QREAD_SIZE`, declared in the missing header; header(3) + CRC(1). -/
def FW_QREAD_SIZE : Nat := 16
/-- Modelled from the spec: `FW_QWRITE_SIZE`, declared in the missing header; header(3) + data(1) + CRC(1). -/
def FW_QWRITE_SIZE : Nat := 20
/-- Modelled from the spec: `FW_BREAD_SIZE`, declared in the missing header; header(3) + len(1) + CRC(1). -/
def FW_BREAD_SIZE : Nat := 20
/-- Modelled from the spec: `FW_BWRITE_HEADER_SIZE`, declared in the missing
header; header(3) + len(1) + headerCRC(1), the `20` of `data_offset = 20/4`. -/
def FW_BWRITE_HEADER_SIZE : Nat := 20
/-- Modelled from the spec: `FW_QRESPONSE_SIZE`, declared in the missing
header; a quadlet response mirrors the quadlet write shape. -/
def FW_QRESPONSE_SIZE : Nat := 20
/-- Modelled from the spec: `FW_BRESPONSE_HEADER_SIZE`, declared in the
missing header; a block response mirrors the block write shape. -/
def FW_BRESPONSE_HEADER_SIZE : Nat := 20

/-! ## Machine words, bytes and buffers -/

/-- Conversion to `uint32_t`. -/
def u32 (x : Nat) : Nat := x % 2 ^ 32

/-- Conversion to `unsigned char`. -/
def u8 (x : Nat) : Nat := x % 2 ^ 8

/-- Element `i` of an `unsigned char` buffer. -/
def byteAt (p : List Nat) (i : Nat) : Nat := u8 (p.getD i 0)

/-- The library routine `bswap_32` of `<byteswap.h>`. -/
def bswap_32 (x : Nat) : Nat :=
  ((x &&& 0xff000000) >>> 24) ||| ((x &&& 0x00ff0000) >>> 8) |||
    ((x &&& 0x0000ff00) <<< 8) ||| ((x &&& 0x000000ff) <<< 24)

/-- The four bytes a little-endian host stores for one quadlet. -/
def bytesOfQuad (q : Nat) : List Nat :=
  [q % 256, q / 2 ^ 8 % 256, q / 2 ^ 16 % 256, q / 2 ^ 24 % 256]

/-- The bytes of a quadlet buffer, as seen through a `char *`. -/
def bytesOfQuads (qs : List Nat) : List Nat := qs.flatMap bytesOfQuad

/-- The quadlet a little-endian host reads from four consecutive bytes at
byte offset `off`. -/
def quadAt (p : List Nat) (off : Nat) : Nat :=
  byteAt p off + byteAt p (off + 1) * 2 ^ 8 + byteAt p (off + 2) * 2 ^ 16 +
    byteAt p (off + 3) * 2 ^ 24

/-- Big-endian value of the `n` bytes that start at byte offset `off`. -/
def beAt (p : List Nat) (off : Nat) : Nat → Nat
  | 0 => 0
  | n + 1 => beAt p off n * 256 + byteAt p (off + n)

/-! ## CRC engine (`EthBasePort.cpp`, bottom of file) -/

/-- The table `crc32_tab`. -/
def crc32_tab : List Nat := [
  0x00000000, 0x77073096, 0xee0e612c, 0x990951ba, 0x076dc419, 0x706af48f,
  0xe963a535, 0x9e6495a3, 0x0edb8832, 0x79dcb8a4, 0xe0d5e91e, 0x97d2d988,
  0x09b64c2b, 0x7eb17cbd, 0xe7b82d07, 0x90bf1d91, 0x1db71064, 0x6ab020f2,
  0xf3b97148, 0x84be41de, 0x1adad47d, 0x6ddde4eb, 0xf4d4b551, 0x83d385c7,
  0x136c9856, 0x646ba8c0, 0xfd62f97a, 0x8a65c9ec, 0x14015c4f, 0x63066cd9,
  0xfa0f3d63, 0x8d080df5, 0x3b6e20c8, 0x4c69105e, 0xd56041e4, 0xa2677172,
  0x3c03e4d1, 0x4b04d447, 0xd20d85fd, 0xa50ab56b, 0x35b5a8fa, 0x42b2986c,
  0xdbbbc9d6, 0xacbcf940, 0x32d86ce3, 0x45df5c75, 0xdcd60dcf, 0xabd13d59,
  0x26d930ac, 0x51de003a, 0xc8d75180, 0xbfd06116, 0x21b4f4b5, 0x56b3c423,
  0xcfba9599, 0xb8bda50f, 0x2802b89e, 0x5f058808, 0xc60cd9b2, 0xb10be924,
  0x2f6f7c87, 0x58684c11, 0xc1611dab, 0xb6662d3d, 0x76dc4190, 0x01db7106,
  0x98d220bc, 0xefd5102a, 0x71b18589, 0x06b6b51f, 0x9fbfe4a5, 0xe8b8d433,
  0x7807c9a2, 0x0f00f934, 0x9609a88e, 0xe10e9818, 0x7f6a0dbb, 0x086d3d2d,
  0x91646c97, 0xe6635c01, 0x6b6b51f4, 0x1c6c6162, 0x856530d8, 0xf262004e,
  0x6c0695ed, 0x1b01a57b, 0x8208f4c1, 0xf50fc457, 0x65b0d9c6, 0x12b7e950,
  0x8bbeb8ea, 0xfcb9887c, 0x62dd1ddf, 0x15da2d49, 0x8cd37cf3, 0xfbd44c65,
  0x4db26158, 0x3ab551ce, 0xa3bc0074, 0xd4bb30e2, 0x4adfa541, 0x3dd895d7,
  0xa4d1c46d, 0xd3d6f4fb, 0x4369e96a, 0x346ed9fc, 0xad678846, 0xda60b8d0,
  0x44042d73, 0x33031de5, 0xaa0a4c5f, 0xdd0d7cc9, 0x5005713c, 0x270241aa,
  0xbe0b1010, 0xc90c2086, 0x5768b525, 0x206f85b3, 0xb966d409, 0xce61e49f,
  0x5edef90e, 0x29d9c998, 0xb0d09822, 0xc7d7a8b4, 0x59b33d17, 0x2eb40d81,
  0xb7bd5c3b, 0xc0ba6cad, 0xedb88320, 0x9abfb3b6, 0x03b6e20c, 0x74b1d29a,
  0xead54739, 0x9dd277af, 0x04db2615, 0x73dc1683, 0xe3630b12, 0x94643b84,
  0x0d6d6a3e, 0x7a6a5aa8, 0xe40ecf0b, 0x9309ff9d, 0x0a00ae27, 0x7d079eb1,
  0xf00f9344, 0x8708a3d2, 0x1e01f268, 0x6906c2fe, 0xf762575d, 0x806567cb,
  0x196c3671, 0x6e6b06e7, 0xfed41b76, 0x89d32be0, 0x10da7a5a, 0x67dd4acc,
  0xf9b9df6f, 0x8ebeeff9, 0x17b7be43, 0x60b08ed5, 0xd6d6a3e8, 0xa1d1937e,
  0x38d8c2c4, 0x4fdff252, 0xd1bb67f1, 0xa6bc5767, 0x3fb506dd, 0x48b2364b,
  0xd80d2bda, 0xaf0a1b4c, 0x36034af6, 0x41047a60, 0xdf60efc3, 0xa867df55,
  0x316e8eef, 0x4669be79, 0xcb61b38c, 0xbc66831a, 0x256fd2a0, 0x5268e236,
  0xcc0c7795, 0xbb0b4703, 0x220216b9, 0x5505262f, 0xc5ba3bbe, 0xb2bd0b28,
  0x2bb45a92, 0x5cb36a04, 0xc2d7ffa7, 0xb5d0cf31, 0x2cd99e8b, 0x5bdeae1d,
  0x9b64c2b0, 0xec63f226, 0x756aa39c, 0x026d930a, 0x9c0906a9, 0xeb0e363f,
  0x72076785, 0x05005713, 0x95bf4a82, 0xe2b87a14, 0x7bb12bae, 0x0cb61b38,
  0x92d28e9b, 0xe5d5be0d, 0x7cdcefb7, 0x0bdbdf21, 0x86d3d2d4, 0xf1d4e242,
  0x68ddb3f8, 0x1fda836e, 0x81be16cd, 0xf6b9265b, 0x6fb077e1, 0x18b74777,
  0x88085ae6, 0xff0f6a70, 0x66063bca, 0x11010b5c, 0x8f659eff, 0xf862ae69,
  0x616bffd3, 0x166ccf45, 0xa00ae278, 0xd70dd2ee, 0x4e048354, 0x3903b3c2,
  0xa7672661, 0xd06016f7, 0x4969474d, 0x3e6e77db, 0xaed16a4a, 0xd9d65adc,
  0x40df0b66, 0x37d83bf0, 0xa9bcae53, 0xdebb9ec5, 0x47b2cf7f, 0x30b5ffe9,
  0xbdbdf21c, 0xcabac28a, 0x53b39330, 0x24b4a3a6, 0xbad03605, 0xcdd70693,
  0x54de5729, 0x23d967bf, 0xb3667a2e, 0xc4614ab8, 0x5d681b02, 0x2a6f2b94,
  0xb40bbe37, 0xc30c8ea1, 0x5a05df1b, 0x2d02ef8d]

/-- The table `BitReverseTable`. -/
def BitReverseTable : List Nat := [
  0x00, 0x80, 0x40, 0xC0, 0x20, 0xA0, 0x60, 0xE0, 0x10, 0x90, 0x50, 0xD0, 0x30, 0xB0, 0x70, 0xF0,
  0x08, 0x88, 0x48, 0xC8, 0x28, 0xA8, 0x68, 0xE8, 0x18, 0x98, 0x58, 0xD8, 0x38, 0xB8, 0x78, 0xF8,
  0x04, 0x84, 0x44, 0xC4, 0x24, 0xA4, 0x64, 0xE4, 0x14, 0x94, 0x54, 0xD4, 0x34, 0xB4, 0x74, 0xF4,
  0x0C, 0x8C, 0x4C, 0xCC, 0x2C, 0xAC, 0x6C, 0xEC, 0x1C, 0x9C, 0x5C, 0xDC, 0x3C, 0xBC, 0x7C, 0xFC,
  0x02, 0x82, 0x42, 0xC2, 0x22, 0xA2, 0x62, 0xE2, 0x12, 0x92, 0x52, 0xD2, 0x32, 0xB2, 0x72, 0xF2,
  0x0A, 0x8A, 0x4A, 0xCA, 0x2A, 0xAA, 0x6A, 0xEA, 0x1A, 0x9A, 0x5A, 0xDA, 0x3A, 0xBA, 0x7A, 0xFA,
  0x06, 0x86, 0x46, 0xC6, 0x26, 0xA6, 0x66, 0xE6, 0x16, 0x96, 0x56, 0xD6, 0x36, 0xB6, 0x76, 0xF6,
  0x0E, 0x8E, 0x4E, 0xCE, 0x2E, 0xAE, 0x6E, 0xEE, 0x1E, 0x9E, 0x5E, 0xDE, 0x3E, 0xBE, 0x7E, 0xFE,
  0x01, 0x81, 0x41, 0xC1, 0x21, 0xA1, 0x61, 0xE1, 0x11, 0x91, 0x51, 0xD1, 0x31, 0xB1, 0x71, 0xF1,
  0x09, 0x89, 0x49, 0xC9, 0x29, 0xA9, 0x69, 0xE9, 0x19, 0x99, 0x59, 0xD9, 0x39, 0xB9, 0x79, 0xF9,
  0x05, 0x85, 0x45, 0xC5, 0x25, 0xA5, 0x65, 0xE5, 0x15, 0x95, 0x55, 0xD5, 0x35, 0xB5, 0x75, 0xF5,
  0x0D, 0x8D, 0x4D, 0xCD, 0x2D, 0xAD, 0x6D, 0xED, 0x1D, 0x9D, 0x5D, 0xDD, 0x3D, 0xBD, 0x7D, 0xFD,
  0x03, 0x83, 0x43, 0xC3, 0x23, 0xA3, 0x63, 0xE3, 0x13, 0x93, 0x53, 0xD3, 0x33, 0xB3, 0x73, 0xF3,
  0x0B, 0x8B, 0x4B, 0xCB, 0x2B, 0xAB, 0x6B, 0xEB, 0x1B, 0x9B, 0x5B, 0xDB, 0x3B, 0xBB, 0x7B, 0xFB,
  0x07, 0x87, 0x47, 0xC7, 0x27, 0xA7, 0x67, 0xE7, 0x17, 0x97, 0x57, 0xD7, 0x37, 0xB7, 0x77, 0xF7,
  0x0F, 0x8F, 0x4F, 0xCF, 0x2F, 0xAF, 0x6F, 0xEF, 0x1F, 0x9F, 0x5F, 0xDF, 0x3F, 0xBF, 0x7F, 0xFF]

/-- Function `BitReverse32`. -/
def BitReverse32 (input : Nat) : Nat :=
  let inputs0 := BitReverseTable.getD (input &&& 0x000000ff) 0
  let inputs1 := BitReverseTable.getD ((input &&& 0x0000ff00) >>> 8) 0
  let inputs2 := BitReverseTable.getD ((input &&& 0x00ff0000) >>> 16) 0
  let inputs3 := BitReverseTable.getD ((input &&& 0xff000000) >>> 24) 0
  let output := 0x00000000
  let output := output ||| u32 (inputs0 <<< 24)
  let output := output ||| u32 (inputs1 <<< 16)
  let output := output ||| u32 (inputs2 <<< 8)
  let output := output ||| inputs3
  output

/-- One iteration of the loop of `crc32`:
`crc = crc32_tab[(crc ^ BitReverseTable[*p++]) & 0xFF] ^ (crc >> 8)`. -/
def crc32_step (crc : Nat) (b : Nat) : Nat :=
  crc32_tab.getD ((crc ^^^ BitReverseTable.getD (u8 b) 0) &&& 0xFF) 0 ^^^ (crc >>> 8)

/-- Function `crc32(crc, buf, size)`; `buf` holds exactly the `size` bytes. -/
def crc32 (crc : Nat) (buf : List Nat) : Nat :=
  let crc := u32 crc ^^^ 0xFFFFFFFF
  let crc := buf.foldl crc32_step crc
  crc ^^^ 0xFFFFFFFF

/-! ## Packet codec (`EthBasePort.cpp`) -/

/-- Method `EthBasePort::make_1394_header`: the three header quadlets
`packet[0..2]`. -/
def make_1394_header (node addr tcode tl : Nat) : List Nat :=
  let fw_pri := 0
  [ bswap_32 (u32 (((0xFFC0 ||| (node &&& FW_NODE_MASK)) <<< 16) ||| ((tl &&& 0x003F) <<< 10) |||
      ((tcode &&& 0x000F) <<< 4) ||| (fw_pri &&& 0x000F))),
    bswap_32 (u32 ((0xFFD0 <<< 16) ||| ((addr &&& 0x0000FFFF00000000) >>> 32))),
    bswap_32 (u32 (addr &&& 0xFFFFFFFF)) ]

/-- Method `EthBasePort::checkCRC`: the check is compiled out (`#if 0`). -/
def checkCRC (_packet : List Nat) : Bool := true

/-- Method `EthBasePort::CheckFirewirePacket` (diagnostic output omitted). -/
def CheckFirewirePacket (packet : List Nat) (length node tcode tl : Nat) : Bool :=
  if !checkCRC packet then false
  else
    let tcode_recv := byteAt packet 3 >>> 4
    if tcode_recv != tcode then false
    else
      let src_node := byteAt packet 5 &&& FW_NODE_MASK
      if node != FW_NODE_BROADCAST && src_node != node then false
      else if tcode == BRESPONSE &&
          ((byteAt packet 12 <<< 8) ||| byteAt packet 13) != length then false
      else
        let tl_recv := byteAt packet 2 >>> 2
        if tl_recv != tl then true  -- warning only
        else true

/-- Method `EthBasePort::make_qread_packet`: the four quadlets `packet[0..3]`;
the CRC covers the first `FW_QREAD_SIZE-FW_CRC_SIZE` bytes of the buffer. -/
def make_qread_packet (node addr tl : Nat) : List Nat :=
  let packet := make_1394_header node addr QREAD tl
  packet ++ [bswap_32 (BitReverse32 (crc32 0
    ((bytesOfQuads packet).take (FW_QREAD_SIZE - FW_CRC_SIZE))))]

/-- Method `EthBasePort::make_qwrite_packet`: the five quadlets `packet[0..4]`. -/
def make_qwrite_packet (node addr data tl : Nat) : List Nat :=
  let packet := make_1394_header node addr QWRITE tl
  let packet := packet ++ [bswap_32 (u32 data)]
  packet ++ [bswap_32 (BitReverse32 (crc32 0
    ((bytesOfQuads packet).take (FW_QWRITE_SIZE - FW_CRC_SIZE))))]

/-- Method `EthBasePort::make_bread_packet`: the five quadlets `packet[0..4]`. -/
def make_bread_packet (node addr nBytes tl : Nat) : List Nat :=
  let packet := make_1394_header node addr BREAD tl
  let packet := packet ++ [bswap_32 (u32 ((nBytes &&& 0xffff) <<< 16))]
  packet ++ [bswap_32 (BitReverse32 (crc32 0
    ((bytesOfQuads packet).take (FW_BREAD_SIZE - FW_CRC_SIZE))))]

/-- Copy of `n` quadlets from `src` into `dst` at quadlet offset `off`
(`memcpy(&dst[off], src, 4*n)`); `src` holds at least `n` quadlets and `dst` at
least `off + n`. -/
def memcpyQuads (dst : List Nat) (off : Nat) (src : List Nat) (n : Nat) : List Nat :=
  dst.take off ++ src.take n ++ dst.drop (off + n)

/-- Method `EthBasePort::make_bwrite_packet`, acting on the buffer `packet`.
The argument `data` is `none` when the caller's pointer is `&packet[data_offset]`
(the payload already sits in the buffer and is not copied) and `some d` when it
points to other memory holding the quadlets `d`.  As in the source, `nBytes` is
taken to be a multiple of 4. -/
def make_bwrite_packet (packet : List Nat) (node addr : Nat) (data : Option (List Nat))
    (nBytes tl : Nat) : List Nat :=
  let packet := memcpyQuads packet 0 (make_1394_header node addr BWRITE tl) 3
  let packet := packet.set 3 (bswap_32 (u32 ((nBytes &&& 0xffff) <<< 16)))
  -- header CRC
  let packet := packet.set 4 (bswap_32 (BitReverse32 (crc32 0
    ((bytesOfQuads packet).take (FW_BWRITE_HEADER_SIZE - FW_CRC_SIZE)))))
  let data_offset := FW_BWRITE_HEADER_SIZE / 4
  let packet :=
    match data with
    | some d => memcpyQuads packet data_offset d (nBytes / 4)
    | none => packet
  let data_crc_offset := data_offset + nBytes / 4
  packet.set data_crc_offset (bswap_32 (BitReverse32 (crc32 0
    ((bytesOfQuads (packet.drop data_offset)).take nBytes))))

/-! ## Transport (`SocketInternals`, `EthUdpPort.cpp`) -/

/-- One action of the port on its socket or codec, in program order. -/
inductive PortEvent where
  /-- Call of `FlushRecv()`, which discarded `numFlushed` datagrams -/
  | flush (numFlushed : Nat)
  /-- Call of a request builder with transaction code `tcode` and the
  call-site argument `doNotForward` -/
  | encode (tcode : Nat) (doNotForward : Bool)
  /-- Call of `Send(msg, useBroadcast)`, which reported `retval` -/
  | send (msg : List Nat) (useBroadcast : Bool) (retval : Int)
  /-- Call of `Recv(buffer, maxlen, timeout)`, which reported `retval` -/
  | recv (maxlen : Nat) (retval : Int)
deriving DecidableEq, Repr

/-- The datagram socket together with the network behind it.  `pending` is the
queue of datagrams that have arrived and were not read yet; `sendto` is the
count the operating system reports for a message; `peer` lists the datagrams
that arrive as a consequence of a message; `trace` records what the port did. -/
structure SocketInternals where
  pending : List (List Nat)
  sendto : List Nat → Bool → Int
  peer : List Nat → Bool → List (List Nat)
  ServerAddr : Nat
  trace : List PortEvent

/-- Method `SocketInternals::Send`: returns the count reported by `sendto`
(the error value -1 included). -/
def SocketInternals.Send (sock : SocketInternals) (bufsend : List Nat) (msglen : Nat)
    (useBroadcast : Bool) : Int × SocketInternals :=
  let msg := bufsend.take msglen
  let retval := sock.sendto msg useBroadcast
  (retval, { sock with pending := sock.pending ++ sock.peer msg useBroadcast,
                       trace := sock.trace ++ [PortEvent.send msg useBroadcast retval] })

/-- What `select` followed by `recv` reports on a queue of pending datagrams:
0 when nothing is pending (timeout), otherwise the oldest datagram, cut to
`maxlen` bytes, is taken off the queue and its length returned.  Failures of
`select` and `recv` (return value -1) are outside the model. -/
def recvFrom (pending : List (List Nat)) (maxlen : Nat) : Int × List Nat × List (List Nat) :=
  match pending with
  | [] => (0, [], [])
  | d :: rest => (((d.take maxlen).length : Nat), d.take maxlen, rest)

/-- Method `SocketInternals::Recv`: result, bytes stored in the buffer, new socket. -/
def SocketInternals.Recv (sock : SocketInternals) (maxlen : Nat) :
    Int × List Nat × SocketInternals :=
  let r := recvFrom sock.pending maxlen
  (r.1, r.2.1, { sock with pending := r.2.2,
                           trace := sock.trace ++ [PortEvent.recv maxlen r.1] })

/-- The loop of `SocketInternals::FlushRecv`:
`while (Recv(buffer, FW_QRESPONSE_SIZE, 0.0) > 0) numFlushed++`. -/
def flushLoop : List (List Nat) → Nat → Nat × List (List Nat)
  | [], numFlushed => (numFlushed, [])
  | d :: rest, numFlushed =>
    if (recvFrom (d :: rest) FW_QRESPONSE_SIZE).1 > 0 then flushLoop rest (numFlushed + 1)
    else (numFlushed, rest)

/-- Method `SocketInternals::FlushRecv`. -/
def SocketInternals.FlushRecv (sock : SocketInternals) : Nat × SocketInternals :=
  let r := flushLoop sock.pending 0
  (r.1, { sock with pending := r.2, trace := sock.trace ++ [PortEvent.flush r.1] })

/-! ## Port state -/

/-- The part of a registered `BoardIO` the port uses: the persistent write
buffer (all quadlets, the five header quadlets included) and the configured
write byte count. -/
structure BoardIO where
  WriteBuffer : List Nat
  WriteNumBytes : Nat

/-- The pre-receive hook `eth_read_callback`, as a function of the node; it
is taken not to touch the port. -/
abbrev EthCallbackType := Nat → Bool

/-- The members of `EthUdpPort` (with its bases `EthBasePort` and `BasePort`)
that the transaction engine reads or writes.  Every slot of `BoardList` that is
consulted holds a board. -/
structure Port where
  fw_tl : Nat
  is_fw_master : Bool
  FwBusReset : Bool
  FwBusGeneration : Nat
  newFwBusGeneration : Nat
  HubBoard : Nat
  Board2Node : Nat → Nat
  Node2Board : Nat → Nat
  BoardList : Nat → BoardIO
  eth_read_callback : Option EthCallbackType
  sock : SocketInternals

/-- A `quadlet_t *` handed to `WriteBlock`: memory of the caller holding the
given quadlets, or the data area of the persistent write buffer of a board
(the pointer `GetWriteBufferData()` of that board). -/
inductive WData where
  | own (data : List Nat)
  | boardBuffer (board : Nat)
deriving DecidableEq, Repr

/-- The quadlets a `WData` pointer points to. -/
def WData.deref (st : Port) : WData → List Nat
  | WData.own data => data
  | WData.boardBuffer b => (st.BoardList b).WriteBuffer.drop (FW_BWRITE_HEADER_SIZE / 4)

/-- Conversion `static_cast<int>` of a size. -/
def static_cast_int (x : Nat) : Int :=
  if x % 2 ^ 32 < 2 ^ 31 then (x % 2 ^ 32 : Nat) else ((x % 2 ^ 32 : Nat) : Int) - 2 ^ 32

/-- The members set by the initialiser list of the constructor
`EthBasePort::EthBasePort` and by `new SocketInternals`, before `Init()` runs;
the members of the base class and the network behaviour come from `base`. -/
def EthBasePort_new (base : Port) (portNum : Nat) (cb : Option EthCallbackType) : Port :=
  { base with
      is_fw_master := portNum == 1
      fw_tl := 0
      eth_read_callback := cb
      FwBusReset := false
      sock := { base.sock with pending := [], trace := [] } }

/-- Modelled from the spec: `BasePort::CheckFwBusGeneration` (BasePort.cpp is
missing): the gate is open unless a bus reset is pending, i.e. unless the
latched generation differs from the one the host has acknowledged. -/
def CheckFwBusGeneration (st : Port) : Bool :=
  st.FwBusGeneration == st.newFwBusGeneration

/-- Modelled from the spec: `BasePort::ConvertBoardToNode` (BasePort.cpp is
missing): the flag bits are dropped, a board number 0..15 resolves through
`Board2Node` (which holds `MAX_NODES` for an unmapped board), the broadcast id
resolves to the broadcast node, anything else to the sentinel `MAX_NODES`. -/
def ConvertBoardToNode (st : Port) (boardId : Nat) : Nat :=
  let boardId := boardId &&& FW_NODE_MASK
  if boardId < MAX_BOARDS then st.Board2Node boardId
  else if boardId == FW_NODE_BROADCAST then FW_NODE_BROADCAST
  else MAX_NODES

/-- The quadlets a little-endian host reads from `n` consecutive quadlet
slots of a byte buffer, starting at byte offset `off`. -/
def quadsAt (p : List Nat) (off n : Nat) : List Nat :=
  (List.range n).map (fun i => quadAt p (off + 4 * i))

/-- Record a call of a request builder in the trace. -/
def Port.noteEncode (st : Port) (tcode : Nat) (doNotForward : Bool) : Port :=
  { st with sock := { st.sock with
      trace := st.sock.trace ++ [PortEvent.encode tcode doNotForward] } }

/-! ## Transaction engine (`EthUdpPort.cpp`, `EthBasePort.cpp`)

Every method takes the port state first and returns the new state last.  An
output parameter (`quadlet_t &data`, `quadlet_t *rdata`) is passed in with its
current contents and returned with its final contents.  The request builders
of `EthBasePort.cpp` have no parameter for the extra `doNotForward` argument
that the call sites of `EthUdpPort.cpp` pass; the value computed at the call
site is recorded in the trace (`PortEvent.encode`) and does not reach the
packet. -/

/-- The test `eth_read_callback && !(*eth_read_callback)(*this, node, outStr)`
made between sending a read request and receiving the response. -/
def callbackAborts (cb : Option EthCallbackType) (node : Nat) : Bool :=
  match cb with
  | some f => !f node
  | none => false

/-- Method `EthUdpPort::ReadQuadletNode` (diagnostic output omitted). -/
def ReadQuadletNode (st : Port) (node addr data flags : Nat) : Bool × Nat × Port :=
  -- Flush before reading
  let (_numFlushed, sock) := st.sock.FlushRecv
  let st := { st with sock := sock }
  -- Increment transaction label
  let st := { st with fw_tl := (st.fw_tl + 1) &&& FW_TL_MASK }
  -- Build FireWire packet
  let sendPacket := make_qread_packet node addr st.fw_tl
  let st := st.noteEncode QREAD ((flags &&& FW_NODE_NOFORWARD_MASK) != 0)
  let (nSent, sock) := st.sock.Send (bytesOfQuads sendPacket) FW_QREAD_SIZE
    ((flags &&& FW_NODE_ETH_BROADCAST_MASK) != 0)
  let st := { st with sock := sock }
  if nSent != static_cast_int FW_QREAD_SIZE then (false, data, st)
  else if callbackAborts st.eth_read_callback node then (false, data, st)
  else
    let (nRecv, recvPacket, sock) := st.sock.Recv FW_QRESPONSE_SIZE
    let st := { st with sock := sock }
    if nRecv != static_cast_int FW_QRESPONSE_SIZE then (false, data, st)
    else if !CheckFirewirePacket recvPacket 0 node QRESPONSE st.fw_tl then (false, data, st)
    else (true, bswap_32 (quadAt recvPacket 12), st)

/-- Method `EthUdpPort::WriteQuadletNode`. -/
def WriteQuadletNode (st : Port) (node addr data flags : Nat) : Bool × Port :=
  -- Increment transaction label
  let st := { st with fw_tl := (st.fw_tl + 1) &&& FW_TL_MASK }
  -- Build FireWire packet (also byteswaps data)
  let buffer := make_qwrite_packet node addr data st.fw_tl
  let st := st.noteEncode QWRITE ((flags &&& FW_NODE_NOFORWARD_MASK) != 0)
  let (nSent, sock) := st.sock.Send (bytesOfQuads buffer) FW_QWRITE_SIZE
    ((flags &&& FW_NODE_ETH_BROADCAST_MASK) != 0)
  let st := { st with sock := sock }
  (nSent == static_cast_int FW_QWRITE_SIZE, st)

/-- Method `EthBasePort::ReadQuadlet` (diagnostic output omitted). -/
def ReadQuadlet (st : Port) (boardId addr data : Nat) : Bool × Nat × Port :=
  if !CheckFwBusGeneration st then (false, data, st)
  else
    let node := ConvertBoardToNode st boardId
    if node == MAX_NODES then (false, data, st)
    else ReadQuadletNode st node addr data (boardId &&& FW_NODE_FLAGS_MASK)

/-- Method `EthBasePort::WriteQuadlet` (diagnostic output omitted). -/
def WriteQuadlet (st : Port) (boardId addr data : Nat) : Bool × Port :=
  if !CheckFwBusGeneration st then (false, st)
  else
    let node := ConvertBoardToNode st boardId
    if node == MAX_NODES then (false, st)
    else WriteQuadletNode st node addr data (boardId &&& FW_NODE_FLAGS_MASK)

/-- Method `EthUdpPort::ReadBlock` (diagnostic output omitted); `rdata` is the
caller's quadlet buffer. -/
def ReadBlock (st : Port) (boardId addr : Nat) (rdata : List Nat) (nbytes : Nat) :
    Bool × List Nat × Port :=
  if nbytes == 4 then
    let r := ReadQuadlet st boardId addr (rdata.headD 0)
    (r.1, rdata.set 0 r.2.1, r.2.2)
  else if nbytes == 0 || nbytes % 4 != 0 then (false, rdata, st)
  else
    let node := ConvertBoardToNode st boardId
    if node == MAX_NODES then (false, rdata, st)
    else
      -- Flush before reading
      let (_numFlushed, sock) := st.sock.FlushRecv
      let st := { st with sock := sock }
      -- Increment transaction label
      let st := { st with fw_tl := (st.fw_tl + 1) &&& FW_TL_MASK }
      -- Build FireWire packet
      let sendPacket := make_bread_packet node addr nbytes st.fw_tl
      let st := st.noteEncode BREAD ((boardId &&& FW_NODE_NOFORWARD_MASK) != 0)
      let (nSent, sock) := st.sock.Send (bytesOfQuads sendPacket) FW_BREAD_SIZE
        ((boardId &&& FW_NODE_ETH_BROADCAST_MASK) != 0)
      let st := { st with sock := sock }
      if nSent != static_cast_int FW_BREAD_SIZE then (false, rdata, st)
      else if callbackAborts st.eth_read_callback node then (false, rdata, st)
      else
        let packetSize := FW_BRESPONSE_HEADER_SIZE + nbytes + FW_CRC_SIZE
        let (nRecv, recvPacket, sock) := st.sock.Recv packetSize
        let st := { st with sock := sock }
        if nRecv != static_cast_int packetSize then (false, rdata, st)
        else if !CheckFirewirePacket recvPacket nbytes node BRESPONSE st.fw_tl then
          (false, rdata, st)
        else
          (true, memcpyQuads rdata 0 (quadsAt recvPacket 20 (nbytes / 4)) (nbytes / 4), st)

/-- Method `EthUdpPort::WriteBlock` (diagnostic output omitted). -/
def WriteBlock (st : Port) (boardId addr : Nat) (wdata : WData) (nbytes : Nat) : Bool × Port :=
  if nbytes == 4 then
    WriteQuadlet st boardId addr ((wdata.deref st).headD 0)
  else if nbytes == 0 || nbytes % 4 != 0 then (false, st)
  else
    let node := ConvertBoardToNode st boardId
    if node == MAX_NODES then (false, st)
    else
      -- Packet to send
      let packetSize := FW_BWRITE_HEADER_SIZE + nbytes + FW_CRC_SIZE
      -- Check for real-time write
      let boardId := boardId &&& FW_NODE_MASK
      let realTimeWrite := boardId < MAX_BOARDS && wdata == WData.boardBuffer boardId &&
        nbytes ≤ (st.BoardList boardId).WriteNumBytes
      let packet :=
        if realTimeWrite then (st.BoardList boardId).WriteBuffer
        else List.replicate packetSize 0
      -- Build FireWire packet
      let packet := make_bwrite_packet packet node addr
        (if realTimeWrite then none else some (wdata.deref st)) nbytes st.fw_tl
      let st :=
        if realTimeWrite then
          { st with BoardList := fun b =>
              if b = boardId then { st.BoardList boardId with WriteBuffer := packet }
              else st.BoardList b }
        else st
      let st := st.noteEncode BWRITE ((boardId &&& FW_NODE_NOFORWARD_MASK) != 0)
      let (nSent, sock) := st.sock.Send (bytesOfQuads packet) packetSize
        ((boardId &&& FW_NODE_ETH_BROADCAST_MASK) != 0)
      let st := { st with sock := sock }
      (nSent == static_cast_int packetSize, st)

/-- A call of one of the four transaction methods, with its arguments. -/
inductive Call where
  | ReadQuadletNode (node addr data flags : Nat)
  | WriteQuadletNode (node addr data flags : Nat)
  | ReadBlock (boardId addr : Nat) (rdata : List Nat) (nbytes : Nat)
  | WriteBlock (boardId addr : Nat) (wdata : WData) (nbytes : Nat)

/-- The port state after a call. -/
def Call.run (st : Port) : Call → Port
  | Call.ReadQuadletNode node addr data flags => (Amp1394.ReadQuadletNode st node addr data flags).2.2
  | Call.WriteQuadletNode node addr data flags => (Amp1394.WriteQuadletNode st node addr data flags).2
  | Call.ReadBlock boardId addr rdata nbytes => (Amp1394.ReadBlock st boardId addr rdata nbytes).2.2
  | Call.WriteBlock boardId addr wdata nbytes => (Amp1394.WriteBlock st boardId addr wdata nbytes).2

/-- The port state after a sequence of calls, first call first. -/
def runCalls (st : Port) (calls : List Call) : Port := calls.foldl Call.run st

/-! ## Sample states for concrete evaluations -/

/-- A network on which every message is sent in full and nothing answers. -/
def quietSocket : SocketInternals :=
  { pending := [], sendto := fun msg _ => (msg.length : Nat), peer := fun _ _ => [],
    ServerAddr := 0, trace := [] }

/-- A port with boards 0..3 mapped to nodes 0..3, every board holding a write
buffer for 16 data bytes, the label counter at `tl` and the latched bus
generation `newGen` against the acknowledged generation 1. -/
def samplePort (tl newGen : Nat) : Port :=
  { fw_tl := tl, is_fw_master := false, FwBusReset := false, FwBusGeneration := 1,
    newFwBusGeneration := newGen, HubBoard := 0,
    Board2Node := fun b => if b < 4 then b else MAX_NODES,
    Node2Board := fun n => if n < 4 then n else MAX_BOARDS,
    BoardList := fun _ => { WriteBuffer := List.replicate 10 0, WriteNumBytes := 16 },
    eth_read_callback := none, sock := quietSocket }

/-- The bytes `WriteBlock` hands to `Send` for a block write: the first
`FW_BWRITE_HEADER_SIZE + nBytes + FW_CRC_SIZE` bytes of the buffer filled in by
`make_bwrite_packet`. -/
def bwrite_wire (packet : List Nat) (node addr : Nat) (data : Option (List Nat))
    (nBytes tl : Nat) : List Nat :=
  (bytesOfQuads (make_bwrite_packet packet node addr data nBytes tl)).take
    (FW_BWRITE_HEADER_SIZE + nBytes + FW_CRC_SIZE)

/-- The payload quadlets of a block write of `n` quadlets: the caller's
quadlets, or, when the caller's pointer is the data area of `packet` itself,
the quadlets already stored there. -/
def bwrite_payload (packet : List Nat) (data : Option (List Nat)) (n : Nat) : List Nat :=
  match data with
  | some d => d
  | none => (packet.drop (FW_BWRITE_HEADER_SIZE / 4)).take n

/-- The label field (`byte[2] >> 2`) of every message sent in a trace, in order. -/
def sentLabels : List PortEvent → List Nat
  | [] => []
  | PortEvent.send msg _ _ :: rest => (byteAt msg 2 >>> 2) :: sentLabels rest
  | _ :: rest => sentLabels rest

/-! ## Observers of the trace -/

/-- The counts reported by the `Send` calls of a trace, in order. -/
def sendReports : List PortEvent → List Int
  | [] => []
  | PortEvent.send _ _ retval :: rest => retval :: sendReports rest
  | _ :: rest => sendReports rest

/-- The counts reported by the `Recv` calls of a trace, in order. -/
def recvReports : List PortEvent → List Int
  | [] => []
  | PortEvent.recv _ retval :: rest => retval :: recvReports rest
  | _ :: rest => recvReports rest

/-- The `useBroadcast` argument of the `Send` calls of a trace, in order. -/
def sendBroadcasts : List PortEvent → List Bool
  | [] => []
  | PortEvent.send _ useBroadcast _ :: rest => useBroadcast :: sendBroadcasts rest
  | _ :: rest => sendBroadcasts rest

/-- The `doNotForward` argument of the request builder calls of a trace, in order. -/
def encodeNoForwards : List PortEvent → List Bool
  | [] => []
  | PortEvent.encode _ doNotForward :: rest => doNotForward :: encodeNoForwards rest
  | _ :: rest => encodeNoForwards rest

/-- The events a call added to the trace: those of the state `after` beyond
the ones already present in the state `before`. -/
def eventsSince (before after : Port) : List PortEvent :=
  after.sock.trace.drop before.sock.trace.length

/-- The bytes that reach the receive buffer of a read transaction: the socket
is flushed, the first `msglen` bytes of `bufsend` are sent, and `Recv` is called
with room for `maxlen` bytes. -/
def responseTo (sock : SocketInternals) (bufsend : List Nat) (msglen : Nat)
    (useBroadcast : Bool) (maxlen : Nat) : List Nat :=
  ((sock.FlushRecv.2.Send bufsend msglen useBroadcast).2.Recv maxlen).2.1

/-! ## Opening the socket and scanning (`EthUdpPort.cpp`) -/

/-- The value of `s_addr` for the IPv4 address `a.b.c.d`: network byte order,
read as a 32-bit integer by the little-endian host. -/
def s_addr_of (a b c d : Nat) : Nat := a + b * 256 + c * 65536 + d * 16777216

/-- The broadcast address `ServerAddrBroadcast.sin_addr.s_addr` computed by
`SocketInternals::Open` from `ServerAddr.sin_addr.s_addr`. -/
def Open_ServerAddrBroadcast (s_addr : Nat) : Nat :=
  let firstByte := u8 (s_addr &&& 0x000000ff)
  if firstByte < 128 then u32 (s_addr ||| 0xffffff00)
  else if firstByte < 192 then u32 (s_addr ||| 0xffff0000)
  else if firstByte < 224 then u32 (s_addr ||| 0xff000000)
  else 0xffffffff

/-- Constant `BOARD_ID_MASK`, declared in a missing header; the value is the
one stated in the comment of `InitNodes` (board id is bits 27-24). -/
def BOARD_ID_MASK : Nat := 0x0f000000

/-- Method `EthUdpPort::InitNodes` (diagnostic output omitted).  The constant
`QLA1_String` is declared in a missing header and is a parameter. -/
def InitNodes (QLA1_String : Nat) (st : Port) : Nat × Port :=
  -- First, set IP address by Ethernet and FireWire broadcast
  let r := WriteQuadletNode st FW_NODE_BROADCAST 11 st.sock.ServerAddr FW_NODE_ETH_BROADCAST_MASK
  if !r.1 then (0, r.2)
  else
    let st := r.2
    let data := 0x0
    -- Check hardware version of hub board
    let r := ReadQuadletNode st FW_NODE_BROADCAST 4 data FW_NODE_NOFORWARD_MASK
    if !r.1 then (0, r.2.2)
    else
      let data := r.2.1
      let st := r.2.2
      if data != QLA1_String then (0, st)
      else
        -- Find board id for first board
        let r := ReadQuadletNode st FW_NODE_BROADCAST 0 data FW_NODE_NOFORWARD_MASK
        if !r.1 then (0, r.2.2)
        else
          let data := r.2.1
          let st := r.2.2
          let st := { st with HubBoard := (data &&& BOARD_ID_MASK) >>> 24 }
          if st.is_fw_master then
            -- Set eth1394 flag on all boards
            let data := 0x00C00000
            let r := WriteQuadletNode st FW_NODE_BROADCAST 0 data 0
            if !r.1 then (0, r.2)
            else (MAX_BOARDS, r.2)
          else (MAX_BOARDS, st)

/-- Method `EthBasePort::WriteBroadcastReadRequest`; the member
`BoardInUseMask_` of the base class is a parameter. -/
def WriteBroadcastReadRequest (BoardInUseMask_ : Nat) (st : Port) (seq : Nat) : Bool × Port :=
  let bcReqData := u32 ((seq <<< 16) ||| BoardInUseMask_)
  WriteQuadlet st FW_NODE_BROADCAST 0x1800 bcReqData

/-- The sample port on a network whose peer answers every message with the
single datagram `resp`. -/
def respondingPort (tl newGen : Nat) (resp : List Nat) : Port :=
  { samplePort tl newGen with sock := { quietSocket with peer := fun _ _ => [resp] } }

/-- The label a request carries when it is issued from the state `st` by a
call that advances the counter first. -/
def nextLabel (st : Port) : Nat := (st.fw_tl + 1) &&& FW_TL_MASK

/-- The buffer `ReadQuadletNode` hands to `Send`. -/
def qread_bytes (st : Port) (node addr : Nat) : List Nat :=
  bytesOfQuads (make_qread_packet node addr (nextLabel st))

/-- The count `Send` reports to `ReadQuadletNode`. -/
def qread_sent (st : Port) (node addr flags : Nat) : Int :=
  st.sock.sendto ((qread_bytes st node addr).take FW_QREAD_SIZE)
    ((flags &&& FW_NODE_ETH_BROADCAST_MASK) != 0)

/-- The bytes `Recv` stores in the buffer `recvPacket` of `ReadQuadletNode`. -/
def qread_response (st : Port) (node addr flags : Nat) : List Nat :=
  responseTo st.sock (qread_bytes st node addr) FW_QREAD_SIZE
    ((flags &&& FW_NODE_ETH_BROADCAST_MASK) != 0) FW_QRESPONSE_SIZE

/-- The buffer the block path of `ReadBlock` hands to `Send`. -/
def bread_bytes (st : Port) (boardId addr nbytes : Nat) : List Nat :=
  bytesOfQuads (make_bread_packet (ConvertBoardToNode st boardId) addr nbytes (nextLabel st))

/-- The count `Send` reports to the block path of `ReadBlock`. -/
def bread_sent (st : Port) (boardId addr nbytes : Nat) : Int :=
  st.sock.sendto ((bread_bytes st boardId addr nbytes).take FW_BREAD_SIZE)
    ((boardId &&& FW_NODE_ETH_BROADCAST_MASK) != 0)

/-- The bytes `Recv` stores in the buffer `recvPacket` of the block path of
`ReadBlock`. -/
def bread_response (st : Port) (boardId addr nbytes : Nat) : List Nat :=
  responseTo st.sock (bread_bytes st boardId addr nbytes) FW_BREAD_SIZE
    ((boardId &&& FW_NODE_ETH_BROADCAST_MASK) != 0)
    (FW_BRESPONSE_HEADER_SIZE + nbytes + FW_CRC_SIZE)

/-- A 32-byte block response from node 2 with label 6, whose length field
holds `len` and whose payload is the eight bytes 0x11 .. 0x88. -/
def sampleBlockResponse (len : Nat) : List Nat :=
  [0xFF, 0xC0, 0x18, 0x70, 0xFF, 0xC2, 0, 0, 0, 0, 0, 0, len / 256 % 256, len % 256, 0, 0,
   0, 0, 0, 0, 0x11, 0x22, 0x33, 0x44, 0x55, 0x66, 0x77, 0x88, 0, 0, 0, 0]

/-- A 20-byte quadlet response from node 2 with label 6, whose data quadlet
holds the four bytes `data`. -/
def sampleQuadletResponse (data : List Nat) : List Nat :=
  [0xFF, 0xC0, 0x18, 0x60, 0xFF, 0xC2, 0, 0, 0, 0, 0, 0] ++ data.take 4 ++ [0, 0, 0, 0]

/-- Step 1 of the handshake of `InitNodes`: the broadcast write of the host
address to address 11. -/
def InitNodes_step1 (st : Port) : Bool × Port :=
  WriteQuadletNode st FW_NODE_BROADCAST 11 st.sock.ServerAddr FW_NODE_ETH_BROADCAST_MASK

/-- Step 2 of the handshake of `InitNodes`: the read of the hardware version
at address 4, on the state left by step 1. -/
def InitNodes_step2 (st : Port) : Bool × Nat × Port :=
  ReadQuadletNode (InitNodes_step1 st).2 FW_NODE_BROADCAST 4 0x0 FW_NODE_NOFORWARD_MASK

/-- Step 3 of the handshake of `InitNodes`: the read of the board id at
address 0, on the state left by step 2. -/
def InitNodes_step3 (st : Port) : Bool × Nat × Port :=
  ReadQuadletNode (InitNodes_step2 st).2.2 FW_NODE_BROADCAST 0 (InitNodes_step2 st).2.1
    FW_NODE_NOFORWARD_MASK

/-- The state of `InitNodes` after step 3, with `HubBoard` stored. -/
def InitNodes_hubState (st : Port) : Port :=
  { (InitNodes_step3 st).2.2 with
      HubBoard := ((InitNodes_step3 st).2.1 &&& BOARD_ID_MASK) >>> 24 }

/-- Step 4 of the handshake of `InitNodes`, made by the FireWire master only:
the broadcast write that sets the eth1394 mode. -/
def InitNodes_step4 (st : Port) : Bool × Port :=
  WriteQuadletNode (InitNodes_hubState st) FW_NODE_BROADCAST 0 0x00C00000 0

/-! ## Extra data of a response -/

/-- Method `EthBasePort::OnFwBusReset`: the generation reported by the FPGA is
latched (the message written to `outStr` is not part of the state). -/
def OnFwBusReset (st : Port) (FwBusGeneration_FPGA : Nat) : Port :=
  { st with newFwBusGeneration := FwBusGeneration_FPGA }

/-- Method `EthBasePort::ProcessExtraData` on the extra-data block `packet`.
The members `FPGA_RecvTime` and `FPGA_TotalTime` are floating-point timing
diagnostics and are not part of the state. -/
def ProcessExtraData (st : Port) (packet : List Nat) : Port :=
  let FwBusGeneration_FPGA := byteAt packet 1
  let st := { st with FwBusReset := (byteAt packet 0 &&& 0x01) != 0 }
  if FwBusGeneration_FPGA != st.FwBusGeneration then OnFwBusReset st FwBusGeneration_FPGA
  else st

/-! ## Reference definitions of the checksum

These definitions follow the words of the specification, not the code; the
theorems compare them with `crc32_tab`, `BitReverseTable`, `BitReverse32` and
`crc32`, which are translated from the source. -/

/-- Specification side: one step of the bit-serial reflected CRC-32,
`c := (c >> 1) xor (0xEDB88320 if the low bit of c is 1, else 0)`. -/
def spec_reflected_step (c : Nat) : Nat :=
  (c >>> 1) ^^^ (if c % 2 = 1 then 0xEDB88320 else 0)

/-- Specification side: entry `i` of the standard reflected CRC-32 table, eight
steps starting from `i`. -/
def spec_table_entry (i : Nat) : Nat := spec_reflected_step^[8] i

/-- Specification side: a byte with its eight bits in reverse order. -/
def spec_reverse_byte (b : Nat) : Nat :=
  (List.range 8).foldl (fun acc j => acc + (if b.testBit j then 2 ^ (7 - j) else 0)) 0

/-- Specification side: the standard table-driven reflected CRC-32 update, seed
complemented on entry, result complemented on exit. -/
def spec_reflected_crc32 (seed : Nat) (bytes : List Nat) : Nat :=
  let crc := u32 seed ^^^ 0xFFFFFFFF
  let crc := bytes.foldl
    (fun c b => crc32_tab.getD ((c ^^^ u8 b) &&& 0xFF) 0 ^^^ (c >>> 8)) crc
  crc ^^^ 0xFFFFFFFF

/-- Specification side: one step of the bit-serial MSB-first CRC-32 with
polynomial 0x04C11DB7 on a 32-bit register. -/
def spec_msb_step (c : Nat) : Nat :=
  ((c <<< 1) % 2 ^ 32) ^^^ (if c / 2 ^ 31 % 2 = 1 then 0x04C11DB7 else 0)

/-- Specification side: one byte of the MSB-first CRC-32: the byte enters at the
top of the register and is shifted out bit by bit, most significant bit first. -/
def spec_msb_byte (c b : Nat) : Nat := spec_msb_step^[8] (c ^^^ (u8 b <<< 24))

/-- Specification side: the non-reflected CRC-32 with polynomial 0x04C11DB7,
initial value 0xFFFFFFFF and final xor 0xFFFFFFFF. -/
def spec_msb_crc32 (bytes : List Nat) : Nat :=
  bytes.foldl spec_msb_byte 0xFFFFFFFF ^^^ 0xFFFFFFFF

/-! ## The PROM programmer (`pgm1394.cpp`) -/

/-- The constant `SECTOR_SIZE`: bytes in one PROM sector. -/
def SECTOR_SIZE : Nat := 65536

/-- The constant `MAX_LINE`: data bytes in one line of the MCS file. -/
def MAX_LINE : Nat := 16

/-- The scan of `PromDownload` for trailing blank bytes,
`for (numTrailingFF = 0; numTrailingFF < SECTOR_SIZE; numTrailingFF++)
   if (DownloadedSector[SECTOR_SIZE-1-numTrailingFF] != 0xFF) break;`
entered at `numTrailingFF`; the first argument bounds the iterations left and
`SECTOR_SIZE` of them always suffice. -/
def scanTrailingFF (DownloadedSector : List Nat) : Nat → Nat → Nat
  | 0, numTrailingFF => numTrailingFF
  | fuel + 1, numTrailingFF =>
    if numTrailingFF < SECTOR_SIZE then
      if byteAt DownloadedSector (SECTOR_SIZE - 1 - numTrailingFF) != 0xFF then numTrailingFF
      else scanTrailingFF DownloadedSector fuel (numTrailingFF + 1)
    else numTrailingFF

/-- The scan of `PromDownload` over the following sector,
`for (k = 0; k < SECTOR_SIZE; k++) if (nextSector[k] != 0xFF) break;`
entered at `k`. -/
def scanBlank (nextSector : List Nat) : Nat → Nat → Nat
  | 0, k => k
  | fuel + 1, k =>
    if k < SECTOR_SIZE then
      if byteAt nextSector k != 0xFF then k
      else scanBlank nextSector fuel (k + 1)
    else k

/-- One pass of the sector loop of `PromDownload` after both PROM reads have
succeeded: `DownloadedSector` is the sector at `addr` and `nextSector` the one
at `addr + SECTOR_SIZE` (read only when fewer than 256 trailing blanks were
found).  Result: `lastLine`, `extraBytes` and `done`. -/
def PromDownload_sector (DownloadedSector nextSector : List Nat) : Nat × Nat × Bool :=
  let numTrailingFF := scanTrailingFF DownloadedSector SECTOR_SIZE 0
  let r : Nat × Bool :=
    if numTrailingFF > 0 then
      if numTrailingFF < 256 then
        let k := scanBlank nextSector SECTOR_SIZE 0
        if k == SECTOR_SIZE then (numTrailingFF, true)
        else (0, false)
      else (numTrailingFF, true)
    else (numTrailingFF, false)
  let numTrailingFF := r.1
  let lastLine :=
    if numTrailingFF < 256 then SECTOR_SIZE / MAX_LINE
    else (SECTOR_SIZE - numTrailingFF) / MAX_LINE
  let extraBytes := (SECTOR_SIZE - numTrailingFF) % MAX_LINE
  (lastLine, extraBytes, r.2)

/-- The calls of `mcsFile::WriteDataLine` made for one sector, each as the
offset of its source pointer in `DownloadedSector` and its byte count. -/
def PromDownload_lines (DownloadedSector nextSector : List Nat) : List (Nat × Nat) :=
  let lastLine := (PromDownload_sector DownloadedSector nextSector).1
  let extraBytes := (PromDownload_sector DownloadedSector nextSector).2.1
  (List.range lastLine).map (fun j => (j * MAX_LINE, MAX_LINE)) ++
    [(lastLine * MAX_LINE, extraBytes)]

/-- The value `bytesToWrite` of `PromFPGASerialNumberProgram` for a string of
`len` characters. -/
def bytesToWrite (len : Nat) : Nat := u32 (u32 len + 3) &&& 0xFC

/-- The buffer part of `PromFPGASerialNumberProgram` for the string `str`
(board type, blank, serial number): `none` when the string is rejected, otherwise
the stores into `char buffer[20]` in program order, each as index and value. -/
def PromFPGASerialNumber_stores (str : List Nat) : Option (List (Nat × Nat)) :=
  let len := str.length
  if len > 20 then none
  else
    let copies := (List.range len).map (fun i => (i, u8 (str.getD i 0)))
    let pads := (List.range' len (bytesToWrite len - len)).map (fun i => (i, 0xff))
    some (copies ++ pads)

set_option maxRecDepth 100000

/-! ## Bit-level arithmetic -/

theorem and_field (x k w : Nat) :
    x &&& ((2 ^ w - 1) <<< k) = (x / 2 ^ k % 2 ^ w) * 2 ^ k := by
  rw [← Nat.shiftRight_eq_div_pow, ← Nat.and_pow_two_sub_one_eq_mod, ← Nat.shiftLeft_eq]
  apply Nat.eq_of_testBit_eq
  intro i
  simp only [Nat.testBit_and, Nat.testBit_shiftLeft, Nat.testBit_shiftRight,
    Nat.testBit_two_pow_sub_one]
  by_cases h : k ≤ i
  · have : k + (i - k) = i := by omega
    simp [h, this]
  · simp [h]

theorem lor_eq_add (k a b : Nat) (ha : a % 2 ^ k = 0) (hb : b < 2 ^ k) : a ||| b = a + b := by
  have h : a = 2 ^ k * (a / 2 ^ k) := by
    have := Nat.div_add_mod a (2 ^ k)
    omega
  rw [h, ← Nat.mul_add_lt_is_or hb]

theorem lor_eq_add_left (k a b : Nat) (ha : a < 2 ^ k) (hb : b % 2 ^ k = 0) :
    a ||| b = a + b := by
  rw [Nat.or_comm, lor_eq_add k b a hb ha, Nat.add_comm]

theorem lor_bytes (a b c d : Nat) (ha : a < 256) (hb : b < 256) (hc : c < 256) :
    a ||| b * 256 ||| c * 65536 ||| d * 16777216 = a + b * 256 + c * 65536 + d * 16777216 := by
  rw [lor_eq_add_left 8 a (b * 256) (by omega) (by omega),
    lor_eq_add_left 16 (a + b * 256) (c * 65536) (by omega) (by omega),
    lor_eq_add_left 24 (a + b * 256 + c * 65536) (d * 16777216) (by omega) (by omega)]

theorem bswap_32_eq (x : Nat) :
    bswap_32 x = x / 16777216 % 256 + (x / 65536 % 256) * 256 + (x / 256 % 256) * 65536 +
      (x % 256) * 16777216 := by
  have h3 : (x &&& 0xff000000) >>> 24 = x / 16777216 % 256 := by
    rw [show x &&& 0xff000000 = (x / 2 ^ 24 % 2 ^ 8) * 2 ^ 24 from and_field x 24 8,
      Nat.shiftRight_eq_div_pow]
    norm_num
  have h2 : (x &&& 0x00ff0000) >>> 8 = (x / 65536 % 256) * 256 := by
    rw [show x &&& 0x00ff0000 = (x / 2 ^ 16 % 2 ^ 8) * 2 ^ 16 from and_field x 16 8,
      Nat.shiftRight_eq_div_pow]
    norm_num
    omega
  have h1 : (x &&& 0x0000ff00) <<< 8 = (x / 256 % 256) * 65536 := by
    rw [show x &&& 0x0000ff00 = (x / 2 ^ 8 % 2 ^ 8) * 2 ^ 8 from and_field x 8 8,
      Nat.shiftLeft_eq]
    norm_num
    omega
  have h0 : (x &&& 0x000000ff) <<< 24 = (x % 256) * 16777216 := by
    rw [show x &&& 0x000000ff = (x / 2 ^ 0 % 2 ^ 8) * 2 ^ 0 from and_field x 0 8,
      Nat.shiftLeft_eq]
    norm_num
  unfold bswap_32
  rw [h3, h2, h1, h0]
  exact lor_bytes _ _ _ _ (by omega) (by omega) (by omega)

theorem bswap_32_lt (x : Nat) : bswap_32 x < 4294967296 := by
  rw [bswap_32_eq]; omega

theorem bytesOfQuad_of_bytes (a b c d : Nat) (ha : a < 256) (hb : b < 256) (hc : c < 256)
    (hd : d < 256) : bytesOfQuad (a + b * 256 + c * 65536 + d * 16777216) = [a, b, c, d] := by
  simp only [bytesOfQuad, List.cons.injEq, and_true, Nat.reducePow]
  refine ⟨?_, ?_, ?_, ?_⟩ <;> omega

theorem bytesOfQuad_bswap_32 (x : Nat) :
    bytesOfQuad (bswap_32 x) = [x / 16777216 % 256, x / 65536 % 256, x / 256 % 256, x % 256] := by
  rw [bswap_32_eq]
  exact bytesOfQuad_of_bytes _ _ _ _ (Nat.mod_lt _ (by decide)) (Nat.mod_lt _ (by decide))
    (Nat.mod_lt _ (by decide)) (Nat.mod_lt _ (by decide))


theorem header_q0_eq (node tl tcode : Nat) :
    u32 (((0xFFC0 ||| (node &&& FW_NODE_MASK)) <<< 16) ||| ((tl &&& 0x003F) <<< 10) |||
      ((tcode &&& 0x000F) <<< 4) ||| (0 &&& 0x000F)) =
    4290772992 + (node % 64) * 65536 + (tl % 64) * 1024 + (tcode % 16) * 16 := by
  have hn : node &&& FW_NODE_MASK = node % 64 := Nat.and_pow_two_sub_one_eq_mod node 6
  have ht : tl &&& 0x003F = tl % 64 := Nat.and_pow_two_sub_one_eq_mod tl 6
  have hc : tcode &&& 0x000F = tcode % 16 := Nat.and_pow_two_sub_one_eq_mod tcode 4
  rw [hn, ht, hc]
  have hn' : node % 64 < 64 := Nat.mod_lt _ (by decide)
  have ht' : tl % 64 < 64 := Nat.mod_lt _ (by decide)
  have hc' : tcode % 16 < 16 := Nat.mod_lt _ (by decide)
  generalize node % 64 = n at hn' ⊢
  generalize tl % 64 = t at ht' ⊢
  generalize tcode % 16 = c at hc' ⊢
  rw [lor_eq_add 6 0xFFC0 n (by decide) (by omega)]
  simp only [Nat.shiftLeft_eq, Nat.zero_and, Nat.or_zero, Nat.reducePow]
  rw [lor_eq_add 16 _ (t * 1024) (by omega) (by omega),
    lor_eq_add 10 _ (c * 16) (by omega) (by omega)]
  unfold u32
  omega

theorem header_q1_eq (addr : Nat) :
    u32 ((0xFFD0 <<< 16) ||| ((addr &&& 0x0000FFFF00000000) >>> 32)) =
      4291821568 + addr / 4294967296 % 65536 := by
  have h : (addr &&& 0x0000FFFF00000000) >>> 32 = addr / 4294967296 % 65536 := by
    rw [show addr &&& 0x0000FFFF00000000 = (addr / 2 ^ 32 % 2 ^ 16) * 2 ^ 32 from
      and_field addr 32 16, Nat.shiftRight_eq_div_pow]
    norm_num
  rw [h]
  have hb : addr / 4294967296 % 65536 < 65536 := Nat.mod_lt _ (by decide)
  generalize addr / 4294967296 % 65536 = a at hb ⊢
  rw [lor_eq_add 16 _ a (by decide) (by omega)]
  simp only [Nat.shiftLeft_eq, Nat.reducePow]
  unfold u32
  omega

theorem header_q2_eq (addr : Nat) : u32 (addr &&& 0xFFFFFFFF) = addr % 4294967296 := by
  have h : addr &&& 0xFFFFFFFF = addr % 2 ^ 32 := Nat.and_pow_two_sub_one_eq_mod addr 32
  rw [h]
  unfold u32
  omega

/-- The twelve wire bytes of the request header. -/
theorem make_1394_header_bytes (node addr tcode tl : Nat) :
    bytesOfQuads (make_1394_header node addr tcode tl) =
      [255, 192 + node % 64, (tl % 64) * 4, (tcode % 16) * 16,
       255, 208, addr / 1099511627776 % 256, addr / 4294967296 % 256,
       addr / 16777216 % 256, addr / 65536 % 256, addr / 256 % 256, addr % 256] := by
  simp only [make_1394_header, bytesOfQuads, List.flatMap_cons, List.flatMap_nil,
    header_q0_eq, header_q1_eq, header_q2_eq, bytesOfQuad_bswap_32, List.cons_append,
    List.nil_append, List.append_nil]
  have hn' : node % 64 < 64 := Nat.mod_lt _ (by decide)
  have ht' : tl % 64 < 64 := Nat.mod_lt _ (by decide)
  have hc' : tcode % 16 < 16 := Nat.mod_lt _ (by decide)
  generalize node % 64 = n at hn' ⊢
  generalize tl % 64 = t at ht' ⊢
  generalize tcode % 16 = c at hc' ⊢
  simp only [List.cons.injEq, and_true]
  refine ⟨?_, ?_, ?_, ?_, ?_, ?_, ?_, ?_, ?_, ?_, ?_, ?_⟩ <;> omega

theorem byteAt_lt (p : List Nat) (i : Nat) : byteAt p i < 256 := by
  unfold byteAt u8
  exact Nat.mod_lt _ (by decide)

theorem length_recv_eq (packet : List Nat) :
    (byteAt packet 12 <<< 8) ||| byteAt packet 13 = 256 * byteAt packet 12 + byteAt packet 13 := by
  rw [lor_eq_add 8 _ _ (by rw [Nat.shiftLeft_eq]; omega) (byteAt_lt packet 13), Nat.shiftLeft_eq]
  omega

/-! ## Packet codec: header round trip and response validation -/

/-- C1: for node in 0..63, a 48-bit address, tl in 0..63 and tcode in 0..15, the
twelve wire bytes written by `make_1394_header` decode back to those fields:
`byte[1] & 0x3F = node`, `byte[2] >> 2 = tl`, `byte[3] >> 4 = tcode`, and bytes
6..11 read big-endian give the address. -/
theorem make_1394_header_roundtrip (node addr tl tcode : Nat) (hnode : node < 64)
    (haddr : addr < 2 ^ 48) (htl : tl < 64) (htcode : tcode < 16) :
    (bytesOfQuads (make_1394_header node addr tcode tl)).length = 12 ∧
    byteAt (bytesOfQuads (make_1394_header node addr tcode tl)) 1 &&& 0x3F = node ∧
    byteAt (bytesOfQuads (make_1394_header node addr tcode tl)) 2 >>> 2 = tl ∧
    byteAt (bytesOfQuads (make_1394_header node addr tcode tl)) 3 >>> 4 = tcode ∧
    beAt (bytesOfQuads (make_1394_header node addr tcode tl)) 6 6 = addr := by
  rw [make_1394_header_bytes]
  have hmask : ∀ x : Nat, x &&& 0x3F = x % 64 := fun x => Nat.and_pow_two_sub_one_eq_mod x 6
  simp only [beAt, byteAt, u8, hmask, Nat.shiftRight_eq_div_pow, List.getD_cons_succ,
    List.getD_cons_zero, List.length_cons, List.length_nil, Nat.reducePow, Nat.reduceAdd]
  refine ⟨trivial, ?_, ?_, ?_, ?_⟩ <;> omega

/-- Instance of C1 at node 5, address 0x123456789ABC, tl 9, tcode QREAD. -/
theorem make_1394_header_roundtrip_witness :
    (bytesOfQuads (make_1394_header 5 0x123456789ABC 4 9)).length = 12 ∧
    byteAt (bytesOfQuads (make_1394_header 5 0x123456789ABC 4 9)) 1 &&& 0x3F = 5 ∧
    byteAt (bytesOfQuads (make_1394_header 5 0x123456789ABC 4 9)) 2 >>> 2 = 9 ∧
    byteAt (bytesOfQuads (make_1394_header 5 0x123456789ABC 4 9)) 3 >>> 4 = 4 ∧
    beAt (bytesOfQuads (make_1394_header 5 0x123456789ABC 4 9)) 6 6 = 0x123456789ABC :=
  make_1394_header_roundtrip 5 0x123456789ABC 9 4 (by decide) (by decide) (by decide) (by decide)

/-- C2: `CheckFirewirePacket` returns true exactly when the received tcode
`packet[3] >> 4` is the expected one, the expected node is the broadcast node 63
or equals `packet[5] & 0x3F`, and the expected tcode is not BRESPONSE (7) or
`256*packet[12] + packet[13]` is the expected length; otherwise it returns false. -/
theorem CheckFirewirePacket_iff (packet : List Nat) (length node tcode tl : Nat) :
    CheckFirewirePacket packet length node tcode tl = true ↔
      (byteAt packet 3 >>> 4 = tcode ∧
       (node = 63 ∨ byteAt packet 5 &&& 0x3F = node) ∧
       (tcode ≠ 7 ∨ 256 * byteAt packet 12 + byteAt packet 13 = length)) := by
  unfold CheckFirewirePacket
  simp only [checkCRC, length_recv_eq, FW_NODE_BROADCAST, FW_NODE_MASK, BRESPONSE]
  by_cases h1 : byteAt packet 3 >>> 4 = tcode
  · by_cases h2 : node = 63
    · by_cases h3 : tcode = 7 <;> by_cases h4 : 256 * byteAt packet 12 + byteAt packet 13 = length <;>
        simp [h1, h2, h3, h4]
    · by_cases h3 : tcode = 7 <;> by_cases h4 : 256 * byteAt packet 12 + byteAt packet 13 = length <;>
        by_cases h5 : byteAt packet 5 &&& 63 = node <;> simp [h1, h2, h3, h4, h5]
  · simp [h1]

/-- C3: the expected transaction label has no influence on the verdict of
`CheckFirewirePacket`: a label mismatch is a warning only. -/
theorem CheckFirewirePacket_tl_irrelevant (packet : List Nat) (length node tcode tl1 tl2 : Nat) :
    CheckFirewirePacket packet length node tcode tl1 =
      CheckFirewirePacket packet length node tcode tl2 := by
  unfold CheckFirewirePacket
  simp only [ite_self]

/-! ## CRC seal of the request packets -/

theorem BitReverseTable_all_lt : BitReverseTable.all (fun b => decide (b < 256)) = true := by
  decide

theorem BitReverseTable_lt (i : Nat) : BitReverseTable.getD i 0 < 256 := by
  have hall := BitReverseTable_all_lt
  rw [List.getD_eq_getElem?_getD]
  cases h : BitReverseTable[i]? with
  | none => simp
  | some b =>
    have hmem : b ∈ BitReverseTable := List.getElem?_mem h
    simpa using (List.all_eq_true.mp hall) b hmem

theorem BitReverse32_lt (x : Nat) : BitReverse32 x < 2 ^ 32 := by
  unfold BitReverse32
  simp only [Nat.zero_or]
  refine Nat.or_lt_two_pow (Nat.or_lt_two_pow (Nat.or_lt_two_pow ?_ ?_) ?_) ?_
  · exact Nat.mod_lt _ (by decide)
  · exact Nat.mod_lt _ (by decide)
  · exact Nat.mod_lt _ (by decide)
  · exact Nat.lt_trans (BitReverseTable_lt _) (by decide)

theorem bytesOfQuads_append (a b : List Nat) :
    bytesOfQuads (a ++ b) = bytesOfQuads a ++ bytesOfQuads b := by
  simp [bytesOfQuads, List.flatMap_append]

theorem bytesOfQuads_length (qs : List Nat) : (bytesOfQuads qs).length = 4 * qs.length := by
  induction qs with
  | nil => rfl
  | cons q qs ih =>
    simp only [bytesOfQuads, List.flatMap_cons, List.length_append, List.length_cons] at ih ⊢
    simp only [bytesOfQuad, List.length_cons, List.length_nil]
    omega

theorem byteAt_append_right (a b : List Nat) (i : Nat) :
    byteAt (a ++ b) (a.length + i) = byteAt b i := by
  simp [byteAt, List.getD_eq_getElem?_getD, List.getElem?_append_right]

theorem beAt_append_right (a b : List Nat) (i n : Nat) :
    beAt (a ++ b) (a.length + i) n = beAt b i n := by
  induction n with
  | zero => rfl
  | succ n ih =>
    simp only [beAt, ih, Nat.add_assoc, byteAt_append_right]

/-- A quadlet stored byte-swapped reads back big-endian from the wire. -/
theorem beAt_bswap_32 (x : Nat) (hx : x < 2 ^ 32) : beAt (bytesOfQuad (bswap_32 x)) 0 4 = x := by
  rw [bytesOfQuad_bswap_32]
  simp only [beAt, byteAt, u8, List.getD_cons_succ, List.getD_cons_zero, Nat.reducePow,
    Nat.reduceAdd, Nat.zero_add] at hx ⊢
  omega

/-- The seal step shared by the request builders: appending the byte-swapped
`BitReverse32(crc32(0, body))` to a body of `k` quadlets makes the last wire
quadlet read big-endian as that CRC. -/
theorem sealed_last_quadlet (body : List Nat) (k : Nat) (hk : body.length = k) :
    beAt (bytesOfQuads (body ++ [bswap_32 (BitReverse32 (crc32 0
        ((bytesOfQuads body).take (4 * k))))])) (4 * k) 4 =
      BitReverse32 (crc32 0 (bytesOfQuads body)) ∧
    (bytesOfQuads (body ++ [bswap_32 (BitReverse32 (crc32 0
        ((bytesOfQuads body).take (4 * k))))])).take (4 * k) = bytesOfQuads body := by
  have hlen : (bytesOfQuads body).length = 4 * k := by rw [bytesOfQuads_length, hk]
  have htake : (bytesOfQuads body).take (4 * k) = bytesOfQuads body := by
    rw [← hlen]; exact List.take_length _
  rw [htake, bytesOfQuads_append]
  constructor
  · have := beAt_append_right (bytesOfQuads body)
      (bytesOfQuads [bswap_32 (BitReverse32 (crc32 0 (bytesOfQuads body)))]) 0 4
    rw [hlen, Nat.add_zero] at this
    rw [this]
    have hq : bytesOfQuads [bswap_32 (BitReverse32 (crc32 0 (bytesOfQuads body)))] =
        bytesOfQuad (bswap_32 (BitReverse32 (crc32 0 (bytesOfQuads body)))) := by
      simp [bytesOfQuads]
    rw [hq]
    exact beAt_bswap_32 _ (BitReverse32_lt _)
  · rw [← hlen]
    exact List.take_left _ _

theorem make_1394_header_length (node addr tcode tl : Nat) :
    (make_1394_header node addr tcode tl).length = 3 := rfl

/-- C4: in the packets built by `make_qread_packet` (16 bytes),
`make_qwrite_packet` (20 bytes) and `make_bread_packet` (20 bytes) the last
quadlet, read big-endian from the wire bytes, is
`BitReverse32(crc32(0, all preceding bytes))`, i.e. the CRC over the first 12, 16
and 16 bytes respectively. -/
theorem request_packets_crc_sealed (node addr data nBytes tl : Nat) :
    ((bytesOfQuads (make_qread_packet node addr tl)).length = 16 ∧
      beAt (bytesOfQuads (make_qread_packet node addr tl)) 12 4 =
        BitReverse32 (crc32 0 ((bytesOfQuads (make_qread_packet node addr tl)).take 12))) ∧
    ((bytesOfQuads (make_qwrite_packet node addr data tl)).length = 20 ∧
      beAt (bytesOfQuads (make_qwrite_packet node addr data tl)) 16 4 =
        BitReverse32 (crc32 0 ((bytesOfQuads (make_qwrite_packet node addr data tl)).take 16))) ∧
    ((bytesOfQuads (make_bread_packet node addr nBytes tl)).length = 20 ∧
      beAt (bytesOfQuads (make_bread_packet node addr nBytes tl)) 16 4 =
        BitReverse32 (crc32 0 ((bytesOfQuads (make_bread_packet node addr nBytes tl)).take 16))) := by
  refine ⟨⟨?_, ?_⟩, ⟨?_, ?_⟩, ⟨?_, ?_⟩⟩
  · simp [make_qread_packet, bytesOfQuads_length, make_1394_header_length]
  · have h := sealed_last_quadlet (make_1394_header node addr QREAD tl) 3 rfl
    exact h.2.symm ▸ h.1
  · simp [make_qwrite_packet, bytesOfQuads_length, make_1394_header_length]
  · have h := sealed_last_quadlet (make_1394_header node addr QWRITE tl ++ [bswap_32 (u32 data)])
      4 rfl
    exact h.2.symm ▸ h.1
  · simp [make_bread_packet, bytesOfQuads_length, make_1394_header_length]
  · have h := sealed_last_quadlet
      (make_1394_header node addr BREAD tl ++ [bswap_32 (u32 ((nBytes &&& 0xffff) <<< 16))]) 4 rfl
    exact h.2.symm ▸ h.1

/-! ## Block write packet layout -/

theorem bytesOfQuads_take_of_length (a b : List Nat) (k : Nat) (h : 4 * a.length = k) :
    (bytesOfQuads (a ++ b)).take k = bytesOfQuads a := by
  rw [bytesOfQuads_append, ← h, ← bytesOfQuads_length]
  exact List.take_left _ _

/-- Shape of the buffer after `make_bwrite_packet`: five header quadlets, the
payload, the data CRC, and the untouched rest of the buffer. -/
theorem make_bwrite_packet_eq (a0 a1 a2 a3 a4 c : Nat) (mid tail : List Nat)
    (node addr tl N : Nat) (data : Option (List Nat)) (hmid : mid.length = N)
    (hdata : ∀ d, data = some d → d.length = N) :
    make_bwrite_packet (a0 :: a1 :: a2 :: a3 :: a4 :: (mid ++ c :: tail)) node addr data
        (4 * N) tl =
      (make_1394_header node addr BWRITE tl ++ [bswap_32 (u32 (((4 * N) &&& 0xffff) <<< 16))]) ++
      [bswap_32 (BitReverse32 (crc32 0 (bytesOfQuads
        (make_1394_header node addr BWRITE tl ++
          [bswap_32 (u32 (((4 * N) &&& 0xffff) <<< 16))]))))] ++
      data.getD mid ++
      bswap_32 (BitReverse32 (crc32 0 (bytesOfQuads (data.getD mid)))) :: tail := by
  obtain ⟨h0, h1, h2, hh⟩ : ∃ h0 h1 h2, make_1394_header node addr BWRITE tl = [h0, h1, h2] :=
    ⟨_, _, _, rfl⟩
  have hdiv : 4 * N / 4 = N := by omega
  have hpl : (data.getD mid).length = N := by
    cases data with
    | none => simpa using hmid
    | some d => simpa using hdata d rfl
  have hstep : ∀ P : List Nat, P.length = N →
      (bytesOfQuads (P ++ c :: tail)).take (4 * N) = bytesOfQuads P := fun P hP =>
    bytesOfQuads_take_of_length P (c :: tail) (4 * N) (by rw [hP])
  have hhdr : ∀ x y : Nat, ∀ l : List Nat,
      (bytesOfQuads (h0 :: h1 :: h2 :: x :: y :: l)).take 16 = bytesOfQuads [h0, h1, h2, x] :=
    fun x y l => bytesOfQuads_take_of_length [h0, h1, h2, x] (y :: l) 16 rfl
  have hdrop : ∀ (x0 x1 x2 x3 x4 : Nat) (l : List Nat),
      (x0 :: x1 :: x2 :: x3 :: x4 :: l).drop 5 = l := fun _ _ _ _ _ _ => rfl
  have htake : ∀ (x0 x1 x2 x3 x4 : Nat) (l : List Nat),
      (x0 :: x1 :: x2 :: x3 :: x4 :: l).take 5 = [x0, x1, x2, x3, x4] := fun _ _ _ _ _ _ => rfl
  have hset : ∀ (x0 x1 x2 x3 x4 v : Nat) (l : List Nat),
      (x0 :: x1 :: x2 :: x3 :: x4 :: l).set (5 + N) v = x0 :: x1 :: x2 :: x3 :: x4 :: l.set N v := by
    intro x0 x1 x2 x3 x4 v l
    rw [Nat.add_comm]
    rfl
  have hsetP : ∀ (P : List Nat) (v : Nat), P.length = N →
      (P ++ c :: tail).set N v = P ++ v :: tail := by
    intro P v hP
    rw [← hP]; simp
  have hdropP : ∀ (P : List Nat), P.length = N → (P ++ c :: tail).drop N = c :: tail :=
    fun P hP => List.drop_left' hP
  unfold make_bwrite_packet
  rw [hh]
  simp only [memcpyQuads, FW_BWRITE_HEADER_SIZE, FW_CRC_SIZE, hdiv, List.take_zero,
    List.nil_append, Nat.zero_add, List.cons_append, List.set_cons_succ, List.set_cons_zero,
    Nat.reduceDiv, Nat.reduceSub, hhdr, List.drop_succ_cons, List.drop_zero,
    List.take_succ_cons, List.take_zero]
  cases data with
  | none =>
    simp only [Option.getD_none, hdrop, hset, hstep mid hmid, hsetP mid _ hmid]
  | some d =>
    have hd : d.length = N := hdata d rfl
    have htd : d.take N = d := by rw [← hd]; exact List.take_length _
    have hdropN : ∀ (x0 x1 x2 x3 x4 : Nat) (l : List Nat),
        (x0 :: x1 :: x2 :: x3 :: x4 :: l).drop (5 + N) = l.drop N := by
      intro x0 x1 x2 x3 x4 l
      rw [Nat.add_comm]
      rfl
    simp only [Option.getD_some, hdrop, htake, htd, List.cons_append, List.nil_append,
      hset, hdropN, hdropP mid hmid, hstep d hd, hsetP d _ hd]

theorem byteAt_append_left (a b : List Nat) (i : Nat) (h : i < a.length) :
    byteAt (a ++ b) i = byteAt a i := by
  simp [byteAt, List.getD_eq_getElem?_getD, List.getElem?_append_left h]

theorem beAt_append_left (a b : List Nat) (i n : Nat) (h : i + n ≤ a.length) :
    beAt (a ++ b) i n = beAt a i n := by
  induction n with
  | zero => rfl
  | succ n ih =>
    simp only [beAt]
    rw [ih (by omega), byteAt_append_left a b (i + n) (by omega)]

theorem beAt_append_right_of_length (a b : List Nat) (k n : Nat) (h : a.length = k) :
    beAt (a ++ b) k n = beAt b 0 n := by
  have := beAt_append_right a b 0 n
  rwa [h, Nat.add_zero] at this

/-- The wire bytes of the length quadlet of a block request. -/
theorem length_quadlet_bytes (nBytes : Nat) (h : nBytes < 65536) :
    bytesOfQuad (bswap_32 (u32 ((nBytes &&& 0xffff) <<< 16))) =
      [nBytes / 256, nBytes % 256, 0, 0] := by
  have hm : nBytes &&& 0xffff = nBytes % 2 ^ 16 := Nat.and_pow_two_sub_one_eq_mod nBytes 16
  rw [bytesOfQuad_bswap_32, hm]
  simp only [u32, Nat.shiftLeft_eq, Nat.reducePow, List.cons.injEq, and_true]
  refine ⟨?_, ?_, ?_, ?_⟩ <;> omega

/-- Decomposition of a buffer that has room for a block write of `N` quadlets. -/
theorem buffer_split (packet : List Nat) (N : Nat) (h : 6 + N ≤ packet.length) :
    ∃ (a0 a1 a2 a3 a4 c : Nat) (mid tail : List Nat),
      packet = a0 :: a1 :: a2 :: a3 :: a4 :: (mid ++ c :: tail) ∧ mid.length = N ∧
        mid = (packet.drop 5).take N := by
  match packet, h with
  | [], h | [_], h | [_, _], h | [_, _, _], h | [_, _, _, _], h =>
    exact absurd h (by simp only [List.length_cons, List.length_nil]; omega)
  | a0 :: a1 :: a2 :: a3 :: a4 :: rest, h =>
    have hr : N < rest.length := by simp only [List.length_cons] at h; omega
    have hne : rest.drop N ≠ [] := by
      intro hnil
      have := congrArg List.length hnil
      simp only [List.length_drop, List.length_nil] at this
      omega
    obtain ⟨c, tail, hct⟩ := List.exists_cons_of_ne_nil hne
    refine ⟨a0, a1, a2, a3, a4, c, rest.take N, tail, ?_, ?_, rfl⟩
    · rw [← hct, List.take_append_drop]
    · rw [List.length_take]; omega

/-- C5: for a payload of `N ≥ 1` quadlets (`nBytes = 4N < 65536`) the bytes
sent for a block write are `20+4N+4` long and laid out as: the 12-byte header
with tcode BWRITE, bytes 12..13 big-endian `nBytes`, bytes 14..15 zero, quadlet 4
the big-endian `BitReverse32(crc32(0, first 16 bytes))`, bytes `20..20+4N-1` the
caller's payload bytes unchanged, and the quadlet at byte offset `20+4N` the
big-endian `BitReverse32(crc32(0, payload bytes))`.  The buffer `packet` has
room for the packet; the payload is either copied from the caller's memory
(`some d`) or already in place. -/
theorem make_bwrite_packet_layout (packet : List Nat) (node addr tl N : Nat)
    (data : Option (List Nat)) (hN : 1 ≤ N) (hsize : 4 * N < 65536)
    (hbuf : 6 + N ≤ packet.length) (hdata : ∀ d, data = some d → d.length = N) :
    (bwrite_wire packet node addr data (4 * N) tl).length = 20 + 4 * N + 4 ∧
    (bwrite_wire packet node addr data (4 * N) tl).take 12 =
      bytesOfQuads (make_1394_header node addr BWRITE tl) ∧
    byteAt (bwrite_wire packet node addr data (4 * N) tl) 3 >>> 4 = BWRITE ∧
    beAt (bwrite_wire packet node addr data (4 * N) tl) 12 2 = 4 * N ∧
    byteAt (bwrite_wire packet node addr data (4 * N) tl) 14 = 0 ∧
    byteAt (bwrite_wire packet node addr data (4 * N) tl) 15 = 0 ∧
    beAt (bwrite_wire packet node addr data (4 * N) tl) 16 4 =
      BitReverse32 (crc32 0 ((bwrite_wire packet node addr data (4 * N) tl).take 16)) ∧
    ((bwrite_wire packet node addr data (4 * N) tl).drop 20).take (4 * N) =
      bytesOfQuads (bwrite_payload packet data N) ∧
    beAt (bwrite_wire packet node addr data (4 * N) tl) (20 + 4 * N) 4 =
      BitReverse32 (crc32 0 (bytesOfQuads (bwrite_payload packet data N))) := by
  obtain ⟨a0, a1, a2, a3, a4, c, mid, tail, hp, hmid, hmid'⟩ := buffer_split packet N hbuf
  have hpay : bwrite_payload packet data N = data.getD mid := by
    cases data with
    | none => simp only [bwrite_payload, FW_BWRITE_HEADER_SIZE, Nat.reduceDiv, hmid',
        Option.getD_none]
    | some d => rfl
  have hpl : (data.getD mid).length = N := by
    cases data with
    | none => simpa using hmid
    | some d => simpa using hdata d rfl
  have hA : bytesOfQuads (make_1394_header node addr BWRITE tl ++
      [bswap_32 (u32 (((4 * N) &&& 0xffff) <<< 16))]) =
      bytesOfQuads (make_1394_header node addr BWRITE tl) ++ [4 * N / 256, 4 * N % 256, 0, 0] := by
    rw [bytesOfQuads_append]
    congr 1
    simp only [bytesOfQuads, List.flatMap_cons, List.flatMap_nil, List.append_nil]
    exact length_quadlet_bytes (4 * N) hsize
  have hone : ∀ q : Nat, bytesOfQuads [q] = bytesOfQuad q := fun q => by
    simp [bytesOfQuads]
  have hwire : bwrite_wire packet node addr data (4 * N) tl =
      (bytesOfQuads (make_1394_header node addr BWRITE tl) ++ [4 * N / 256, 4 * N % 256, 0, 0]) ++
      (bytesOfQuad (bswap_32 (BitReverse32 (crc32 0
        (bytesOfQuads (make_1394_header node addr BWRITE tl) ++
          [4 * N / 256, 4 * N % 256, 0, 0])))) ++
      (bytesOfQuads (data.getD mid) ++
       bytesOfQuad (bswap_32 (BitReverse32 (crc32 0 (bytesOfQuads (data.getD mid))))))) := by
    unfold bwrite_wire
    rw [hp, make_bwrite_packet_eq a0 a1 a2 a3 a4 c mid tail node addr tl N data hmid hdata]
    have hsplit : ∀ (X Y Z : List Nat) (w : Nat), X ++ Y ++ Z ++ w :: tail =
        (X ++ Y ++ Z ++ [w]) ++ tail := by
      intro X Y Z w; simp
    rw [hsplit, bytesOfQuads_take_of_length _ tail _ (by
      simp only [List.length_append, List.length_cons, List.length_nil,
        make_1394_header_length, hpl, FW_BWRITE_HEADER_SIZE, FW_CRC_SIZE]; omega)]
    simp only [bytesOfQuads_append, hA, hone, List.append_assoc]
    rw [length_quadlet_bytes (4 * N) hsize]
  rw [hwire, hpay]
  generalize data.getD mid = payload at hpl
  have hlenC : (bytesOfQuads payload).length = 4 * N := by rw [bytesOfQuads_length, hpl]
  have hlenH : (bytesOfQuads (make_1394_header node addr BWRITE tl)).length = 12 := by
    rw [bytesOfQuads_length, make_1394_header_length]
  have hlenA : (bytesOfQuads (make_1394_header node addr BWRITE tl) ++
      [4 * N / 256, 4 * N % 256, 0, 0]).length = 16 := by
    rw [List.length_append, hlenH]; rfl
  have hlenQ : ∀ q : Nat, (bytesOfQuad q).length = 4 := fun _ => rfl
  generalize hcrcA : crc32 0 (bytesOfQuads (make_1394_header node addr BWRITE tl) ++
      [4 * N / 256, 4 * N % 256, 0, 0]) = crcA
  generalize hcrcC : crc32 0 (bytesOfQuads payload) = crcC
  refine ⟨?_, ?_, ?_, ?_, ?_, ?_, ?_, ?_, ?_⟩
  · simp only [List.length_append, hlenA, hlenQ, hlenC]; omega
  · rw [List.append_assoc, List.take_left' hlenH]
  · rw [make_1394_header_bytes]
    simp [byteAt, u8, BWRITE]
  · rw [make_1394_header_bytes]
    simp only [beAt, byteAt, u8, List.cons_append, List.nil_append, List.getD_cons_succ,
      List.getD_cons_zero, Nat.reducePow, Nat.reduceAdd]
    omega
  · rw [make_1394_header_bytes]
    simp [byteAt, u8]
  · rw [make_1394_header_bytes]
    simp [byteAt, u8]
  · rw [List.take_left' hlenA, beAt_append_right_of_length _ _ 16 4 hlenA,
      beAt_append_left _ _ 0 4 (by rw [hlenQ]), ← hcrcA]
    exact beAt_bswap_32 _ (BitReverse32_lt _)
  · rw [← List.append_assoc, List.drop_left' (by rw [List.length_append, hlenA, hlenQ]),
      List.take_left' hlenC]
  · rw [← List.append_assoc, ← List.append_assoc,
      beAt_append_right_of_length _ _ (20 + 4 * N) 4 (by
        simp only [List.length_append, hlenA, hlenQ, hlenC])]
    exact beAt_bswap_32 _ (BitReverse32_lt _)

/-- Instance of C5: a two-quadlet payload copied into a fresh 32-quadlet buffer. -/
theorem make_bwrite_packet_layout_witness :
    (bwrite_wire (List.replicate 32 0) 2 0x1800 (some [0x11223344, 0x55667788]) (4 * 2) 5).length
      = 20 + 4 * 2 + 4 ∧
    (bwrite_wire (List.replicate 32 0) 2 0x1800 (some [0x11223344, 0x55667788]) (4 * 2) 5).take 12 =
      bytesOfQuads (make_1394_header 2 0x1800 BWRITE 5) ∧
    byteAt (bwrite_wire (List.replicate 32 0) 2 0x1800 (some [0x11223344, 0x55667788]) (4 * 2) 5) 3
      >>> 4 = BWRITE ∧
    beAt (bwrite_wire (List.replicate 32 0) 2 0x1800 (some [0x11223344, 0x55667788]) (4 * 2) 5) 12 2
      = 4 * 2 ∧
    byteAt (bwrite_wire (List.replicate 32 0) 2 0x1800 (some [0x11223344, 0x55667788]) (4 * 2) 5) 14
      = 0 ∧
    byteAt (bwrite_wire (List.replicate 32 0) 2 0x1800 (some [0x11223344, 0x55667788]) (4 * 2) 5) 15
      = 0 ∧
    beAt (bwrite_wire (List.replicate 32 0) 2 0x1800 (some [0x11223344, 0x55667788]) (4 * 2) 5) 16 4 =
      BitReverse32 (crc32 0
        ((bwrite_wire (List.replicate 32 0) 2 0x1800 (some [0x11223344, 0x55667788])
          (4 * 2) 5).take 16)) ∧
    ((bwrite_wire (List.replicate 32 0) 2 0x1800 (some [0x11223344, 0x55667788])
        (4 * 2) 5).drop 20).take (4 * 2) =
      bytesOfQuads (bwrite_payload (List.replicate 32 0) (some [0x11223344, 0x55667788]) 2) ∧
    beAt (bwrite_wire (List.replicate 32 0) 2 0x1800 (some [0x11223344, 0x55667788]) (4 * 2) 5)
        (20 + 4 * 2) 4 =
      BitReverse32 (crc32 0
        (bytesOfQuads (bwrite_payload (List.replicate 32 0) (some [0x11223344, 0x55667788]) 2))) :=
  make_bwrite_packet_layout (List.replicate 32 0) 2 0x1800 5 2 (some [0x11223344, 0x55667788])
    (by decide) (by decide) (by decide) (fun d h => by cases h; rfl)

/-! ## Transaction engine: block size discipline and the quadlet redirect -/

theorem FlushRecv_trace (sock : SocketInternals) :
    sock.FlushRecv.2.trace = sock.trace ++ [PortEvent.flush sock.FlushRecv.1] := rfl

theorem Send_trace (sock : SocketInternals) (buf : List Nat) (len : Nat) (bc : Bool) :
    (sock.Send buf len bc).2.trace =
      sock.trace ++ [PortEvent.send (buf.take len) bc (sock.Send buf len bc).1] := rfl

theorem Recv_trace (sock : SocketInternals) (maxlen : Nat) :
    (sock.Recv maxlen).2.2.trace = sock.trace ++ [PortEvent.recv maxlen (sock.Recv maxlen).1] := rfl

/-- Every call of `ReadQuadletNode` starts with a flush, so its trace grows. -/
theorem ReadQuadletNode_trace_length (st : Port) (node addr data flags : Nat) :
    st.sock.trace.length < (ReadQuadletNode st node addr data flags).2.2.sock.trace.length := by
  unfold ReadQuadletNode
  simp only [Port.noteEncode]
  split_ifs <;>
    simp [SocketInternals.FlushRecv, SocketInternals.Send, SocketInternals.Recv]

theorem WriteQuadletNode_trace_length (st : Port) (node addr data flags : Nat) :
    st.sock.trace.length < (WriteQuadletNode st node addr data flags).2.sock.trace.length := by
  simp [WriteQuadletNode, Port.noteEncode, SocketInternals.Send]

theorem ReadQuadletNode_fw_tl (st : Port) (node addr data flags : Nat) :
    (ReadQuadletNode st node addr data flags).2.2.fw_tl = (st.fw_tl + 1) &&& FW_TL_MASK := by
  unfold ReadQuadletNode
  simp only [Port.noteEncode]
  split_ifs <;> rfl

theorem WriteQuadletNode_fw_tl (st : Port) (node addr data flags : Nat) :
    (WriteQuadletNode st node addr data flags).2.fw_tl = (st.fw_tl + 1) &&& FW_TL_MASK := rfl

/-- A block read of a legal size other than 4, on a mapped board, starts with
a flush. -/
theorem ReadBlock_trace_length (st : Port) (boardId addr : Nat) (rdata : List Nat) (nbytes : Nat)
    (h4 : nbytes ≠ 4) (h0 : nbytes ≠ 0) (hm : nbytes % 4 = 0)
    (hnode : ConvertBoardToNode st boardId ≠ MAX_NODES) :
    st.sock.trace.length < (ReadBlock st boardId addr rdata nbytes).2.2.sock.trace.length := by
  have hb : (nbytes == 0 || nbytes % 4 != 0) = false := by simp [h0, hm]
  unfold ReadBlock
  simp only [Port.noteEncode, beq_iff_eq, h4, hb, hnode, if_false, Bool.false_eq_true]
  split_ifs <;>
    simp [SocketInternals.FlushRecv, SocketInternals.Send, SocketInternals.Recv]

/-- A block write of a legal size other than 4, on a mapped board, sends. -/
theorem WriteBlock_trace_length (st : Port) (boardId addr : Nat) (wdata : WData) (nbytes : Nat)
    (h4 : nbytes ≠ 4) (h0 : nbytes ≠ 0) (hm : nbytes % 4 = 0)
    (hnode : ConvertBoardToNode st boardId ≠ MAX_NODES) :
    st.sock.trace.length < (WriteBlock st boardId addr wdata nbytes).2.sock.trace.length := by
  have hb : (nbytes == 0 || nbytes % 4 != 0) = false := by simp [h0, hm]
  unfold WriteBlock
  simp only [Port.noteEncode, beq_iff_eq, h4, hb, hnode, if_false, Bool.false_eq_true]
  split_ifs <;> simp [SocketInternals.Send]

/-- C6: `ReadBlock` and `WriteBlock` reject a byte count exactly when it is 0
or not a multiple of 4.  On a rejection the call returns false and leaves the
whole port state (no flush, send or receive in the trace, same label counter)
and the caller's buffer unchanged; any other byte count passes the size check,
which shows on a port with an open gate and a mapped board as socket activity. -/
theorem block_size_discipline (st : Port) (boardId addr : Nat) (rdata : List Nat)
    (wdata : WData) (nbytes : Nat) :
    ((nbytes = 0 ∨ nbytes % 4 ≠ 0) →
      ReadBlock st boardId addr rdata nbytes = (false, rdata, st) ∧
      WriteBlock st boardId addr wdata nbytes = (false, st)) ∧
    (¬(nbytes = 0 ∨ nbytes % 4 ≠ 0) → CheckFwBusGeneration st = true →
      ConvertBoardToNode st boardId ≠ MAX_NODES →
      (ReadBlock st boardId addr rdata nbytes).2.2.sock.trace ≠ st.sock.trace ∧
      (WriteBlock st boardId addr wdata nbytes).2.sock.trace ≠ st.sock.trace) := by
  constructor
  · intro h
    have h4 : nbytes ≠ 4 := by omega
    have hb : (nbytes == 0 || nbytes % 4 != 0) = true := by
      rcases h with h | h
      · simp [h]
      · simp [h]
    constructor
    · unfold ReadBlock
      simp only [beq_iff_eq, h4, if_false, hb, if_true]
    · unfold WriteBlock
      simp only [beq_iff_eq, h4, if_false, hb, if_true]
  · intro h hgate hnode
    have h0 : nbytes ≠ 0 := by omega
    have hm : nbytes % 4 = 0 := by omega
    have hne : ∀ a b : List PortEvent, a.length < b.length → b ≠ a := by
      intro a b hlt hab
      rw [hab] at hlt
      exact Nat.lt_irrefl _ hlt
    by_cases h4 : nbytes = 4
    · subst h4
      constructor
      · apply hne
        have hr : (ReadBlock st boardId addr rdata 4).2.2 =
            (ReadQuadletNode st (ConvertBoardToNode st boardId) addr (rdata.headD 0)
              (boardId &&& FW_NODE_FLAGS_MASK)).2.2 := by
          simp [ReadBlock, ReadQuadlet, hgate, hnode]
        rw [hr]
        exact ReadQuadletNode_trace_length _ _ _ _ _
      · apply hne
        have hw : (WriteBlock st boardId addr wdata 4) =
            (WriteQuadletNode st (ConvertBoardToNode st boardId) addr ((wdata.deref st).headD 0)
              (boardId &&& FW_NODE_FLAGS_MASK)) := by
          simp [WriteBlock, WriteQuadlet, hgate, hnode]
        rw [hw]
        exact WriteQuadletNode_trace_length _ _ _ _ _
    · exact ⟨hne _ _ (ReadBlock_trace_length st boardId addr rdata nbytes h4 h0 hm hnode),
        hne _ _ (WriteBlock_trace_length st boardId addr wdata nbytes h4 h0 hm hnode)⟩

/-- Instance of C6 on the sample port: 0, 1, 2, 3 and 5 bytes are rejected
without a trace, 4, 8 and 256 bytes reach the socket. -/
theorem block_size_discipline_witness :
    (∀ n ∈ [0, 1, 2, 3, 5],
      ReadBlock (samplePort 5 1) 2 0x1800 [7, 8] n = (false, [7, 8], samplePort 5 1) ∧
      WriteBlock (samplePort 5 1) 2 0x1800 (WData.own [7, 8]) n = (false, samplePort 5 1)) ∧
    (∀ n ∈ [4, 8, 256],
      (ReadBlock (samplePort 5 1) 2 0x1800 [7, 8] n).2.2.sock.trace ≠ (samplePort 5 1).sock.trace ∧
      (WriteBlock (samplePort 5 1) 2 0x1800 (WData.own [7, 8]) n).2.sock.trace ≠
        (samplePort 5 1).sock.trace) := by
  constructor
  · intro n hn
    refine (block_size_discipline (samplePort 5 1) 2 0x1800 [7, 8] (WData.own [7, 8]) n).1 ?_
    simp only [List.mem_cons, List.mem_singleton, List.mem_nil_iff, or_false] at hn
    omega
  · intro n hn
    refine (block_size_discipline (samplePort 5 1) 2 0x1800 [7, 8] (WData.own [7, 8]) n).2 ?_
      rfl (by decide)
    simp only [List.mem_cons, List.mem_singleton, List.mem_nil_iff, or_false] at hn
    omega

/-- C7: a block call of 4 bytes is the quadlet call: `ReadBlock` with
`nbytes = 4` gives the result, the quadlet (stored in the first slot of the
buffer) and the final state (trace of packets included) of `ReadQuadlet` on the
same board and address, and `WriteBlock` with `nbytes = 4` is `WriteQuadlet`
with the first quadlet of the buffer. -/
theorem block_of_four_is_quadlet (st : Port) (boardId addr : Nat) (rdata : List Nat)
    (wdata : WData) :
    (ReadBlock st boardId addr rdata 4).1 = (ReadQuadlet st boardId addr (rdata.headD 0)).1 ∧
    (ReadBlock st boardId addr rdata 4).2.1 =
      rdata.set 0 (ReadQuadlet st boardId addr (rdata.headD 0)).2.1 ∧
    (ReadBlock st boardId addr rdata 4).2.2 = (ReadQuadlet st boardId addr (rdata.headD 0)).2.2 ∧
    WriteBlock st boardId addr wdata 4 =
      WriteQuadlet st boardId addr ((wdata.deref st).headD 0) :=
  ⟨rfl, rfl, rfl, rfl⟩

/-! ## Transaction label counter -/

theorem ReadQuadlet_fw_tl_cases (st : Port) (boardId addr data : Nat) :
    (ReadQuadlet st boardId addr data).2.2.fw_tl = st.fw_tl ∨
      (ReadQuadlet st boardId addr data).2.2.fw_tl = (st.fw_tl + 1) &&& FW_TL_MASK := by
  unfold ReadQuadlet
  dsimp only
  split_ifs
  · exact Or.inl rfl
  · exact Or.inl rfl
  · exact Or.inr (ReadQuadletNode_fw_tl _ _ _ _ _)

theorem WriteQuadlet_fw_tl_cases (st : Port) (boardId addr data : Nat) :
    (WriteQuadlet st boardId addr data).2.fw_tl = st.fw_tl ∨
      (WriteQuadlet st boardId addr data).2.fw_tl = (st.fw_tl + 1) &&& FW_TL_MASK := by
  unfold WriteQuadlet
  dsimp only
  split_ifs
  · exact Or.inl rfl
  · exact Or.inl rfl
  · exact Or.inr (WriteQuadletNode_fw_tl _ _ _ _ _)

theorem ReadBlock_fw_tl_cases (st : Port) (boardId addr : Nat) (rdata : List Nat) (nbytes : Nat) :
    (ReadBlock st boardId addr rdata nbytes).2.2.fw_tl = st.fw_tl ∨
      (ReadBlock st boardId addr rdata nbytes).2.2.fw_tl = (st.fw_tl + 1) &&& FW_TL_MASK := by
  unfold ReadBlock
  simp only [Port.noteEncode]
  split_ifs
  · exact ReadQuadlet_fw_tl_cases _ _ _ _
  all_goals first | exact Or.inl rfl | exact Or.inr rfl

/-- A block write proper (any size but 4) leaves the label counter alone. -/
theorem WriteBlock_fw_tl (st : Port) (boardId addr : Nat) (wdata : WData) (nbytes : Nat)
    (h4 : nbytes ≠ 4) : (WriteBlock st boardId addr wdata nbytes).2.fw_tl = st.fw_tl := by
  unfold WriteBlock
  simp only [Port.noteEncode, beq_iff_eq, h4, if_false]
  split_ifs <;> rfl

theorem WriteBlock_fw_tl_cases (st : Port) (boardId addr : Nat) (wdata : WData) (nbytes : Nat) :
    (WriteBlock st boardId addr wdata nbytes).2.fw_tl = st.fw_tl ∨
      (WriteBlock st boardId addr wdata nbytes).2.fw_tl = (st.fw_tl + 1) &&& FW_TL_MASK := by
  by_cases h4 : nbytes = 4
  · subst h4
    exact WriteQuadlet_fw_tl_cases _ _ _ _
  · exact Or.inl (WriteBlock_fw_tl st boardId addr wdata nbytes h4)

theorem and_FW_TL_MASK_le (x : Nat) : x &&& FW_TL_MASK ≤ 63 := Nat.and_le_right

theorem Call_run_fw_tl (st : Port) (c : Call) (h : st.fw_tl ≤ 63) : (Call.run st c).fw_tl ≤ 63 := by
  cases c with
  | ReadQuadletNode node addr data flags =>
    show (ReadQuadletNode st node addr data flags).2.2.fw_tl ≤ 63
    rw [ReadQuadletNode_fw_tl]; exact and_FW_TL_MASK_le _
  | WriteQuadletNode node addr data flags =>
    show (WriteQuadletNode st node addr data flags).2.fw_tl ≤ 63
    rw [WriteQuadletNode_fw_tl]; exact and_FW_TL_MASK_le _
  | ReadBlock boardId addr rdata nbytes =>
    show (ReadBlock st boardId addr rdata nbytes).2.2.fw_tl ≤ 63
    rcases ReadBlock_fw_tl_cases st boardId addr rdata nbytes with h' | h'
    · rw [h']; exact h
    · rw [h']; exact and_FW_TL_MASK_le _
  | WriteBlock boardId addr wdata nbytes =>
    show (WriteBlock st boardId addr wdata nbytes).2.fw_tl ≤ 63
    rcases WriteBlock_fw_tl_cases st boardId addr wdata nbytes with h' | h'
    · rw [h']; exact h
    · rw [h']; exact and_FW_TL_MASK_le _

theorem runCalls_fw_tl (calls : List Call) (st : Port) (h : st.fw_tl ≤ 63) :
    (runCalls st calls).fw_tl ≤ 63 := by
  induction calls generalizing st with
  | nil => exact h
  | cons c cs ih => exact ih (Call.run st c) (Call_run_fw_tl st c h)

/-- C8: the label counter `fw_tl` is 0 after construction and stays in
`[0,63]` after any sequence of `ReadQuadletNode`, `WriteQuadletNode`,
`ReadBlock` and `WriteBlock` calls; the label field (`byte[2] >> 2`) of every
message sent along the way lies in `[0,63]`; and the calls that advance the
counter take it from 63 to 0. -/
theorem fw_tl_stays_in_range (base : Port) (portNum : Nat) (cb : Option EthCallbackType)
    (calls : List Call) :
    (EthBasePort_new base portNum cb).fw_tl = 0 ∧
    (runCalls (EthBasePort_new base portNum cb) calls).fw_tl ≤ 63 ∧
    (∀ msg useBroadcast retval,
      PortEvent.send msg useBroadcast retval ∈
          (runCalls (EthBasePort_new base portNum cb) calls).sock.trace →
        byteAt msg 2 >>> 2 ≤ 63) ∧
    (∀ (st : Port) (node addr data flags : Nat), st.fw_tl = 63 →
      (ReadQuadletNode st node addr data flags).2.2.fw_tl = 0 ∧
      (WriteQuadletNode st node addr data flags).2.fw_tl = 0) := by
  refine ⟨rfl, runCalls_fw_tl calls _ (Nat.zero_le 63), ?_, ?_⟩
  · intro msg _ _ _
    have := byteAt_lt msg 2
    rw [Nat.shiftRight_eq_div_pow]
    omega
  · intro st node addr data flags h
    rw [ReadQuadletNode_fw_tl, WriteQuadletNode_fw_tl, h]
    exact ⟨rfl, rfl⟩

/-- C9 (violated by block writes): from a port whose counter is 5, a block
write of 8 bytes to the mapped board 2 succeeds, is sent with label 5 and
leaves the counter at 5, whereas the quadlet read, quadlet write and block read
issued from the same state carry label 6 and leave the counter at 6. -/
theorem WriteBlock_does_not_advance_label :
    (WriteBlock (samplePort 5 1) 2 0x1800 (WData.own [0x11223344, 0x55667788]) 8).1 = true ∧
    (WriteBlock (samplePort 5 1) 2 0x1800 (WData.own [0x11223344, 0x55667788]) 8).2.fw_tl = 5 ∧
    sentLabels (WriteBlock (samplePort 5 1) 2 0x1800
      (WData.own [0x11223344, 0x55667788]) 8).2.sock.trace = [5] ∧
    sentLabels (ReadQuadlet (samplePort 5 1) 2 0x1800 0).2.2.sock.trace = [6] ∧
    (ReadQuadlet (samplePort 5 1) 2 0x1800 0).2.2.fw_tl = 6 ∧
    sentLabels (WriteQuadlet (samplePort 5 1) 2 0x1800 0x00010005).2.sock.trace = [6] ∧
    (WriteQuadlet (samplePort 5 1) 2 0x1800 0x00010005).2.fw_tl = 6 ∧
    sentLabels (ReadBlock (samplePort 5 1) 2 0x1800 [7, 8] 8).2.2.sock.trace = [6] ∧
    (ReadBlock (samplePort 5 1) 2 0x1800 [7, 8] 8).2.2.fw_tl = 6 := by
  refine ⟨?_, ?_, ?_, ?_, ?_, ?_, ?_, ?_, ?_⟩ <;> decide

/-- C10 (violated by block reads of more than 4 bytes): on a port with a
pending bus reset (latched generation 2, acknowledged generation 1)
`ReadQuadlet` and the 4-byte `ReadBlock` return false without touching the
socket or the counter, but `ReadBlock` of 8 bytes flushes, advances the label
from 5 to 6, sends the block read request and waits for the response. -/
theorem ReadBlock_skips_bus_reset_gate :
    CheckFwBusGeneration (samplePort 5 2) = false ∧
    (ReadQuadlet (samplePort 5 2) 2 0x1800 0).1 = false ∧
    (ReadQuadlet (samplePort 5 2) 2 0x1800 0).2.2.sock.trace = [] ∧
    (ReadQuadlet (samplePort 5 2) 2 0x1800 0).2.2.fw_tl = 5 ∧
    (ReadBlock (samplePort 5 2) 2 0x1800 [7, 8] 4).1 = false ∧
    (ReadBlock (samplePort 5 2) 2 0x1800 [7, 8] 4).2.2.sock.trace = [] ∧
    (ReadBlock (samplePort 5 2) 2 0x1800 [7, 8] 8).2.2.fw_tl = 6 ∧
    (ReadBlock (samplePort 5 2) 2 0x1800 [7, 8] 8).2.2.sock.trace =
      [PortEvent.flush 0, PortEvent.encode BREAD false,
       PortEvent.send [255, 194, 24, 80, 255, 208, 0, 0, 0, 0, 24, 0, 0, 8, 0, 0,
         186, 79, 198, 205] false 20,
       PortEvent.recv 32 0] := by
  refine ⟨?_, ?_, ?_, ?_, ?_, ?_, ?_, ?_⟩ <;> decide

/-- A block write from caller-owned memory: what `WriteBlock` does on a mapped
board for a legal size other than 4.  The bytes sent are `bwrite_wire` on a
fresh buffer, built with the current (not advanced) label. -/
theorem WriteBlock_own_eq (st : Port) (boardId addr : Nat) (d : List Nat) (nbytes : Nat)
    (h4 : nbytes ≠ 4) (h0 : nbytes ≠ 0) (hm : nbytes % 4 = 0)
    (hnode : ConvertBoardToNode st boardId ≠ MAX_NODES) :
    (WriteBlock st boardId addr (WData.own d) nbytes).2.sock.trace =
      st.sock.trace ++
        [PortEvent.encode BWRITE (((boardId &&& FW_NODE_MASK) &&& FW_NODE_NOFORWARD_MASK) != 0),
         PortEvent.send
           (bwrite_wire (List.replicate (FW_BWRITE_HEADER_SIZE + nbytes + FW_CRC_SIZE) 0)
             (ConvertBoardToNode st boardId) addr (some d) nbytes st.fw_tl)
           (((boardId &&& FW_NODE_MASK) &&& FW_NODE_ETH_BROADCAST_MASK) != 0)
           (st.sock.sendto
             (bwrite_wire (List.replicate (FW_BWRITE_HEADER_SIZE + nbytes + FW_CRC_SIZE) 0)
               (ConvertBoardToNode st boardId) addr (some d) nbytes st.fw_tl)
             (((boardId &&& FW_NODE_MASK) &&& FW_NODE_ETH_BROADCAST_MASK) != 0))] := by
  have hb : (nbytes == 0 || nbytes % 4 != 0) = false := by simp [h0, hm]
  unfold WriteBlock
  simp only [Port.noteEncode, beq_iff_eq, h4, hb, hnode, if_false, Bool.false_eq_true]
  simp [SocketInternals.Send, bwrite_wire, WData.deref]

/-- A block read of a legal size other than 4, on a mapped board, advances
the label counter by one modulo 64, whatever the state of the bus-reset gate. -/
theorem ReadBlock_fw_tl (st : Port) (boardId addr : Nat) (rdata : List Nat) (nbytes : Nat)
    (h4 : nbytes ≠ 4) (h0 : nbytes ≠ 0) (hm : nbytes % 4 = 0)
    (hnode : ConvertBoardToNode st boardId ≠ MAX_NODES) :
    (ReadBlock st boardId addr rdata nbytes).2.2.fw_tl = (st.fw_tl + 1) &&& FW_TL_MASK := by
  have hb : (nbytes == 0 || nbytes % 4 != 0) = false := by simp [h0, hm]
  unfold ReadBlock
  simp only [Port.noteEncode, beq_iff_eq, h4, hb, hnode, if_false, Bool.false_eq_true]
  split_ifs <;> rfl

/-! ## Gate and board resolution of the board-level calls -/

/-- C11 (as stated, false): board id 63 resolves to the broadcast node on
both sample ports, which differ only in the latched bus generation; with no
reset pending `WriteQuadlet` succeeds, with a reset pending it returns false. -/
theorem WriteQuadlet_broadcast_is_gated :
    ConvertBoardToNode (samplePort 5 1) 63 = FW_NODE_BROADCAST ∧
    ConvertBoardToNode (samplePort 5 2) 63 = FW_NODE_BROADCAST ∧
    CheckFwBusGeneration (samplePort 5 1) = true ∧
    CheckFwBusGeneration (samplePort 5 2) = false ∧
    (WriteQuadlet (samplePort 5 1) 63 0x1800 7).1 = true ∧
    (WriteQuadlet (samplePort 5 2) 63 0x1800 7).1 = false ∧
    (WriteBroadcastReadRequest 0xF (samplePort 5 2) 1).1 = false := by
  refine ⟨?_, ?_, ?_, ?_, ?_, ?_, ?_⟩ <;> decide

/-- C11 (amended): `WriteQuadlet` consults the bus-reset gate for every board
id, the broadcast id included: while a reset is pending it returns false and
leaves the port untouched (nothing sent, label not advanced).  Only the
node-level `WriteQuadletNode` is not gated: its result and the events it adds
to the trace do not depend on the bus generation members. -/
theorem WriteQuadlet_gate (st : Port) (boardId node addr data flags g g' : Nat)
    (h : CheckFwBusGeneration st = false) :
    WriteQuadlet st boardId addr data = (false, st) ∧
    (WriteQuadletNode { st with FwBusGeneration := g, newFwBusGeneration := g' }
        node addr data flags).1 = (WriteQuadletNode st node addr data flags).1 ∧
    (WriteQuadletNode { st with FwBusGeneration := g, newFwBusGeneration := g' }
        node addr data flags).2.sock = (WriteQuadletNode st node addr data flags).2.sock := by
  refine ⟨?_, rfl, rfl⟩
  unfold WriteQuadlet
  simp [h]

/-- Instance of the amended C11: the broadcast write on the sample port with a
pending reset. -/
theorem WriteQuadlet_gate_witness :
    WriteQuadlet (samplePort 5 2) 63 0x1800 7 = (false, samplePort 5 2) ∧
    (WriteQuadletNode { samplePort 5 2 with FwBusGeneration := 1, newFwBusGeneration := 1 }
        63 0x1800 7 0).1 = (WriteQuadletNode (samplePort 5 2) 63 0x1800 7 0).1 ∧
    (WriteQuadletNode { samplePort 5 2 with FwBusGeneration := 1, newFwBusGeneration := 1 }
        63 0x1800 7 0).2.sock = (WriteQuadletNode (samplePort 5 2) 63 0x1800 7 0).2.sock :=
  WriteQuadlet_gate (samplePort 5 2) 63 63 0x1800 7 0 1 1 (by decide)

theorem set_zero_headD (l : List Nat) : l.set 0 (l.headD 0) = l := by
  cases l <;> rfl

/-- C12: with the gate open and a legal size, a board id that resolves to the
sentinel `MAX_NODES` makes `ReadQuadlet`, `WriteQuadlet`, `ReadBlock` and
`WriteBlock` return false with the port state (trace, label counter) and the
caller's data exactly as before. -/
theorem unmapped_board_fails (st : Port) (boardId addr data : Nat) (rdata : List Nat)
    (wdata : WData) (nbytes : Nat) (hgate : CheckFwBusGeneration st = true)
    (h0 : nbytes ≠ 0) (hm : nbytes % 4 = 0) (hnode : ConvertBoardToNode st boardId = MAX_NODES) :
    ReadQuadlet st boardId addr data = (false, data, st) ∧
    WriteQuadlet st boardId addr data = (false, st) ∧
    ReadBlock st boardId addr rdata nbytes = (false, rdata, st) ∧
    WriteBlock st boardId addr wdata nbytes = (false, st) := by
  have hrq : ∀ d, ReadQuadlet st boardId addr d = (false, d, st) := by
    intro d; unfold ReadQuadlet; simp [hgate, hnode]
  have hwq : ∀ d, WriteQuadlet st boardId addr d = (false, st) := by
    intro d; unfold WriteQuadlet; simp [hgate, hnode]
  have hb : (nbytes == 0 || nbytes % 4 != 0) = false := by simp [h0, hm]
  refine ⟨hrq data, hwq data, ?_, ?_⟩
  · unfold ReadBlock
    by_cases h4 : nbytes = 4
    · subst h4
      simp only [beq_self_eq_true, if_true, hrq, set_zero_headD]
    · simp [h4, hb, hnode]
  · unfold WriteBlock
    by_cases h4 : nbytes = 4
    · simp [h4, hwq]
    · simp [h4, hb, hnode]

/-- Instance of C12: board 7 is not mapped on the sample port. -/
theorem unmapped_board_fails_witness :
    ReadQuadlet (samplePort 5 1) 7 0x1800 9 = (false, 9, samplePort 5 1) ∧
    WriteQuadlet (samplePort 5 1) 7 0x1800 9 = (false, samplePort 5 1) ∧
    ReadBlock (samplePort 5 1) 7 0x1800 [7, 8] 8 = (false, [7, 8], samplePort 5 1) ∧
    WriteBlock (samplePort 5 1) 7 0x1800 (WData.own [7, 8]) 8 = (false, samplePort 5 1) :=
  unmapped_board_fails (samplePort 5 1) 7 0x1800 9 [7, 8] (WData.own [7, 8]) 8
    (by decide) (by decide) (by decide) (by decide)

/-! ## Normal forms of the transactions -/

theorem eventsSince_of_append (before after : Port) (evs : List PortEvent)
    (h : after.sock.trace = before.sock.trace ++ evs) : eventsSince before after = evs := by
  unfold eventsSince
  rw [h]
  exact List.drop_left _ _

theorem static_cast_int_of_lt (x : Nat) (h : x < 2 ^ 31) : static_cast_int x = (x : Int) := by
  unfold static_cast_int
  have h1 : x % 2 ^ 32 = x := Nat.mod_eq_of_lt (by omega)
  rw [h1, if_pos h]

theorem recvFrom_fst (pending : List (List Nat)) (maxlen : Nat) :
    (recvFrom pending maxlen).1 = ((recvFrom pending maxlen).2.1.length : Int) := by
  cases pending <;> rfl

/-- An illegal byte count makes `ReadBlock` return at once. -/
theorem ReadBlock_illegal_size (st : Port) (boardId addr : Nat) (rdata : List Nat)
    (nbytes : Nat) (h : nbytes = 0 ∨ nbytes % 4 ≠ 0) :
    ReadBlock st boardId addr rdata nbytes = (false, rdata, st) := by
  have h4 : nbytes ≠ 4 := by omega
  have hb : (nbytes == 0 || nbytes % 4 != 0) = true := by
    rcases h with h | h
    · simp [h]
    · simp [h]
  unfold ReadBlock
  simp only [beq_iff_eq, h4, if_false, hb, if_true]

/-- A block response that passes validation carries the expected length. -/
theorem CheckFirewirePacket_BRESPONSE_length (packet : List Nat) (length node tl : Nat)
    (h : CheckFirewirePacket packet length node BRESPONSE tl = true) :
    256 * byteAt packet 12 + byteAt packet 13 = length := by
  unfold CheckFirewirePacket at h
  simp only [checkCRC, length_recv_eq] at h
  by_cases hl : 256 * byteAt packet 12 + byteAt packet 13 = length
  · exact hl
  · simp [hl] at h

/-- The result of `ReadQuadletNode` in terms of what the socket reports. -/
theorem ReadQuadletNode_result (st : Port) (node addr data flags : Nat) :
    (ReadQuadletNode st node addr data flags).1 =
      (decide (qread_sent st node addr flags = 16) &&
       !callbackAborts st.eth_read_callback node &&
       decide ((qread_response st node addr flags).length = 20) &&
       CheckFirewirePacket (qread_response st node addr flags) 0 node QRESPONSE (nextLabel st)) := by
  have hr := recvFrom_fst (st.sock.FlushRecv.2.pending ++ st.sock.peer
    ((qread_bytes st node addr).take FW_QREAD_SIZE) ((flags &&& FW_NODE_ETH_BROADCAST_MASK) != 0))
    FW_QRESPONSE_SIZE
  unfold ReadQuadletNode
  simp only [Port.noteEncode]
  split_ifs with h1 h2 h3 h4 <;>
    simp_all [qread_sent, qread_response, qread_bytes, nextLabel, responseTo,
      SocketInternals.Send, SocketInternals.Recv, SocketInternals.FlushRecv, static_cast_int,
      FW_QREAD_SIZE, FW_QRESPONSE_SIZE]
  · intro h; omega
  · omega

/-- The data `ReadQuadletNode` hands back: the byte-swapped quadlet 3 of the
response on success, the caller's value otherwise. -/
theorem ReadQuadletNode_data (st : Port) (node addr data flags : Nat) :
    (ReadQuadletNode st node addr data flags).2.1 =
      if (ReadQuadletNode st node addr data flags).1 = true
      then bswap_32 (quadAt (qread_response st node addr flags) 12) else data := by
  unfold ReadQuadletNode
  simp only [Port.noteEncode]
  split_ifs <;> first | rfl | simp_all

/-- The events `ReadQuadletNode` adds to the trace. -/
theorem ReadQuadletNode_events (st : Port) (node addr data flags : Nat) :
    eventsSince st (ReadQuadletNode st node addr data flags).2.2 =
      [PortEvent.flush st.sock.FlushRecv.1,
       PortEvent.encode QREAD ((flags &&& FW_NODE_NOFORWARD_MASK) != 0),
       PortEvent.send ((qread_bytes st node addr).take FW_QREAD_SIZE)
         ((flags &&& FW_NODE_ETH_BROADCAST_MASK) != 0) (qread_sent st node addr flags)] ++
      (if qread_sent st node addr flags = 16 ∧ callbackAborts st.eth_read_callback node = false
       then [PortEvent.recv FW_QRESPONSE_SIZE ((qread_response st node addr flags).length : Nat)]
       else []) := by
  have hr := recvFrom_fst (st.sock.FlushRecv.2.pending ++ st.sock.peer
    ((qread_bytes st node addr).take FW_QREAD_SIZE) ((flags &&& FW_NODE_ETH_BROADCAST_MASK) != 0))
    FW_QRESPONSE_SIZE
  apply eventsSince_of_append
  unfold ReadQuadletNode
  simp only [Port.noteEncode]
  split_ifs with h1 h2 h3 h4 <;>
    simp_all [qread_sent, qread_response, qread_bytes, nextLabel, responseTo,
      SocketInternals.Send, SocketInternals.Recv, SocketInternals.FlushRecv, static_cast_int,
      FW_QREAD_SIZE, FW_QRESPONSE_SIZE]

/-- The result of the block path of `ReadBlock` in terms of what the socket
reports. -/
theorem ReadBlock_result (st : Port) (boardId addr : Nat) (rdata : List Nat) (nbytes : Nat)
    (h4 : nbytes ≠ 4) (h0 : nbytes ≠ 0) (hm : nbytes % 4 = 0)
    (hnode : ConvertBoardToNode st boardId ≠ MAX_NODES) :
    (ReadBlock st boardId addr rdata nbytes).1 =
      (decide (bread_sent st boardId addr nbytes = 20) &&
       !callbackAborts st.eth_read_callback (ConvertBoardToNode st boardId) &&
       decide (((bread_response st boardId addr nbytes).length : Int) =
         static_cast_int (FW_BRESPONSE_HEADER_SIZE + nbytes + FW_CRC_SIZE)) &&
       CheckFirewirePacket (bread_response st boardId addr nbytes) nbytes
         (ConvertBoardToNode st boardId) BRESPONSE (nextLabel st)) := by
  have hb : (nbytes == 0 || nbytes % 4 != 0) = false := by simp [h0, hm]
  have hr := recvFrom_fst (st.sock.FlushRecv.2.pending ++ st.sock.peer
    ((bread_bytes st boardId addr nbytes).take FW_BREAD_SIZE)
    ((boardId &&& FW_NODE_ETH_BROADCAST_MASK) != 0))
    (FW_BRESPONSE_HEADER_SIZE + nbytes + FW_CRC_SIZE)
  unfold ReadBlock
  simp only [Port.noteEncode, beq_iff_eq, h4, hb, hnode, if_false, Bool.false_eq_true]
  have h20 : static_cast_int 20 = 20 := by decide
  generalize hS : static_cast_int (FW_BRESPONSE_HEADER_SIZE + nbytes + FW_CRC_SIZE) = S at *
  split_ifs with h1 h2 h3 h5 <;>
    simp_all [bread_sent, bread_response, bread_bytes, nextLabel, responseTo,
      SocketInternals.Send, SocketInternals.Recv, SocketInternals.FlushRecv,
      FW_BREAD_SIZE]

/-- The buffer the block path of `ReadBlock` hands back: the payload quadlets
of the response, copied, on success; the caller's buffer otherwise. -/
theorem ReadBlock_data (st : Port) (boardId addr : Nat) (rdata : List Nat) (nbytes : Nat)
    (h4 : nbytes ≠ 4) (h0 : nbytes ≠ 0) (hm : nbytes % 4 = 0)
    (hnode : ConvertBoardToNode st boardId ≠ MAX_NODES) :
    (ReadBlock st boardId addr rdata nbytes).2.1 =
      if (ReadBlock st boardId addr rdata nbytes).1 = true
      then memcpyQuads rdata 0 (quadsAt (bread_response st boardId addr nbytes) 20 (nbytes / 4))
        (nbytes / 4)
      else rdata := by
  have hb : (nbytes == 0 || nbytes % 4 != 0) = false := by simp [h0, hm]
  unfold ReadBlock
  simp only [Port.noteEncode, beq_iff_eq, h4, hb, hnode, if_false, Bool.false_eq_true]
  split_ifs <;> first | rfl | simp_all

/-- The events the block path of `ReadBlock` adds to the trace. -/
theorem ReadBlock_events (st : Port) (boardId addr : Nat) (rdata : List Nat) (nbytes : Nat)
    (h4 : nbytes ≠ 4) (h0 : nbytes ≠ 0) (hm : nbytes % 4 = 0)
    (hnode : ConvertBoardToNode st boardId ≠ MAX_NODES) :
    eventsSince st (ReadBlock st boardId addr rdata nbytes).2.2 =
      [PortEvent.flush st.sock.FlushRecv.1,
       PortEvent.encode BREAD ((boardId &&& FW_NODE_NOFORWARD_MASK) != 0),
       PortEvent.send ((bread_bytes st boardId addr nbytes).take FW_BREAD_SIZE)
         ((boardId &&& FW_NODE_ETH_BROADCAST_MASK) != 0) (bread_sent st boardId addr nbytes)] ++
      (if bread_sent st boardId addr nbytes = 20 ∧
          callbackAborts st.eth_read_callback (ConvertBoardToNode st boardId) = false
       then [PortEvent.recv (FW_BRESPONSE_HEADER_SIZE + nbytes + FW_CRC_SIZE)
          ((bread_response st boardId addr nbytes).length : Nat)]
       else []) := by
  have hb : (nbytes == 0 || nbytes % 4 != 0) = false := by simp [h0, hm]
  have hr := recvFrom_fst (st.sock.FlushRecv.2.pending ++ st.sock.peer
    ((bread_bytes st boardId addr nbytes).take FW_BREAD_SIZE)
    ((boardId &&& FW_NODE_ETH_BROADCAST_MASK) != 0))
    (FW_BRESPONSE_HEADER_SIZE + nbytes + FW_CRC_SIZE)
  have h20 : static_cast_int 20 = 20 := by decide
  apply eventsSince_of_append
  unfold ReadBlock
  simp only [Port.noteEncode, beq_iff_eq, h4, hb, hnode, if_false, Bool.false_eq_true]
  generalize hS : static_cast_int (FW_BRESPONSE_HEADER_SIZE + nbytes + FW_CRC_SIZE) = S at *
  split_ifs with h1 h2 h3 h5 <;>
    simp_all [bread_sent, bread_response, bread_bytes, nextLabel, responseTo,
      SocketInternals.Send, SocketInternals.Recv, SocketInternals.FlushRecv,
      FW_BREAD_SIZE]

/-- When the size check or the board lookup fails, `WriteBlock` adds nothing
to the trace and returns false; otherwise it adds one builder call and one
send, whose reported count decides the result. -/
theorem WriteBlock_true_iff (st : Port) (boardId addr : Nat) (wdata : WData) (nbytes : Nat)
    (h4 : nbytes ≠ 4) :
    (WriteBlock st boardId addr wdata nbytes).1 = true ↔
      sendReports (eventsSince st (WriteBlock st boardId addr wdata nbytes).2) =
        [static_cast_int (FW_BWRITE_HEADER_SIZE + nbytes + FW_CRC_SIZE)] := by
  generalize hS : static_cast_int (FW_BWRITE_HEADER_SIZE + nbytes + FW_CRC_SIZE) = S
  unfold WriteBlock
  simp only [Port.noteEncode, beq_iff_eq, h4, if_false, hS]
  split_ifs with h1 h2 h3
  · have : eventsSince st st = [] := eventsSince_of_append st st [] (by simp)
    simp [this, sendReports]
  · have : eventsSince st st = [] := eventsSince_of_append st st [] (by simp)
    simp [this, sendReports]
  · rw [eventsSince_of_append st _ _ (by
      simp only [SocketInternals.Send, List.append_assoc]; rfl)]
    simp [sendReports, SocketInternals.Send]
  · rw [eventsSince_of_append st _ _ (by
      simp only [SocketInternals.Send, List.append_assoc]; rfl)]
    simp [sendReports, SocketInternals.Send]

/-- The events of `WriteQuadletNode`: one builder call and one send. -/
theorem WriteQuadletNode_events (st : Port) (node addr data flags : Nat) :
    eventsSince st (WriteQuadletNode st node addr data flags).2 =
      [PortEvent.encode QWRITE ((flags &&& FW_NODE_NOFORWARD_MASK) != 0),
       PortEvent.send
         ((bytesOfQuads (make_qwrite_packet node addr data (nextLabel st))).take FW_QWRITE_SIZE)
         ((flags &&& FW_NODE_ETH_BROADCAST_MASK) != 0)
         (st.sock.sendto
           ((bytesOfQuads (make_qwrite_packet node addr data (nextLabel st))).take FW_QWRITE_SIZE)
           ((flags &&& FW_NODE_ETH_BROADCAST_MASK) != 0))] := by
  apply eventsSince_of_append
  simp [WriteQuadletNode, Port.noteEncode, SocketInternals.Send, nextLabel]

theorem WriteQuadletNode_result (st : Port) (node addr data flags : Nat) :
    (WriteQuadletNode st node addr data flags).1 = true ↔
      st.sock.sendto
        ((bytesOfQuads (make_qwrite_packet node addr data (nextLabel st))).take FW_QWRITE_SIZE)
        ((flags &&& FW_NODE_ETH_BROADCAST_MASK) != 0) = 20 := by
  simp [WriteQuadletNode, Port.noteEncode, SocketInternals.Send, static_cast_int,
    FW_QWRITE_SIZE, nextLabel]

theorem WriteQuadletNode_true_iff (st : Port) (node addr data flags : Nat) :
    (WriteQuadletNode st node addr data flags).1 = true ↔
      sendReports (eventsSince st (WriteQuadletNode st node addr data flags).2) = [20] := by
  rw [WriteQuadletNode_events, WriteQuadletNode_result]
  simp [sendReports]

theorem ReadQuadletNode_reports_of_success (st : Port) (node addr data flags : Nat)
    (h : (ReadQuadletNode st node addr data flags).1 = true) :
    sendReports (eventsSince st (ReadQuadletNode st node addr data flags).2.2) = [16] ∧
    recvReports (eventsSince st (ReadQuadletNode st node addr data flags).2.2) = [20] := by
  rw [ReadQuadletNode_result] at h
  simp only [Bool.and_eq_true, decide_eq_true_eq, Bool.not_eq_true'] at h
  obtain ⟨⟨⟨hs, hc⟩, hl⟩, _⟩ := h
  rw [ReadQuadletNode_events, if_pos ⟨hs, hc⟩, hs, hl]
  exact ⟨rfl, rfl⟩

theorem ReadBlock_reports_of_success (st : Port) (boardId addr : Nat) (rdata : List Nat)
    (nbytes : Nat) (h4 : nbytes ≠ 4) (hsize : 20 + nbytes + 4 < 2 ^ 31)
    (h : (ReadBlock st boardId addr rdata nbytes).1 = true) :
    sendReports (eventsSince st (ReadBlock st boardId addr rdata nbytes).2.2) = [20] ∧
    recvReports (eventsSince st (ReadBlock st boardId addr rdata nbytes).2.2) =
      [((20 + nbytes + 4 : Nat) : Int)] := by
  by_cases hbad : nbytes = 0 ∨ nbytes % 4 ≠ 0
  · rw [ReadBlock_illegal_size st boardId addr rdata nbytes hbad] at h
    exact absurd h (by simp)
  · have h0 : nbytes ≠ 0 := by omega
    have hm : nbytes % 4 = 0 := by omega
    by_cases hnode : ConvertBoardToNode st boardId = MAX_NODES
    · have hr : ReadBlock st boardId addr rdata nbytes = (false, rdata, st) := by
        have hb : (nbytes == 0 || nbytes % 4 != 0) = false := by simp [h0, hm]
        unfold ReadBlock
        simp [h4, hb, hnode]
      rw [hr] at h
      exact absurd h (by simp)
    · rw [ReadBlock_result st boardId addr rdata nbytes h4 h0 hm hnode] at h
      simp only [Bool.and_eq_true, decide_eq_true_eq, Bool.not_eq_true'] at h
      obtain ⟨⟨⟨hs, hc⟩, hl⟩, _⟩ := h
      rw [static_cast_int_of_lt _ (by
        simp only [FW_BRESPONSE_HEADER_SIZE, FW_CRC_SIZE]; exact hsize)] at hl
      rw [ReadBlock_events st boardId addr rdata nbytes h4 h0 hm hnode, if_pos ⟨hs, hc⟩, hs]
      refine ⟨rfl, ?_⟩
      simp only [recvReports, List.cons_append, List.nil_append, List.cons.injEq, and_true]
      simpa [FW_BRESPONSE_HEADER_SIZE, FW_CRC_SIZE] using hl

/-- C13: a transaction succeeds only when the byte counts match the protocol
sizes.  `WriteQuadletNode` returns true exactly when its `Send` reported 20;
`ReadQuadletNode` returns true only if `Send` reported 16 and `Recv` 20 (so a
different count makes it return false); `ReadBlock` with more than 4 bytes
returns true only if `Send` reported 20 and `Recv` `20 + nbytes + 4`;
`WriteBlock` with more than 4 bytes returns true exactly when `Send` reported
`20 + nbytes + 4`.  The packet size is taken to fit the `int` it is compared
in. -/
theorem byte_counts_decide_success (st : Port) (node addr data flags boardId : Nat)
    (rdata : List Nat) (wdata : WData) (nbytes : Nat) (h4 : 4 < nbytes)
    (hsize : 20 + nbytes + 4 < 2 ^ 31) :
    ((WriteQuadletNode st node addr data flags).1 = true ↔
      sendReports (eventsSince st (WriteQuadletNode st node addr data flags).2) = [20]) ∧
    ((ReadQuadletNode st node addr data flags).1 = true →
      sendReports (eventsSince st (ReadQuadletNode st node addr data flags).2.2) = [16] ∧
      recvReports (eventsSince st (ReadQuadletNode st node addr data flags).2.2) = [20]) ∧
    ((ReadBlock st boardId addr rdata nbytes).1 = true →
      sendReports (eventsSince st (ReadBlock st boardId addr rdata nbytes).2.2) = [20] ∧
      recvReports (eventsSince st (ReadBlock st boardId addr rdata nbytes).2.2) =
        [((20 + nbytes + 4 : Nat) : Int)]) ∧
    ((WriteBlock st boardId addr wdata nbytes).1 = true ↔
      sendReports (eventsSince st (WriteBlock st boardId addr wdata nbytes).2) =
        [((20 + nbytes + 4 : Nat) : Int)]) := by
  have hne : nbytes ≠ 4 := by omega
  refine ⟨WriteQuadletNode_true_iff st node addr data flags,
    ReadQuadletNode_reports_of_success st node addr data flags,
    ReadBlock_reports_of_success st boardId addr rdata nbytes hne hsize, ?_⟩
  have hw := WriteBlock_true_iff st boardId addr wdata nbytes hne
  rw [static_cast_int_of_lt _ (by
    simp only [FW_BWRITE_HEADER_SIZE, FW_CRC_SIZE]; exact hsize)] at hw
  simpa [FW_BWRITE_HEADER_SIZE, FW_CRC_SIZE] using hw

/-- Instance of C13 on the sample port, for a block of 8 bytes. -/
theorem byte_counts_decide_success_witness :
    ((WriteQuadletNode (samplePort 5 1) 2 0x1800 7 0).1 = true ↔
      sendReports (eventsSince (samplePort 5 1)
        (WriteQuadletNode (samplePort 5 1) 2 0x1800 7 0).2) = [20]) ∧
    ((ReadQuadletNode (samplePort 5 1) 2 0x1800 7 0).1 = true →
      sendReports (eventsSince (samplePort 5 1)
        (ReadQuadletNode (samplePort 5 1) 2 0x1800 7 0).2.2) = [16] ∧
      recvReports (eventsSince (samplePort 5 1)
        (ReadQuadletNode (samplePort 5 1) 2 0x1800 7 0).2.2) = [20]) ∧
    ((ReadBlock (samplePort 5 1) 2 0x1800 [7, 8] 8).1 = true →
      sendReports (eventsSince (samplePort 5 1)
        (ReadBlock (samplePort 5 1) 2 0x1800 [7, 8] 8).2.2) = [20] ∧
      recvReports (eventsSince (samplePort 5 1)
        (ReadBlock (samplePort 5 1) 2 0x1800 [7, 8] 8).2.2) = [((20 + 8 + 4 : Nat) : Int)]) ∧
    ((WriteBlock (samplePort 5 1) 2 0x1800 (WData.own [7, 8]) 8).1 = true ↔
      sendReports (eventsSince (samplePort 5 1)
        (WriteBlock (samplePort 5 1) 2 0x1800 (WData.own [7, 8]) 8).2) =
        [((20 + 8 + 4 : Nat) : Int)]) :=
  byte_counts_decide_success (samplePort 5 1) 2 0x1800 7 0 2 [7, 8] (WData.own [7, 8]) 8
    (by decide) (by decide)

/-! ## Pre-receive hook -/

theorem callbackAborts_some (f : EthCallbackType) (node : Nat) (h : f node = false) :
    callbackAborts (some f) node = true := by
  simp [callbackAborts, h]

theorem recvReports_after_send (a : Nat) (b : Nat) (nf : Bool) (msg : List Nat) (bc : Bool)
    (r : Int) (rest : List PortEvent) :
    recvReports ([PortEvent.flush a, PortEvent.encode b nf, PortEvent.send msg bc r] ++ rest) =
      recvReports rest := rfl

theorem sendReports_after_send (a : Nat) (b : Nat) (nf : Bool) (msg : List Nat) (bc : Bool)
    (r : Int) (rest : List PortEvent) (h : sendReports rest = []) :
    sendReports ([PortEvent.flush a, PortEvent.encode b nf, PortEvent.send msg bc r] ++ rest) =
      [r] := by
  show r :: sendReports rest = [r]
  rw [h]

/-- With a hook that returns false for the node, `ReadQuadletNode` fails
without a receive and hands back the caller's value. -/
theorem ReadQuadletNode_hook_aborts (st : Port) (node addr data flags : Nat)
    (f : EthCallbackType) (hcb : st.eth_read_callback = some f) (hf : f node = false) :
    (ReadQuadletNode st node addr data flags).1 = false ∧
    (ReadQuadletNode st node addr data flags).2.1 = data ∧
    recvReports (eventsSince st (ReadQuadletNode st node addr data flags).2.2) = [] := by
  have hab : callbackAborts st.eth_read_callback node = true := by
    rw [hcb]; exact callbackAborts_some f node hf
  have hres : (ReadQuadletNode st node addr data flags).1 = false := by
    rw [ReadQuadletNode_result, hab]; simp
  refine ⟨hres, ?_, ?_⟩
  · rw [ReadQuadletNode_data, hres]; simp
  · rw [ReadQuadletNode_events, recvReports_after_send, if_neg (by rw [hab]; simp)]
    rfl

theorem set_zero_head_getD (l : List Nat) : l.set 0 (l.head?.getD 0) = l := by
  cases l <;> rfl

theorem eventsSince_self (st : Port) : eventsSince st st = [] :=
  eventsSince_of_append st st [] (by simp)

/-- The three ways `ReadBlock` ends before any socket activity. -/
theorem ReadBlock_cases (st : Port) (boardId addr : Nat) (rdata : List Nat) (nbytes : Nat) :
    ReadBlock st boardId addr rdata nbytes = (false, rdata, st) ∨
    (nbytes = 4 ∧ CheckFwBusGeneration st = true ∧ ConvertBoardToNode st boardId ≠ MAX_NODES ∧
      ReadBlock st boardId addr rdata 4 =
        ((ReadQuadletNode st (ConvertBoardToNode st boardId) addr (rdata.headD 0)
            (boardId &&& FW_NODE_FLAGS_MASK)).1,
         rdata.set 0 (ReadQuadletNode st (ConvertBoardToNode st boardId) addr (rdata.headD 0)
            (boardId &&& FW_NODE_FLAGS_MASK)).2.1,
         (ReadQuadletNode st (ConvertBoardToNode st boardId) addr (rdata.headD 0)
            (boardId &&& FW_NODE_FLAGS_MASK)).2.2)) ∨
    (nbytes ≠ 4 ∧ nbytes ≠ 0 ∧ nbytes % 4 = 0 ∧ ConvertBoardToNode st boardId ≠ MAX_NODES) := by
  by_cases h4 : nbytes = 4
  · subst h4
    by_cases hg : CheckFwBusGeneration st = true
    · by_cases hn : ConvertBoardToNode st boardId = MAX_NODES
      · left
        simp [ReadBlock, ReadQuadlet, hg, hn, set_zero_head_getD]
      · right; left
        refine ⟨rfl, hg, hn, ?_⟩
        simp [ReadBlock, ReadQuadlet, hg, hn]
    · left
      simp [ReadBlock, ReadQuadlet, hg, set_zero_head_getD]
  · by_cases hbad : nbytes = 0 ∨ nbytes % 4 ≠ 0
    · left
      exact ReadBlock_illegal_size st boardId addr rdata nbytes hbad
    · have h0 : nbytes ≠ 0 := by omega
      have hm : nbytes % 4 = 0 := by omega
      by_cases hn : ConvertBoardToNode st boardId = MAX_NODES
      · left
        have hb : (nbytes == 0 || nbytes % 4 != 0) = false := by simp [h0, hm]
        unfold ReadBlock
        simp [h4, hb, hn]
      · right; right
        exact ⟨h4, h0, hm, hn⟩

/-- With a hook that returns false for the node of the board, `ReadBlock`
fails without a receive and leaves the caller's buffer alone. -/
theorem ReadBlock_hook_aborts (st : Port) (boardId addr : Nat) (rdata : List Nat) (nbytes : Nat)
    (f : EthCallbackType) (hcb : st.eth_read_callback = some f)
    (hf : f (ConvertBoardToNode st boardId) = false) :
    (ReadBlock st boardId addr rdata nbytes).1 = false ∧
    (ReadBlock st boardId addr rdata nbytes).2.1 = rdata ∧
    recvReports (eventsSince st (ReadBlock st boardId addr rdata nbytes).2.2) = [] := by
  have hab : callbackAborts st.eth_read_callback (ConvertBoardToNode st boardId) = true := by
    rw [hcb]; exact callbackAborts_some f _ hf
  rcases ReadBlock_cases st boardId addr rdata nbytes with h | ⟨h4, _, _, h⟩ | ⟨h4, h0, hm, hn⟩
  · rw [h]
    exact ⟨rfl, rfl, by rw [eventsSince_self]; rfl⟩
  · subst h4
    have hq := ReadQuadletNode_hook_aborts st (ConvertBoardToNode st boardId) addr
      (rdata.headD 0) (boardId &&& FW_NODE_FLAGS_MASK) f hcb hf
    rw [h]
    refine ⟨hq.1, ?_, hq.2.2⟩
    show rdata.set 0 _ = rdata
    rw [hq.2.1, set_zero_headD]
  · have hres : (ReadBlock st boardId addr rdata nbytes).1 = false := by
      rw [ReadBlock_result st boardId addr rdata nbytes h4 h0 hm hn, hab]; simp
    refine ⟨hres, ?_, ?_⟩
    · rw [ReadBlock_data st boardId addr rdata nbytes h4 h0 hm hn, hres]; simp
    · rw [ReadBlock_events st boardId addr rdata nbytes h4 h0 hm hn, recvReports_after_send,
        if_neg (by rw [hab]; simp)]
      rfl

/-- Without a hook, a send of the full request is followed by a receive. -/
theorem ReadQuadletNode_recv_attempted (st : Port) (node addr data flags : Nat)
    (hcb : st.eth_read_callback = none)
    (hs : sendReports (eventsSince st (ReadQuadletNode st node addr data flags).2.2) = [16]) :
    (recvReports (eventsSince st (ReadQuadletNode st node addr data flags).2.2)).length = 1 := by
  have hab : callbackAborts st.eth_read_callback node = false := by rw [hcb]; rfl
  rw [ReadQuadletNode_events] at hs ⊢
  by_cases h16 : qread_sent st node addr flags = 16
  · rw [if_pos ⟨h16, hab⟩]; rfl
  · rw [if_neg (fun h => h16 h.1)] at hs
    simp only [sendReports, List.append_nil, List.cons.injEq, and_true] at hs
    exact absurd hs h16

theorem ReadBlock_recv_attempted (st : Port) (boardId addr : Nat) (rdata : List Nat)
    (nbytes : Nat) (hcb : st.eth_read_callback = none)
    (hs : sendReports (eventsSince st (ReadBlock st boardId addr rdata nbytes).2.2) =
      [if nbytes = 4 then 16 else 20]) :
    (recvReports (eventsSince st (ReadBlock st boardId addr rdata nbytes).2.2)).length = 1 := by
  have hab : callbackAborts st.eth_read_callback (ConvertBoardToNode st boardId) = false := by
    rw [hcb]; rfl
  rcases ReadBlock_cases st boardId addr rdata nbytes with h | ⟨h4, _, _, h⟩ | ⟨h4, h0, hm, hn⟩
  · rw [h, eventsSince_self] at hs
    exact absurd hs (by simp [sendReports])
  · subst h4
    rw [h] at hs ⊢
    exact ReadQuadletNode_recv_attempted st _ addr _ _ hcb (by simpa using hs)
  · rw [ReadBlock_events st boardId addr rdata nbytes h4 h0 hm hn] at hs ⊢
    rw [if_neg h4] at hs
    by_cases h20 : bread_sent st boardId addr nbytes = 20
    · rw [if_pos ⟨h20, hab⟩]; rfl
    · rw [if_neg (fun h => h20 h.1)] at hs
      simp only [sendReports, List.append_nil, List.cons.injEq, and_true] at hs
      exact absurd hs h20

/-- The hook has no influence on `WriteQuadletNode`. -/
theorem WriteQuadletNode_ignores_hook (st : Port) (node addr data flags : Nat)
    (cb : Option EthCallbackType) :
    WriteQuadletNode { st with eth_read_callback := cb } node addr data flags =
      ((WriteQuadletNode st node addr data flags).1,
       { (WriteQuadletNode st node addr data flags).2 with eth_read_callback := cb }) := rfl

/-- The hook has no influence on `WriteBlock`. -/
theorem WriteBlock_ignores_hook (st : Port) (boardId addr : Nat) (wdata : WData) (nbytes : Nat)
    (cb : Option EthCallbackType) :
    WriteBlock { st with eth_read_callback := cb } boardId addr wdata nbytes =
      ((WriteBlock st boardId addr wdata nbytes).1,
       { (WriteBlock st boardId addr wdata nbytes).2 with eth_read_callback := cb }) := by
  have hg : CheckFwBusGeneration { st with eth_read_callback := cb } = CheckFwBusGeneration st :=
    rfl
  have hc : ConvertBoardToNode { st with eth_read_callback := cb } boardId =
      ConvertBoardToNode st boardId := rfl
  have hd : wdata.deref { st with eth_read_callback := cb } = wdata.deref st := by
    cases wdata <;> rfl
  unfold WriteBlock
  split_ifs with h1 h2
  · unfold WriteQuadlet
    rw [hg, hc, hd]
    dsimp only
    split_ifs <;> rfl
  · rfl
  · rw [hc, hd]
    dsimp only
    split_ifs <;> rfl

/-- C14: a pre-receive hook that returns false makes `ReadQuadletNode` and
`ReadBlock` return false with no `Recv` on the socket and the caller's data
unchanged; without a hook a successful send (16 bytes for the quadlet request,
20 for the block request) is always followed by a `Recv`; and the hook has no
part in `WriteQuadletNode` and `WriteBlock`, whose result and final state are
the same whatever hook is installed. -/
theorem pre_receive_hook (st : Port) (node addr data flags boardId : Nat) (rdata : List Nat)
    (wdata : WData) (nbytes : Nat) (f : EthCallbackType) (cb : Option EthCallbackType) :
    (st.eth_read_callback = some f → f node = false →
      (ReadQuadletNode st node addr data flags).1 = false ∧
      (ReadQuadletNode st node addr data flags).2.1 = data ∧
      recvReports (eventsSince st (ReadQuadletNode st node addr data flags).2.2) = []) ∧
    (st.eth_read_callback = some f → f (ConvertBoardToNode st boardId) = false →
      (ReadBlock st boardId addr rdata nbytes).1 = false ∧
      (ReadBlock st boardId addr rdata nbytes).2.1 = rdata ∧
      recvReports (eventsSince st (ReadBlock st boardId addr rdata nbytes).2.2) = []) ∧
    (st.eth_read_callback = none →
      sendReports (eventsSince st (ReadQuadletNode st node addr data flags).2.2) = [16] →
      (recvReports (eventsSince st (ReadQuadletNode st node addr data flags).2.2)).length = 1) ∧
    (st.eth_read_callback = none →
      sendReports (eventsSince st (ReadBlock st boardId addr rdata nbytes).2.2) =
        [if nbytes = 4 then 16 else 20] →
      (recvReports (eventsSince st (ReadBlock st boardId addr rdata nbytes).2.2)).length = 1) ∧
    WriteQuadletNode { st with eth_read_callback := cb } node addr data flags =
      ((WriteQuadletNode st node addr data flags).1,
       { (WriteQuadletNode st node addr data flags).2 with eth_read_callback := cb }) ∧
    WriteBlock { st with eth_read_callback := cb } boardId addr wdata nbytes =
      ((WriteBlock st boardId addr wdata nbytes).1,
       { (WriteBlock st boardId addr wdata nbytes).2 with eth_read_callback := cb }) :=
  ⟨ReadQuadletNode_hook_aborts st node addr data flags f,
   ReadBlock_hook_aborts st boardId addr rdata nbytes f,
   ReadQuadletNode_recv_attempted st node addr data flags,
   ReadBlock_recv_attempted st boardId addr rdata nbytes,
   WriteQuadletNode_ignores_hook st node addr data flags cb,
   WriteBlock_ignores_hook st boardId addr wdata nbytes cb⟩

/-- Instance of C14: the sample port with a hook that always returns false, and
the sample port without a hook. -/
theorem pre_receive_hook_witness :
    ((ReadQuadletNode { samplePort 5 1 with eth_read_callback := some (fun _ => false) }
        2 0x1800 9 0).1 = false ∧
      (ReadQuadletNode { samplePort 5 1 with eth_read_callback := some (fun _ => false) }
        2 0x1800 9 0).2.1 = 9 ∧
      recvReports (eventsSince { samplePort 5 1 with eth_read_callback := some (fun _ => false) }
        (ReadQuadletNode { samplePort 5 1 with eth_read_callback := some (fun _ => false) }
          2 0x1800 9 0).2.2) = []) ∧
    ((ReadBlock { samplePort 5 1 with eth_read_callback := some (fun _ => false) }
        2 0x1800 [7, 8] 8).1 = false ∧
      (ReadBlock { samplePort 5 1 with eth_read_callback := some (fun _ => false) }
        2 0x1800 [7, 8] 8).2.1 = [7, 8] ∧
      recvReports (eventsSince { samplePort 5 1 with eth_read_callback := some (fun _ => false) }
        (ReadBlock { samplePort 5 1 with eth_read_callback := some (fun _ => false) }
          2 0x1800 [7, 8] 8).2.2) = []) ∧
    (recvReports (eventsSince (samplePort 5 1)
      (ReadQuadletNode (samplePort 5 1) 2 0x1800 9 0).2.2)).length = 1 ∧
    (recvReports (eventsSince (samplePort 5 1)
      (ReadBlock (samplePort 5 1) 2 0x1800 [7, 8] 8).2.2)).length = 1 :=
  ⟨(pre_receive_hook { samplePort 5 1 with eth_read_callback := some (fun _ => false) }
      2 0x1800 9 0 2 [7, 8] (WData.own [7, 8]) 8 (fun _ => false) none).1 rfl rfl,
   (pre_receive_hook { samplePort 5 1 with eth_read_callback := some (fun _ => false) }
      2 0x1800 9 0 2 [7, 8] (WData.own [7, 8]) 8 (fun _ => false) none).2.1 rfl rfl,
   (pre_receive_hook (samplePort 5 1) 2 0x1800 9 0 2 [7, 8] (WData.own [7, 8]) 8
      (fun _ => false) none).2.2.1 rfl (by decide),
   (pre_receive_hook (samplePort 5 1) 2 0x1800 9 0 2 [7, 8] (WData.own [7, 8]) 8
      (fun _ => false) none).2.2.2.1 rfl (by decide)⟩

/-! ## Data handed back by the read calls -/

theorem ReadQuadletNode_data_of_failure (st : Port) (node addr data flags : Nat)
    (h : (ReadQuadletNode st node addr data flags).1 = false) :
    (ReadQuadletNode st node addr data flags).2.1 = data := by
  rw [ReadQuadletNode_data, h]; simp

theorem ReadQuadlet_data_of_failure (st : Port) (boardId addr data : Nat)
    (h : (ReadQuadlet st boardId addr data).1 = false) :
    (ReadQuadlet st boardId addr data).2.1 = data := by
  revert h
  unfold ReadQuadlet
  dsimp only
  split_ifs
  · intro _; rfl
  · intro _; rfl
  · exact ReadQuadletNode_data_of_failure _ _ _ _ _

theorem ReadBlock_data_of_failure (st : Port) (boardId addr : Nat) (rdata : List Nat)
    (nbytes : Nat) (h : (ReadBlock st boardId addr rdata nbytes).1 = false) :
    (ReadBlock st boardId addr rdata nbytes).2.1 = rdata := by
  rcases ReadBlock_cases st boardId addr rdata nbytes with h' | ⟨h4, _, _, h'⟩ | ⟨h4, h0, hm, hn⟩
  · rw [h']
  · subst h4
    rw [h'] at h ⊢
    show rdata.set 0 _ = rdata
    rw [ReadQuadletNode_data_of_failure _ _ _ _ _ h, set_zero_headD]
  · rw [ReadBlock_data st boardId addr rdata nbytes h4 h0 hm hn, h]; simp

/-- A block response whose length field differs from `nbytes` fails validation. -/
theorem ReadBlock_length_mismatch (st : Port) (boardId addr : Nat) (rdata : List Nat)
    (nbytes : Nat) (h4 : nbytes ≠ 4) (h0 : nbytes ≠ 0) (hm : nbytes % 4 = 0)
    (hn : ConvertBoardToNode st boardId ≠ MAX_NODES)
    (hlen : 256 * byteAt (bread_response st boardId addr nbytes) 12 +
      byteAt (bread_response st boardId addr nbytes) 13 ≠ nbytes) :
    (ReadBlock st boardId addr rdata nbytes).1 = false := by
  have hc : CheckFirewirePacket (bread_response st boardId addr nbytes) nbytes
      (ConvertBoardToNode st boardId) BRESPONSE (nextLabel st) = false := by
    rw [Bool.eq_false_iff]
    intro hc
    exact hlen (CheckFirewirePacket_BRESPONSE_length _ _ _ _ hc)
  rw [ReadBlock_result st boardId addr rdata nbytes h4 h0 hm hn, hc]
  simp

/-- C15: whenever `ReadQuadlet`, `ReadQuadletNode` or `ReadBlock` returns
false, the caller's output quadlet or buffer is exactly as before the call; in
particular a block response whose length field differs from `nbytes` makes
`ReadBlock` return false and leaves the buffer alone. -/
theorem failed_read_leaves_data (st : Port) (boardId node addr data flags : Nat)
    (rdata : List Nat) (nbytes : Nat) :
    ((ReadQuadlet st boardId addr data).1 = false →
      (ReadQuadlet st boardId addr data).2.1 = data) ∧
    ((ReadQuadletNode st node addr data flags).1 = false →
      (ReadQuadletNode st node addr data flags).2.1 = data) ∧
    ((ReadBlock st boardId addr rdata nbytes).1 = false →
      (ReadBlock st boardId addr rdata nbytes).2.1 = rdata) ∧
    (nbytes ≠ 4 → nbytes ≠ 0 → nbytes % 4 = 0 → ConvertBoardToNode st boardId ≠ MAX_NODES →
      256 * byteAt (bread_response st boardId addr nbytes) 12 +
        byteAt (bread_response st boardId addr nbytes) 13 ≠ nbytes →
      (ReadBlock st boardId addr rdata nbytes).1 = false ∧
      (ReadBlock st boardId addr rdata nbytes).2.1 = rdata) :=
  ⟨ReadQuadlet_data_of_failure st boardId addr data,
   ReadQuadletNode_data_of_failure st node addr data flags,
   ReadBlock_data_of_failure st boardId addr rdata nbytes,
   fun h4 h0 hm hn hlen =>
     ⟨ReadBlock_length_mismatch st boardId addr rdata nbytes h4 h0 hm hn hlen,
      ReadBlock_data_of_failure st boardId addr rdata nbytes
        (ReadBlock_length_mismatch st boardId addr rdata nbytes h4 h0 hm hn hlen)⟩⟩

/-- Instance of C15: the peer answers a block read of 8 bytes with a response
of the right size (32 bytes) whose length field says 12. -/
theorem failed_read_leaves_data_witness :
    (bread_response (respondingPort 5 1 (sampleBlockResponse 12)) 2 0x1800 8).length = 32 ∧
    (ReadBlock (respondingPort 5 1 (sampleBlockResponse 12)) 2 0x1800 [1, 2, 3] 8).1 = false ∧
    (ReadBlock (respondingPort 5 1 (sampleBlockResponse 12)) 2 0x1800 [1, 2, 3] 8).2.1 =
      [1, 2, 3] :=
  ⟨by decide,
   (failed_read_leaves_data (respondingPort 5 1 (sampleBlockResponse 12)) 2 2 0x1800 0 0
      [1, 2, 3] 8).2.2.2 (by decide) (by decide) (by decide) (by decide) (by decide)⟩

/-- The read-side swap: `bswap_32` of the quadlet the host reads at a byte
offset is the big-endian value of the four bytes there. -/
theorem bswap_32_quadAt (p : List Nat) (off : Nat) :
    bswap_32 (quadAt p off) = beAt p off 4 := by
  rw [bswap_32_eq]
  simp only [quadAt, beAt, Nat.add_zero, Nat.reducePow, Nat.zero_mul, Nat.zero_add]
  have h0 := byteAt_lt p off
  have h1 := byteAt_lt p (off + 1)
  have h2 := byteAt_lt p (off + 2)
  have h3 := byteAt_lt p (off + 3)
  generalize byteAt p off = b0 at h0 ⊢
  generalize byteAt p (off + 1) = b1 at h1 ⊢
  generalize byteAt p (off + 2) = b2 at h2 ⊢
  generalize byteAt p (off + 3) = b3 at h3 ⊢
  have hb := bytesOfQuad_of_bytes b0 b1 b2 b3 h0 h1 h2 h3
  simp only [bytesOfQuad, List.cons.injEq, and_true, Nat.reducePow] at hb
  obtain ⟨e0, e1, e2, e3⟩ := hb
  rw [e0, e1, e2, e3]
  omega

theorem byteAt_drop (p : List Nat) (k i : Nat) : byteAt (p.drop k) i = byteAt p (k + i) := by
  simp [byteAt, List.getD_eq_getElem?_getD, List.getElem?_drop]

theorem byteAt_take (p : List Nat) (k i : Nat) (h : i < k) :
    byteAt (p.take k) i = byteAt p i := by
  simp [byteAt, List.getD_eq_getElem?_getD, List.getElem?_take, h]

/-- The big-endian value of bytes `k..k+3` only depends on those four bytes. -/
theorem beAt_window (p : List Nat) (k : Nat) :
    beAt p k 4 = beAt ((p.drop k).take 4) 0 4 := by
  simp only [beAt, Nat.add_zero, Nat.zero_add, Nat.zero_mul]
  rw [byteAt_take _ 4 0 (by decide), byteAt_take _ 4 1 (by decide),
    byteAt_take _ 4 2 (by decide), byteAt_take _ 4 3 (by decide),
    byteAt_drop, byteAt_drop, byteAt_drop, byteAt_drop]
  rfl

/-- The data quadlet of a quadlet write on the wire. -/
theorem qwrite_data_bytes (node addr d tl : Nat) :
    ((bytesOfQuads (make_qwrite_packet node addr d tl)).drop 12).take 4 =
      bytesOfQuad (bswap_32 (u32 d)) := by
  unfold make_qwrite_packet
  simp only [bytesOfQuads_append, List.append_assoc]
  rw [List.drop_left' (by rw [bytesOfQuads_length, make_1394_header_length])]
  have h1 : bytesOfQuads [bswap_32 (u32 d)] = bytesOfQuad (bswap_32 (u32 d)) := by
    simp [bytesOfQuads]
  rw [h1]
  exact List.take_left' rfl

/-- C16: quadlet data round-trips through the codec.  If the send of the
read request is complete, the hook does not abort, and the response is 20
bytes long, passes `CheckFirewirePacket` and carries in bytes 12..15 the four
wire bytes `make_qwrite_packet` writes as the data quadlet for a 32-bit value
`d`, then `ReadQuadletNode` succeeds and returns `d`. -/
theorem quadlet_data_roundtrip (st : Port) (node addr data flags d wnode waddr wtl : Nat)
    (hd : d < 2 ^ 32)
    (hsend : qread_sent st node addr flags = 16)
    (hcb : callbackAborts st.eth_read_callback node = false)
    (hlen : (qread_response st node addr flags).length = 20)
    (hvalid : CheckFirewirePacket (qread_response st node addr flags) 0 node QRESPONSE
      (nextLabel st) = true)
    (hdata : ((qread_response st node addr flags).drop 12).take 4 =
      ((bytesOfQuads (make_qwrite_packet wnode waddr d wtl)).drop 12).take 4) :
    (ReadQuadletNode st node addr data flags).1 = true ∧
    (ReadQuadletNode st node addr data flags).2.1 = d := by
  have hres : (ReadQuadletNode st node addr data flags).1 = true := by
    rw [ReadQuadletNode_result, hsend, hcb, hlen, hvalid]
    rfl
  refine ⟨hres, ?_⟩
  rw [ReadQuadletNode_data, if_pos hres, bswap_32_quadAt, beAt_window, hdata, qwrite_data_bytes]
  have hu : u32 d = d := Nat.mod_eq_of_lt hd
  rw [hu]
  exact beAt_bswap_32 d hd

/-- Instance of C16: the peer answers with the data quadlet written for
0x00010005. -/
theorem quadlet_data_roundtrip_witness :
    (ReadQuadletNode (respondingPort 5 1 (sampleQuadletResponse [0x00, 0x01, 0x00, 0x05]))
      2 0x1800 0 0).1 = true ∧
    (ReadQuadletNode (respondingPort 5 1 (sampleQuadletResponse [0x00, 0x01, 0x00, 0x05]))
      2 0x1800 0 0).2.1 = 0x00010005 :=
  quadlet_data_roundtrip (respondingPort 5 1 (sampleQuadletResponse [0x00, 0x01, 0x00, 0x05]))
    2 0x1800 0 0 0x00010005 2 0x1800 6 (by decide) (by decide) (by decide) (by decide)
    (by decide) (by decide)

/-- C17 (as stated, false for block reads): the peer answers a block read of
two quadlets with the payload bytes 11 22 33 44 55 66 77 88; `ReadBlock`
succeeds and stores 0x44332211 and 0x88776655, not the byte-swapped
(big-endian) values 0x11223344 and 0x55667788 of the payload quadlets. -/
theorem ReadBlock_does_not_swap :
    (ReadBlock (respondingPort 5 1 (sampleBlockResponse 8)) 2 0x1800 [1, 2, 3] 8).1 = true ∧
    (ReadBlock (respondingPort 5 1 (sampleBlockResponse 8)) 2 0x1800 [1, 2, 3] 8).2.1 =
      [0x44332211, 0x88776655, 3] ∧
    bread_response (respondingPort 5 1 (sampleBlockResponse 8)) 2 0x1800 8 =
      sampleBlockResponse 8 ∧
    beAt (sampleBlockResponse 8) 20 4 = 0x11223344 ∧
    beAt (sampleBlockResponse 8) 24 4 = 0x55667788 := by
  refine ⟨?_, ?_, ?_, ?_, ?_⟩ <;> decide

theorem quadsAt_length (p : List Nat) (off n : Nat) : (quadsAt p off n).length = n := by
  simp [quadsAt]

theorem quadsAt_getD (p : List Nat) (off n i : Nat) (h : i < n) :
    (quadsAt p off n).getD i 0 = quadAt p (off + 4 * i) := by
  simp [quadsAt, List.getD_eq_getElem?_getD, List.getElem?_map, List.getElem?_range h]

theorem memcpyQuads_quadsAt (rdata p : List Nat) (off n : Nat) :
    memcpyQuads rdata 0 (quadsAt p off n) n = quadsAt p off n ++ rdata.drop n := by
  unfold memcpyQuads
  have h : (quadsAt p off n).take n = quadsAt p off n := by
    rw [List.take_of_length_le (by rw [quadsAt_length])]
  rw [h]
  simp

theorem ReadBlock_mapped_of_success (st : Port) (boardId addr : Nat) (rdata : List Nat)
    (nbytes : Nat) (h4 : nbytes ≠ 4) (h : (ReadBlock st boardId addr rdata nbytes).1 = true) :
    nbytes ≠ 0 ∧ nbytes % 4 = 0 ∧ ConvertBoardToNode st boardId ≠ MAX_NODES := by
  rcases ReadBlock_cases st boardId addr rdata nbytes with h' | ⟨h4', _⟩ | ⟨_, h0, hm, hn⟩
  · rw [h'] at h
    exact absurd h (by simp)
  · exact absurd h4' h4
  · exact ⟨h0, hm, hn⟩

/-- C17 (amended): on success `ReadQuadletNode` returns the big-endian value
of response bytes 12..15, while `ReadBlock` of more than one quadlet copies
the payload without a byte swap: quadlet `i` of the caller's buffer is the
host's (little-endian) reading of response bytes `20+4i..23+4i`, and the
buffer beyond the `nbytes/4` copied quadlets is as before. -/
theorem read_data_decoding (st : Port) (node addr data flags boardId : Nat)
    (rdata : List Nat) (nbytes : Nat) :
    ((ReadQuadletNode st node addr data flags).1 = true →
      (ReadQuadletNode st node addr data flags).2.1 =
        beAt (qread_response st node addr flags) 12 4) ∧
    (nbytes ≠ 4 → (ReadBlock st boardId addr rdata nbytes).1 = true →
      (ReadBlock st boardId addr rdata nbytes).2.1 =
        quadsAt (bread_response st boardId addr nbytes) 20 (nbytes / 4) ++
          rdata.drop (nbytes / 4) ∧
      ∀ i, i < nbytes / 4 →
        (ReadBlock st boardId addr rdata nbytes).2.1.getD i 0 =
          quadAt (bread_response st boardId addr nbytes) (20 + 4 * i)) := by
  constructor
  · intro h
    rw [ReadQuadletNode_data, if_pos h, bswap_32_quadAt]
  · intro h4 h
    obtain ⟨h0, hm, hn⟩ := ReadBlock_mapped_of_success st boardId addr rdata nbytes h4 h
    have hd : (ReadBlock st boardId addr rdata nbytes).2.1 =
        quadsAt (bread_response st boardId addr nbytes) 20 (nbytes / 4) ++
          rdata.drop (nbytes / 4) := by
      rw [ReadBlock_data st boardId addr rdata nbytes h4 h0 hm hn, if_pos h,
        memcpyQuads_quadsAt]
    refine ⟨hd, ?_⟩
    intro i hi
    rw [hd, List.getD_append _ _ _ _ (by rw [quadsAt_length]; exact hi), quadsAt_getD _ _ _ _ hi]

/-- Instance of the amended C17: the block read of two quadlets answered with
the payload bytes 11 22 33 44 55 66 77 88. -/
theorem read_data_decoding_witness :
    (ReadBlock (respondingPort 5 1 (sampleBlockResponse 8)) 2 0x1800 [1, 2, 3] 8).2.1 =
      quadsAt (bread_response (respondingPort 5 1 (sampleBlockResponse 8)) 2 0x1800 8) 20 (8 / 4) ++
        [1, 2, 3].drop (8 / 4) ∧
    ∀ i, i < 8 / 4 →
      (ReadBlock (respondingPort 5 1 (sampleBlockResponse 8)) 2 0x1800 [1, 2, 3] 8).2.1.getD i 0 =
        quadAt (bread_response (respondingPort 5 1 (sampleBlockResponse 8)) 2 0x1800 8)
          (20 + 4 * i) :=
  (read_data_decoding (respondingPort 5 1 (sampleBlockResponse 8)) 2 0x1800 0 0 2
    [1, 2, 3] 8).2 (by decide) (by decide)

/-! ## Broadcast address computed by `Open` -/

/-- Setting the `w` bits above bit `k` of a number below `2^(k+w)`. -/
theorem or_high_mask (x k w : Nat) (hx : x < 2 ^ (k + w)) :
    x ||| ((2 ^ w - 1) <<< k) = x % 2 ^ k + (2 ^ w - 1) * 2 ^ k := by
  have hlt : x % 2 ^ k < 2 ^ k := Nat.mod_lt _ (Nat.two_pow_pos k)
  rw [Nat.add_comm, Nat.mul_comm]
  apply Nat.eq_of_testBit_eq
  intro j
  rw [Nat.testBit_mul_pow_two_add _ hlt]
  simp only [Nat.testBit_or, Nat.testBit_shiftLeft, Nat.testBit_two_pow_sub_one,
    Nat.testBit_mod_two_pow]
  by_cases hj : j < k
  · have : ¬ (j ≥ k) := by omega
    simp [hj, this]
  · have hge : j ≥ k := by omega
    simp only [hj, hge, if_false, decide_True, Bool.true_and]
    by_cases hw : j - k < w
    · simp [hw]
    · have hx' : x < 2 ^ j := by
        refine Nat.lt_of_lt_of_le hx (Nat.pow_le_pow_right (by decide) ?_)
        omega
      simp [hw, Nat.testBit_lt_two_pow hx']

/-- C18: for the peer address `a.b.c.d` (network byte order on the
little-endian host) `Open` computes the broadcast address `a.255.255.255` when
`a < 128`, `a.b.255.255` when `128 ≤ a < 192`, `a.b.c.255` when
`192 ≤ a < 224`, and `255.255.255.255` when `a ≥ 224`. -/
theorem Open_broadcast_classful (a b c d : Nat) (ha : a < 256) (hb : b < 256) (hc : c < 256)
    (hd : d < 256) :
    Open_ServerAddrBroadcast (s_addr_of a b c d) =
      if a < 128 then s_addr_of a 255 255 255
      else if a < 192 then s_addr_of a b 255 255
      else if a < 224 then s_addr_of a b c 255
      else s_addr_of 255 255 255 255 := by
  have hfirst : u8 (s_addr_of a b c d &&& 0x000000ff) = a := by
    have h : s_addr_of a b c d &&& 0x000000ff = s_addr_of a b c d % 2 ^ 8 :=
      Nat.and_pow_two_sub_one_eq_mod _ 8
    rw [h]
    simp only [u8, s_addr_of, Nat.reducePow]
    omega
  have hx : s_addr_of a b c d < 2 ^ 32 := by
    simp only [s_addr_of, Nat.reducePow]; omega
  have hA : s_addr_of a b c d ||| 0xffffff00 = s_addr_of a b c d % 2 ^ 8 + (2 ^ 24 - 1) * 2 ^ 8 :=
    or_high_mask _ 8 24 hx
  have hB : s_addr_of a b c d ||| 0xffff0000 = s_addr_of a b c d % 2 ^ 16 + (2 ^ 16 - 1) * 2 ^ 16 :=
    or_high_mask _ 16 16 hx
  have hC : s_addr_of a b c d ||| 0xff000000 = s_addr_of a b c d % 2 ^ 24 + (2 ^ 8 - 1) * 2 ^ 24 :=
    or_high_mask _ 24 8 hx
  unfold Open_ServerAddrBroadcast
  simp only [hfirst, hA, hB, hC]
  simp only [s_addr_of, u32, Nat.reducePow, Nat.reduceSub, Nat.reduceMul]
  split_ifs <;> omega

/-- Instance of C18: peer 192.168.1.50 gives 192.168.1.255 and peer 10.0.0.5
gives 10.255.255.255. -/
theorem Open_broadcast_classful_witness :
    Open_ServerAddrBroadcast (s_addr_of 192 168 1 50) = s_addr_of 192 168 1 255 ∧
    Open_ServerAddrBroadcast (s_addr_of 10 0 0 5) = s_addr_of 10 255 255 255 :=
  ⟨Open_broadcast_classful 192 168 1 50 (by decide) (by decide) (by decide) (by decide),
   Open_broadcast_classful 10 0 0 5 (by decide) (by decide) (by decide) (by decide)⟩

/-! ## Flag bits of the board id in `WriteBlock` -/

/-- C19 (violated): board id 0xC2 carries board 2 with both flag bits set
(NO_FORWARD 0x40, ETH_BROADCAST 0x80).  `WriteBlock` of 8 bytes sends the
packet as unicast and calls the builder with `doNotForward = false`, whereas
`ReadBlock` and `WriteQuadlet` with the same board id send as broadcast and
pass `doNotForward = true`. -/
theorem WriteBlock_drops_flags :
    (0xC2 &&& FW_NODE_ETH_BROADCAST_MASK ≠ 0) ∧ (0xC2 &&& FW_NODE_NOFORWARD_MASK ≠ 0) ∧
    (WriteBlock (samplePort 5 1) 0xC2 0x1800 (WData.own [1, 2]) 8).1 = true ∧
    sendBroadcasts (eventsSince (samplePort 5 1)
      (WriteBlock (samplePort 5 1) 0xC2 0x1800 (WData.own [1, 2]) 8).2) = [false] ∧
    encodeNoForwards (eventsSince (samplePort 5 1)
      (WriteBlock (samplePort 5 1) 0xC2 0x1800 (WData.own [1, 2]) 8).2) = [false] ∧
    sendBroadcasts (eventsSince (samplePort 5 1)
      (ReadBlock (samplePort 5 1) 0xC2 0x1800 [1, 2] 8).2.2) = [true] ∧
    encodeNoForwards (eventsSince (samplePort 5 1)
      (ReadBlock (samplePort 5 1) 0xC2 0x1800 [1, 2] 8).2.2) = [true] ∧
    sendBroadcasts (eventsSince (samplePort 5 1)
      (WriteQuadlet (samplePort 5 1) 0xC2 0x1800 7).2) = [true] ∧
    encodeNoForwards (eventsSince (samplePort 5 1)
      (WriteQuadlet (samplePort 5 1) 0xC2 0x1800 7).2) = [true] := by
  refine ⟨?_, ?_, ?_, ?_, ?_, ?_, ?_, ?_, ?_⟩ <;> decide

/-- In `WriteBlock` the flag bits are tested on the board id after it has
been masked with `FW_NODE_MASK`, so both tests always fail. -/
theorem masked_boardId_has_no_flags (boardId : Nat) :
    (((boardId &&& FW_NODE_MASK) &&& FW_NODE_NOFORWARD_MASK) != 0) = false ∧
    (((boardId &&& FW_NODE_MASK) &&& FW_NODE_ETH_BROADCAST_MASK) != 0) = false := by
  have h1 : FW_NODE_MASK &&& FW_NODE_NOFORWARD_MASK = 0 := by decide
  have h2 : FW_NODE_MASK &&& FW_NODE_ETH_BROADCAST_MASK = 0 := by decide
  rw [Nat.and_assoc, Nat.and_assoc, h1, h2]
  simp

/-! ## Node initialisation handshake -/

/-- The method `InitNodes` in terms of its handshake steps. -/
theorem InitNodes_eq (Q : Nat) (st : Port) :
    InitNodes Q st =
      if !(InitNodes_step1 st).1 then (0, (InitNodes_step1 st).2)
      else if !(InitNodes_step2 st).1 then (0, (InitNodes_step2 st).2.2)
      else if (InitNodes_step2 st).2.1 != Q then (0, (InitNodes_step2 st).2.2)
      else if !(InitNodes_step3 st).1 then (0, (InitNodes_step3 st).2.2)
      else if (InitNodes_hubState st).is_fw_master then
        (if !(InitNodes_step4 st).1 then (0, (InitNodes_step4 st).2)
         else (MAX_BOARDS, (InitNodes_step4 st).2))
      else (MAX_BOARDS, InitNodes_hubState st) := rfl

theorem ReadQuadletNode_is_fw_master (st : Port) (node addr data flags : Nat) :
    (ReadQuadletNode st node addr data flags).2.2.is_fw_master = st.is_fw_master := by
  unfold ReadQuadletNode
  simp only [Port.noteEncode]
  split_ifs <;> rfl

theorem InitNodes_hubState_is_fw_master (st : Port) :
    (InitNodes_hubState st).is_fw_master = st.is_fw_master := by
  show (InitNodes_step3 st).2.2.is_fw_master = _
  unfold InitNodes_step3
  rw [ReadQuadletNode_is_fw_master]
  unfold InitNodes_step2
  rw [ReadQuadletNode_is_fw_master]
  rfl

theorem sendReports_append (a b : List PortEvent) :
    sendReports (a ++ b) = sendReports a ++ sendReports b := by
  induction a with
  | nil => rfl
  | cons e rest ih =>
    cases e <;> simp [sendReports, ih]

theorem ReadQuadletNode_trace_extends (st : Port) (node addr data flags : Nat) :
    st.sock.trace <+: (ReadQuadletNode st node addr data flags).2.2.sock.trace := by
  unfold ReadQuadletNode
  simp only [Port.noteEncode]
  split_ifs <;>
    simp [SocketInternals.FlushRecv, SocketInternals.Send, SocketInternals.Recv]

theorem WriteQuadletNode_trace_extends (st : Port) (node addr data flags : Nat) :
    st.sock.trace <+: (WriteQuadletNode st node addr data flags).2.sock.trace := by
  simp [WriteQuadletNode, Port.noteEncode, SocketInternals.Send]

theorem trace_eq_append_events (a b : Port) (h : a.sock.trace <+: b.sock.trace) :
    b.sock.trace = a.sock.trace ++ eventsSince a b := by
  obtain ⟨t, ht⟩ := h
  rw [eventsSince_of_append a b t ht.symm, ht]

theorem eventsSince_trans (a b c : Port) (h1 : a.sock.trace <+: b.sock.trace)
    (h2 : b.sock.trace <+: c.sock.trace) :
    eventsSince a c = eventsSince a b ++ eventsSince b c := by
  apply eventsSince_of_append
  rw [trace_eq_append_events b c h2, trace_eq_append_events a b h1, List.append_assoc]

theorem ReadQuadletNode_send_count (st : Port) (node addr data flags : Nat) :
    (sendReports (eventsSince st (ReadQuadletNode st node addr data flags).2.2)).length = 1 := by
  rw [ReadQuadletNode_events, sendReports_append]
  split_ifs <;> rfl

theorem WriteQuadletNode_send_count (st : Port) (node addr data flags : Nat) :
    (sendReports (eventsSince st (WriteQuadletNode st node addr data flags).2)).length = 1 := by
  rw [WriteQuadletNode_events]
  rfl

theorem InitNodes_send_counts (st : Port) :
    (sendReports (eventsSince st (InitNodes_step1 st).2)).length = 1 ∧
    (sendReports (eventsSince st (InitNodes_step2 st).2.2)).length = 2 ∧
    (sendReports (eventsSince st (InitNodes_step3 st).2.2)).length = 3 ∧
    (sendReports (eventsSince st (InitNodes_hubState st))).length = 3 := by
  have p1 : st.sock.trace <+: (InitNodes_step1 st).2.sock.trace :=
    WriteQuadletNode_trace_extends _ _ _ _ _
  have p2 : (InitNodes_step1 st).2.sock.trace <+: (InitNodes_step2 st).2.2.sock.trace :=
    ReadQuadletNode_trace_extends _ _ _ _ _
  have p3 : (InitNodes_step2 st).2.2.sock.trace <+: (InitNodes_step3 st).2.2.sock.trace :=
    ReadQuadletNode_trace_extends _ _ _ _ _
  have c1 : (sendReports (eventsSince st (InitNodes_step1 st).2)).length = 1 :=
    WriteQuadletNode_send_count _ _ _ _ _
  have c2 : (sendReports (eventsSince st (InitNodes_step2 st).2.2)).length = 2 := by
    rw [eventsSince_trans st _ _ p1 p2, sendReports_append, List.length_append, c1]
    have : (sendReports (eventsSince (InitNodes_step1 st).2 (InitNodes_step2 st).2.2)).length
        = 1 := ReadQuadletNode_send_count _ _ _ _ _
    rw [this]
  have c3 : (sendReports (eventsSince st (InitNodes_step3 st).2.2)).length = 3 := by
    rw [eventsSince_trans st _ _ (List.IsPrefix.trans p1 p2) p3, sendReports_append,
      List.length_append, c2]
    have : (sendReports (eventsSince (InitNodes_step2 st).2.2 (InitNodes_step3 st).2.2)).length
        = 1 := ReadQuadletNode_send_count _ _ _ _ _
    rw [this]
  exact ⟨c1, c2, c3, c3⟩

/-- C20: `InitNodes` returns `MAX_BOARDS` (16) exactly when every handshake
step gets its expected reply: the broadcast write of the host address to
address 11 succeeds, the hardware-version read at address 4 succeeds and
returns `QLA1_String`, the board-id read at address 0 succeeds, and, on the
FireWire master, the eth1394 broadcast write succeeds.  In every other case it
returns 0.  When the port is not the master at most the three sends of the
first three steps are made, so the eth1394 write is not issued. -/
theorem InitNodes_handshake (QLA1_String : Nat) (st : Port) :
    ((InitNodes QLA1_String st).1 = MAX_BOARDS ↔
      ((InitNodes_step1 st).1 = true ∧ (InitNodes_step2 st).1 = true ∧
       (InitNodes_step2 st).2.1 = QLA1_String ∧ (InitNodes_step3 st).1 = true ∧
       (st.is_fw_master = true → (InitNodes_step4 st).1 = true))) ∧
    ((InitNodes QLA1_String st).1 ≠ MAX_BOARDS → (InitNodes QLA1_String st).1 = 0) ∧
    (st.is_fw_master = false →
      (sendReports (eventsSince st (InitNodes QLA1_String st).2)).length ≤ 3) := by
  have hm := InitNodes_hubState_is_fw_master st
  obtain ⟨c1, c2, c3, c4⟩ := InitNodes_send_counts st
  rw [InitNodes_eq, hm]
  by_cases h1 : (InitNodes_step1 st).1 = true
  · by_cases h2 : (InitNodes_step2 st).1 = true
    · by_cases hq : (InitNodes_step2 st).2.1 = QLA1_String
      · by_cases h3 : (InitNodes_step3 st).1 = true
        · by_cases hmaster : st.is_fw_master = true
          · by_cases h4 : (InitNodes_step4 st).1 = true
            · simp [h1, h2, hq, h3, hmaster, h4]
            · simp [h1, h2, hq, h3, hmaster, h4, MAX_BOARDS]
          · simp [h1, h2, hq, h3, hmaster, c4]
        · simp [h1, h2, hq, h3, MAX_BOARDS, c3]
      · simp [h1, h2, hq, MAX_BOARDS, c2]
    · simp [h1, h2, MAX_BOARDS, c2]
  · simp [h1, MAX_BOARDS, c1]

/-- Instance of C20: a port that is not the master, on a network whose peer
answers every message with a quadlet response carrying the bytes `QLA1`
(0x514C4131); every step gets its reply, `InitNodes` returns 16 after three
sends and stores hub board 1. -/
theorem InitNodes_handshake_witness :
    (InitNodes 0x514C4131
      (respondingPort 0 1 (sampleQuadletResponse [0x51, 0x4C, 0x41, 0x31]))).1 = MAX_BOARDS ∧
    (sendReports (eventsSince (respondingPort 0 1 (sampleQuadletResponse [0x51, 0x4C, 0x41, 0x31]))
      (InitNodes 0x514C4131
        (respondingPort 0 1 (sampleQuadletResponse [0x51, 0x4C, 0x41, 0x31]))).2)).length ≤ 3 ∧
    (InitNodes 0x514C4131
      (respondingPort 0 1 (sampleQuadletResponse [0x51, 0x4C, 0x41, 0x31]))).2.HubBoard = 1 :=
  ⟨(InitNodes_handshake 0x514C4131
      (respondingPort 0 1 (sampleQuadletResponse [0x51, 0x4C, 0x41, 0x31]))).1.mpr
      ⟨by decide, by decide, by decide, by decide, fun h => absurd h (by decide)⟩,
   (InitNodes_handshake 0x514C4131
      (respondingPort 0 1 (sampleQuadletResponse [0x51, 0x4C, 0x41, 0x31]))).2.2 rfl,
   by decide⟩

/-! ## The CRC table -/

theorem crc32_tab_eq_spec : crc32_tab = (List.range 256).map spec_table_entry := by
  decide

theorem crc32_tab_getD_eq (i : Nat) (h : i < 256) : crc32_tab.getD i 0 = spec_table_entry i := by
  rw [crc32_tab_eq_spec, List.getD_eq_getElem?_getD, List.getElem?_map,
    List.getElem?_range h]
  rfl

/-- C23: `crc32_tab` is the standard reflected CRC-32 table: it has exactly
256 entries and entry `i`, for every `i` in 0..255, is the value obtained from
`i` by eight steps of `c := (c >> 1) xor (0xEDB88320 if the low bit of c is 1,
else 0)`. -/
theorem crc32_tab_is_standard :
    crc32_tab.length = 256 ∧
    ∀ i, i < 256 → crc32_tab.getD i 0 = spec_reflected_step^[8] i :=
  ⟨rfl, fun i h => crc32_tab_getD_eq i h⟩

/-- Instance of C23: entry 1 of the table is 0x77073096, eight steps from 1. -/
theorem crc32_tab_is_standard_witness :
    (1 < 256) ∧ crc32_tab.getD 1 0 = spec_reflected_step^[8] 1 ∧
      spec_reflected_step^[8] 1 = 0x77073096 :=
  ⟨by decide, crc32_tab_is_standard.2 1 (by decide), by decide⟩

/-! ## Extra data -/

/-- C25: bus-reset detection in `ProcessExtraData`.  If the generation byte
`packet[1]` differs from the cached `FwBusGeneration`, then afterwards
`newFwBusGeneration = packet[1]` and the reset-pending condition
`FwBusGeneration != newFwBusGeneration` holds (the gate `CheckFwBusGeneration`
is closed); if it is equal, `newFwBusGeneration` is not modified; in both cases
the cached `FwBusGeneration` and the label counter `fw_tl` are unchanged. -/
theorem ProcessExtraData_latches_generation (st : Port) (packet : List Nat) :
    (byteAt packet 1 ≠ st.FwBusGeneration →
      (ProcessExtraData st packet).newFwBusGeneration = byteAt packet 1 ∧
      (ProcessExtraData st packet).FwBusGeneration ≠
        (ProcessExtraData st packet).newFwBusGeneration ∧
      CheckFwBusGeneration (ProcessExtraData st packet) = false) ∧
    (byteAt packet 1 = st.FwBusGeneration →
      (ProcessExtraData st packet).newFwBusGeneration = st.newFwBusGeneration) ∧
    (ProcessExtraData st packet).FwBusGeneration = st.FwBusGeneration ∧
    (ProcessExtraData st packet).fw_tl = st.fw_tl := by
  refine ⟨fun h => ?_, fun h => ?_, ?_, ?_⟩
  · simp [ProcessExtraData, OnFwBusReset, CheckFwBusGeneration, h, Ne.symm h]
  · simp [ProcessExtraData, OnFwBusReset, h]
  · unfold ProcessExtraData OnFwBusReset
    dsimp only
    split_ifs <;> rfl
  · unfold ProcessExtraData OnFwBusReset
    dsimp only
    split_ifs <;> rfl

/-- Instance of C25: a port whose cached and latched generation are both 1
receives extra data with generation byte 2 (latched, reset pending) and with
generation byte 1 (nothing changes). -/
theorem ProcessExtraData_latches_generation_witness :
    ((ProcessExtraData (samplePort 7 1) [0, 2, 0, 0, 0, 0, 0, 0]).newFwBusGeneration = 2 ∧
      CheckFwBusGeneration (ProcessExtraData (samplePort 7 1) [0, 2, 0, 0, 0, 0, 0, 0]) = false) ∧
    (ProcessExtraData (samplePort 7 1) [1, 1, 0, 0, 0, 0, 0, 0]).newFwBusGeneration = 1 ∧
    (ProcessExtraData (samplePort 7 1) [0, 2, 0, 0, 0, 0, 0, 0]).fw_tl = 7 :=
  ⟨⟨((ProcessExtraData_latches_generation (samplePort 7 1) [0, 2, 0, 0, 0, 0, 0, 0]).1
        (by decide)).1,
     ((ProcessExtraData_latches_generation (samplePort 7 1) [0, 2, 0, 0, 0, 0, 0, 0]).1
        (by decide)).2.2⟩,
   (ProcessExtraData_latches_generation (samplePort 7 1) [1, 1, 0, 0, 0, 0, 0, 0]).2.1
     (by decide),
   (ProcessExtraData_latches_generation (samplePort 7 1) [0, 2, 0, 0, 0, 0, 0, 0]).2.2.2⟩

/-! ## Flushing the receive queue -/

theorem flushLoop_eq (pending : List (List Nat)) (numFlushed : Nat) :
    flushLoop pending numFlushed =
      (numFlushed + (pending.takeWhile (fun d => !d.isEmpty)).length,
       (pending.dropWhile (fun d => !d.isEmpty)).drop 1) := by
  induction pending generalizing numFlushed with
  | nil => simp [flushLoop]
  | cons d rest ih =>
    cases d with
    | nil => simp [flushLoop, recvFrom, FW_QRESPONSE_SIZE]
    | cons b bs =>
      have hpos : (recvFrom ((b :: bs) :: rest) FW_QRESPONSE_SIZE).1 > 0 := by
        simp only [recvFrom, FW_QRESPONSE_SIZE, List.take_succ_cons, List.length_cons]
        omega
      simp only [flushLoop, hpos, if_true, ih, List.isEmpty_cons, Bool.not_false,
        List.takeWhile_cons_of_pos, List.dropWhile_cons_of_pos, List.length_cons]
      congr 1
      omega

theorem flushLoop_of_nonempty (pending : List (List Nat)) (numFlushed : Nat)
    (h : ∀ d ∈ pending, d ≠ []) :
    flushLoop pending numFlushed = (numFlushed + pending.length, []) := by
  induction pending generalizing numFlushed with
  | nil => simp [flushLoop]
  | cons d rest ih =>
    have hd : d ≠ [] := h d (List.mem_cons_self _ _)
    obtain ⟨b, bs, rfl⟩ := List.exists_cons_of_ne_nil hd
    have hpos : (recvFrom ((b :: bs) :: rest) FW_QRESPONSE_SIZE).1 > 0 := by
      simp only [recvFrom, FW_QRESPONSE_SIZE, List.take_succ_cons, List.length_cons]
      omega
    simp only [flushLoop, hpos, if_true, List.length_cons]
    rw [ih _ (fun d hd => h d (List.mem_cons_of_mem _ hd))]
    congr 1
    omega

/-- C26, evaluation of the code: two datagrams are pending, the first of zero
length.  `Recv` returns 0 for it, which the loop `while (Recv(...) > 0)` takes
for an empty queue, so `FlushRecv` stops at once: it returns 0 although two
datagrams were pending and leaves the second one in the queue, where the
receive buffer should have been flushed. -/
theorem FlushRecv_stops_at_empty_datagram :
    (SocketInternals.FlushRecv { quietSocket with pending := [[], [1, 2, 3]] }).1 = 0 ∧
    (SocketInternals.FlushRecv { quietSocket with pending := [[], [1, 2, 3]] }).2.pending =
      [[1, 2, 3]] ∧
    (SocketInternals.FlushRecv { quietSocket with pending := [[], [1, 2, 3]] }).1 ≠
      ([[], [1, 2, 3]] : List (List Nat)).length := by
  decide

/-- Extent of the defect: the loop discards the leading datagrams of non-zero
length and the first zero-length datagram, where it stops, and counts the
non-empty ones.  Only a queue without a zero-length datagram is drained
completely, with the number of pending datagrams returned. -/
theorem FlushRecv_extent (sock : SocketInternals) :
    sock.FlushRecv.1 = (sock.pending.takeWhile (fun d => !d.isEmpty)).length ∧
    sock.FlushRecv.2.pending = (sock.pending.dropWhile (fun d => !d.isEmpty)).drop 1 ∧
    ((∀ d ∈ sock.pending, d ≠ []) →
      sock.FlushRecv.1 = sock.pending.length ∧ sock.FlushRecv.2.pending = []) := by
  refine ⟨?_, ?_, fun h => ?_⟩
  · simp [SocketInternals.FlushRecv, flushLoop_eq]
  · simp [SocketInternals.FlushRecv, flushLoop_eq]
  · simp [SocketInternals.FlushRecv, flushLoop_of_nonempty sock.pending 0 h]

/-- The consequence of the early stop for the next transaction: a stale
quadlet response left behind an empty datagram survives the flush of
`ReadQuadletNode`, is taken for the answer to the new request, and the read
reports success with the stale value 0xDEADBEEF. -/
theorem ReadQuadletNode_returns_stale_response :
    (ReadQuadletNode
      { samplePort 0 1 with
        sock := { quietSocket with
          pending := [[], sampleQuadletResponse [0xDE, 0xAD, 0xBE, 0xEF]] } }
      2 0x1800 0 0).1 = true ∧
    (ReadQuadletNode
      { samplePort 0 1 with
        sock := { quietSocket with
          pending := [[], sampleQuadletResponse [0xDE, 0xAD, 0xBE, 0xEF]] } }
      2 0x1800 0 0).2.1 = 0xDEADBEEF := by
  decide

/-! ## Bit reversal -/

theorem BitReverseTable_bits_low :
    ∀ i, i < 256 → ∀ j, j < 8 → (BitReverseTable.getD i 0).testBit j = i.testBit (7 - j) := by
  decide

theorem BitReverseTable_testBit (i j : Nat) (hi : i < 256) :
    (BitReverseTable.getD i 0).testBit j = (decide (j < 8) && i.testBit (7 - j)) := by
  by_cases hj : j < 8
  · rw [BitReverseTable_bits_low i hi j hj]
    simp [hj]
  · have hlt : BitReverseTable.getD i 0 < 2 ^ j :=
      Nat.lt_of_lt_of_le (BitReverseTable_lt i)
        (by
          have : (2 : Nat) ^ 8 ≤ 2 ^ j := Nat.pow_le_pow_right (by decide) (by omega)
          simpa using this)
    rw [Nat.testBit_lt_two_pow hlt]
    simp [hj]

theorem byteField_testBit (x k m : Nat) :
    (x / 2 ^ k % 256).testBit m = (decide (m < 8) && x.testBit (k + m)) := by
  have h := Nat.testBit_mod_two_pow (x / 2 ^ k) 8 m
  rw [← Nat.shiftRight_eq_div_pow] at h ⊢
  simpa using h

theorem BitReverse32_indices (x : Nat) :
    x &&& 0x000000ff = x / 2 ^ 0 % 256 ∧ (x &&& 0x0000ff00) >>> 8 = x / 2 ^ 8 % 256 ∧
    (x &&& 0x00ff0000) >>> 16 = x / 2 ^ 16 % 256 ∧
    (x &&& 0xff000000) >>> 24 = x / 2 ^ 24 % 256 := by
  have h0 := and_field x 0 8
  have h1 := and_field x 8 8
  have h2 := and_field x 16 8
  have h3 := and_field x 24 8
  simp only [Nat.reducePow, Nat.reduceSub, Nat.reduceShiftLeft, Nat.shiftLeft_zero] at h0 h1 h2 h3
  simp only [Nat.reducePow, Nat.shiftRight_eq_div_pow]
  rw [h0, h1, h2, h3]
  refine ⟨by omega, ?_, ?_, ?_⟩
  · exact Nat.mul_div_cancel _ (by decide)
  · exact Nat.mul_div_cancel _ (by decide)
  · exact Nat.mul_div_cancel _ (by decide)

/-- Bit `j` of `BitReverse32 x` is bit `31 - j` of `x`. -/
theorem BitReverse32_testBit (x j : Nat) :
    (BitReverse32 x).testBit j = (decide (j < 32) && x.testBit (31 - j)) := by
  obtain ⟨e0, e1, e2, e3⟩ := BitReverse32_indices x
  unfold BitReverse32
  simp only [e0, e1, e2, e3, u32, Nat.zero_or, Nat.testBit_or, Nat.testBit_mod_two_pow,
    Nat.testBit_shiftLeft, BitReverseTable_testBit _ _ (Nat.mod_lt _ (by decide : 0 < 256)),
    byteField_testBit]
  by_cases h8 : j < 8
  · have a1 : 24 + (7 - j) = 31 - j := by omega
    have n1 : ¬ j ≥ 24 := by omega
    have n2 : ¬ j ≥ 16 := by omega
    have n3 : ¬ j ≥ 8 := by omega
    have l1 : j < 32 := by omega
    have l2 : 7 - j < 8 := by omega
    simp [h8, a1, n1, n2, n3, l1, l2]
  · by_cases h16 : j < 16
    · have a1 : 16 + (7 - (j - 8)) = 31 - j := by omega
      have n1 : ¬ j ≥ 24 := by omega
      have n2 : ¬ j ≥ 16 := by omega
      have n3 : j ≥ 8 := by omega
      have l1 : j < 32 := by omega
      have l2 : 7 - (j - 8) < 8 := by omega
      have l3 : j - 8 < 8 := by omega
      simp [h8, a1, n1, n2, n3, l1, l2, l3]
    · by_cases h24 : j < 24
      · have a1 : 8 + (7 - (j - 16)) = 31 - j := by omega
        have n1 : ¬ j ≥ 24 := by omega
        have n2 : j ≥ 16 := by omega
        have l1 : j < 32 := by omega
        have l2 : 7 - (j - 16) < 8 := by omega
        have l3 : j - 16 < 8 := by omega
        have l4 : ¬ j - 8 < 8 := by omega
        simp [h8, a1, n1, n2, l1, l2, l3, l4]
      · by_cases h32 : j < 32
        · have a1 : 0 + (7 - (j - 24)) = 31 - j := by omega
          have n1 : j ≥ 24 := by omega
          have l2 : 7 - (j - 24) < 8 := by omega
          have l3 : j - 24 < 8 := by omega
          have l4 : ¬ j - 8 < 8 := by omega
          have l5 : ¬ j - 16 < 8 := by omega
          simp [h8, a1, n1, h32, l2, l3, l4, l5]
        · simp [h8, h32]

/-- C21: `BitReverse32` is its own inverse on 32-bit values: for every
`x < 2^32`, `BitReverse32 (BitReverse32 x) = x`. -/
theorem BitReverse32_involution (x : Nat) (hx : x < 2 ^ 32) :
    BitReverse32 (BitReverse32 x) = x := by
  apply Nat.eq_of_testBit_eq
  intro j
  rw [BitReverse32_testBit, BitReverse32_testBit]
  by_cases hj : j < 32
  · have h1 : 31 - j < 32 := by omega
    have h2 : 31 - (31 - j) = j := by omega
    simp [hj, h1, h2]
  · have hlt : x < 2 ^ j :=
      Nat.lt_of_lt_of_le hx (Nat.pow_le_pow_right (by decide) (by omega))
    simp [hj, Nat.testBit_lt_two_pow hlt]

/-- Instance of C21: the word 0x12345678 reverses to 0x1E6A2C48 and back. -/
theorem BitReverse32_involution_witness :
    (0x12345678 : Nat) < 2 ^ 32 ∧ BitReverse32 0x12345678 = 0x1E6A2C48 ∧
      BitReverse32 (BitReverse32 0x12345678) = 0x12345678 :=
  ⟨by decide, by decide, BitReverse32_involution 0x12345678 (by decide)⟩

theorem BitReverse32_xor (a b : Nat) :
    BitReverse32 (a ^^^ b) = BitReverse32 a ^^^ BitReverse32 b := by
  apply Nat.eq_of_testBit_eq
  intro j
  simp only [BitReverse32_testBit, Nat.testBit_xor]
  cases decide (j < 32) <;> simp

theorem BitReverse32_shiftRight_one (x : Nat) (hx : x < 2 ^ 32) :
    BitReverse32 (x >>> 1) = (BitReverse32 x <<< 1) % 2 ^ 32 := by
  apply Nat.eq_of_testBit_eq
  intro j
  simp only [BitReverse32_testBit, Nat.testBit_mod_two_pow, Nat.testBit_shiftLeft,
    Nat.testBit_shiftRight]
  by_cases hj : j < 32
  · by_cases h0 : j = 0
    · subst h0
      simp [Nat.testBit_lt_two_pow hx]
    · have h1 : j ≥ 1 := by omega
      have h2 : j - 1 < 32 := by omega
      have h3 : 1 + (31 - j) = 31 - (j - 1) := by omega
      simp [hj, h1, h2, h3]
  · simp [hj]

theorem BitReverse32_top_bit (x : Nat) : (BitReverse32 x / 2 ^ 31 % 2 = 1) ↔ (x % 2 = 1) := by
  have h1 : (BitReverse32 x).testBit 31 = decide (BitReverse32 x / 2 ^ 31 % 2 = 1) :=
    Nat.testBit_to_div_mod
  have h2 := BitReverse32_testBit x 31
  have h3 := Nat.testBit_zero x
  simp only [Nat.sub_self, h3] at h2
  rw [h1] at h2
  simpa using h2

theorem spec_reflected_step_lt (x : Nat) (hx : x < 2 ^ 32) : spec_reflected_step x < 2 ^ 32 := by
  unfold spec_reflected_step
  apply Nat.xor_lt_two_pow
  · rw [Nat.shiftRight_eq_div_pow]
    exact Nat.lt_of_le_of_lt (Nat.div_le_self _ _) hx
  · split_ifs <;> decide

/-- Bit reversal turns the reflected step into the MSB-first step. -/
theorem BitReverse32_reflected_step (x : Nat) (hx : x < 2 ^ 32) :
    BitReverse32 (spec_reflected_step x) = spec_msb_step (BitReverse32 x) := by
  unfold spec_reflected_step spec_msb_step
  rw [BitReverse32_xor, BitReverse32_shiftRight_one x hx]
  by_cases hp : x % 2 = 1
  · have ht := (BitReverse32_top_bit x).mpr hp
    have hc : BitReverse32 0xEDB88320 = 0x04C11DB7 := by decide
    simp only [hp, ht, if_true, hc]
  · have ht : ¬ (BitReverse32 x / 2 ^ 31 % 2 = 1) := fun h => hp ((BitReverse32_top_bit x).mp h)
    have hc : BitReverse32 0 = 0 := by decide
    simp only [hp, ht, if_false, hc]

theorem BitReverse32_reflected_iterate (k x : Nat) (hx : x < 2 ^ 32) :
    spec_reflected_step^[k] x < 2 ^ 32 ∧
    BitReverse32 (spec_reflected_step^[k] x) = spec_msb_step^[k] (BitReverse32 x) := by
  induction k with
  | zero => exact ⟨hx, rfl⟩
  | succ k ih =>
    rw [Function.iterate_succ_apply', Function.iterate_succ_apply']
    exact ⟨spec_reflected_step_lt _ ih.1, by rw [BitReverse32_reflected_step _ ih.1, ih.2]⟩

/-! ## The table-driven step is eight bit-serial steps -/

theorem shiftRight_xor (a b k : Nat) : (a ^^^ b) >>> k = a >>> k ^^^ b >>> k := by
  apply Nat.eq_of_testBit_eq
  intro j
  simp only [Nat.testBit_shiftRight, Nat.testBit_xor]

theorem mod_two_pow_xor (a b k : Nat) : (a ^^^ b) % 2 ^ k = a % 2 ^ k ^^^ b % 2 ^ k := by
  apply Nat.eq_of_testBit_eq
  intro j
  simp only [Nat.testBit_mod_two_pow, Nat.testBit_xor]
  cases decide (j < k) <;> simp

theorem xor_swap_cancel (a b p : Nat) : (a ^^^ p) ^^^ (b ^^^ p) = a ^^^ b := by
  apply Nat.eq_of_testBit_eq
  intro j
  simp only [Nat.testBit_xor]
  cases a.testBit j <;> cases b.testBit j <;> cases p.testBit j <;> rfl

theorem xor_right_swap (a b p : Nat) : a ^^^ b ^^^ p = (a ^^^ p) ^^^ b := by
  apply Nat.eq_of_testBit_eq
  intro j
  simp only [Nat.testBit_xor]
  cases a.testBit j <;> cases b.testBit j <;> cases p.testBit j <;> rfl

theorem spec_reflected_step_xor (a b : Nat) :
    spec_reflected_step (a ^^^ b) = spec_reflected_step a ^^^ spec_reflected_step b := by
  unfold spec_reflected_step
  rw [shiftRight_xor]
  have hx : (a ^^^ b) % 2 = (a + b) % 2 := Nat.xor_mod_two_eq
  rcases Nat.mod_two_eq_zero_or_one a with ha | ha <;>
    rcases Nat.mod_two_eq_zero_or_one b with hb | hb
  · rw [if_neg (by omega : ¬ (a ^^^ b) % 2 = 1), if_neg (by omega : ¬ a % 2 = 1),
      if_neg (by omega : ¬ b % 2 = 1)]
    simp only [Nat.xor_zero]
  · rw [if_pos (by omega : (a ^^^ b) % 2 = 1), if_neg (by omega : ¬ a % 2 = 1),
      if_pos hb]
    simp only [Nat.xor_zero, Nat.xor_assoc]
  · rw [if_pos (by omega : (a ^^^ b) % 2 = 1), if_pos ha,
      if_neg (by omega : ¬ b % 2 = 1)]
    simp only [Nat.xor_zero]
    exact xor_right_swap _ _ _
  · rw [if_neg (by omega : ¬ (a ^^^ b) % 2 = 1), if_pos ha, if_pos hb]
    simp only [Nat.xor_zero]
    exact (xor_swap_cancel _ _ _).symm

theorem spec_reflected_step_low (h : Nat) :
    spec_reflected_step h = spec_reflected_step (h % 2) ^^^ (h / 2) := by
  unfold spec_reflected_step
  have h1 : h % 2 % 2 = h % 2 := Nat.mod_mod _ _
  have h2 : (h % 2) >>> 1 = 0 := by
    rw [Nat.shiftRight_eq_div_pow]
    exact Nat.div_eq_of_lt (by omega)
  have h3 : h >>> 1 = h / 2 := by rw [Nat.shiftRight_eq_div_pow, Nat.pow_one]
  rw [h1, h2, h3, Nat.zero_xor, Nat.xor_comm]

theorem spec_reflected_iterate_split (k x : Nat) :
    spec_reflected_step^[k] x = spec_reflected_step^[k] (x % 2 ^ k) ^^^ (x / 2 ^ k) := by
  induction k generalizing x with
  | zero => simp [Nat.mod_one]
  | succ k ih =>
    have hx' : x % 2 ^ (k + 1) % 2 ^ k = x % 2 ^ k :=
      Nat.mod_mod_of_dvd x (Dvd.intro _ (Nat.pow_succ 2 k).symm)
    have hq : x % 2 ^ (k + 1) / 2 ^ k = x / 2 ^ k % 2 := by
      rw [Nat.pow_succ, Nat.mod_mul_right_div_self]
    have hd : x / 2 ^ (k + 1) = x / 2 ^ k / 2 := by
      rw [Nat.pow_succ, Nat.div_div_eq_div_mul]
    rw [Function.iterate_succ_apply', Function.iterate_succ_apply', ih x,
      ih (x % 2 ^ (k + 1)), hx', hq, hd, spec_reflected_step_xor, spec_reflected_step_xor,
      spec_reflected_step_low (x / 2 ^ k), Nat.xor_assoc]

/-- One byte of `crc32` is eight bit-serial reflected steps on the state xor
the bit-reversed byte. -/
theorem crc32_step_eq_iterate (crc b : Nat) :
    crc32_step crc b = spec_reflected_step^[8] (crc ^^^ BitReverseTable.getD (u8 b) 0) := by
  have hr := BitReverseTable_lt (u8 b)
  unfold crc32_step
  generalize BitReverseTable.getD (u8 b) 0 = rb at hr
  rw [spec_reflected_iterate_split 8 (crc ^^^ rb)]
  have hm : (crc ^^^ rb) &&& 0xFF = (crc ^^^ rb) % 2 ^ 8 :=
    Nat.and_pow_two_sub_one_eq_mod _ 8
  have hlt : (crc ^^^ rb) % 2 ^ 8 < 256 := Nat.mod_lt _ (by decide)
  have hd : (crc ^^^ rb) / 2 ^ 8 = crc >>> 8 := by
    rw [← Nat.shiftRight_eq_div_pow, shiftRight_xor]
    have : rb >>> 8 = 0 := by
      rw [Nat.shiftRight_eq_div_pow]
      exact Nat.div_eq_of_lt hr
    rw [this, Nat.xor_zero]
  rw [hm, hd, crc32_tab_getD_eq _ hlt]
  rfl

/-! ## The checksum as a reflected and as an MSB-first CRC -/

theorem BitReverse32_reversed_byte (b : Nat) :
    BitReverse32 (BitReverseTable.getD (u8 b) 0) = u8 b <<< 24 := by
  have hb : u8 b < 256 := Nat.mod_lt _ (by decide)
  apply Nat.eq_of_testBit_eq
  intro j
  rw [BitReverse32_testBit, BitReverseTable_testBit _ _ hb, Nat.testBit_shiftLeft]
  by_cases h24 : j < 24
  · have h1 : ¬ 31 - j < 8 := by omega
    have h2 : ¬ j ≥ 24 := by omega
    simp [h1, h2]
  · by_cases h32 : j < 32
    · have h1 : 31 - j < 8 := by omega
      have h2 : j ≥ 24 := by omega
      have h3 : 7 - (31 - j) = j - 24 := by omega
      simp [h1, h2, h3, h32]
    · have hlt : u8 b < 2 ^ (j - 24) :=
        Nat.lt_of_lt_of_le hb (by
          have : (2 : Nat) ^ 8 ≤ 2 ^ (j - 24) := Nat.pow_le_pow_right (by decide) (by omega)
          simpa using this)
      simp [h32, Nat.testBit_lt_two_pow hlt]

theorem crc32_step_lt (crc b : Nat) (h : crc < 2 ^ 32) : crc32_step crc b < 2 ^ 32 := by
  rw [crc32_step_eq_iterate]
  exact (BitReverse32_reflected_iterate 8 _ (Nat.xor_lt_two_pow h
    (Nat.lt_trans (BitReverseTable_lt _) (by decide)))).1

theorem crc32_fold_lt (bytes : List Nat) (s : Nat) (hs : s < 2 ^ 32) :
    bytes.foldl crc32_step s < 2 ^ 32 := by
  induction bytes generalizing s with
  | nil => exact hs
  | cons b rest ih => exact ih _ (crc32_step_lt s b hs)

theorem crc32_fold_msb (bytes : List Nat) (s : Nat) (hs : s < 2 ^ 32) :
    BitReverse32 (bytes.foldl crc32_step s) = bytes.foldl spec_msb_byte (BitReverse32 s) := by
  induction bytes generalizing s with
  | nil => rfl
  | cons b rest ih =>
    have hx : s ^^^ BitReverseTable.getD (u8 b) 0 < 2 ^ 32 :=
      Nat.xor_lt_two_pow hs (Nat.lt_trans (BitReverseTable_lt _) (by decide))
    have hstep : BitReverse32 (crc32_step s b) = spec_msb_byte (BitReverse32 s) b := by
      rw [crc32_step_eq_iterate, (BitReverse32_reflected_iterate 8 _ hx).2, BitReverse32_xor,
        BitReverse32_reversed_byte]
      rfl
    rw [List.foldl_cons, List.foldl_cons, ih _ (crc32_step_lt s b hs), hstep]

/-- The reference MSB-first CRC-32 has the check value of CRC-32/BZIP2 on the
nine characters `123456789`. -/
theorem spec_msb_crc32_check_value :
    spec_msb_crc32 [0x31, 0x32, 0x33, 0x34, 0x35, 0x36, 0x37, 0x38, 0x39] = 0xFC891918 := by
  decide

/-- C27: the value sealed into every packet is the MSB-first CRC-32: for
every byte sequence `b`, `BitReverse32 (crc32 0 b)` equals the non-reflected
CRC-32 of `b` with polynomial 0x04C11DB7, initial value 0xFFFFFFFF and final xor
0xFFFFFFFF, computed bit by bit from the most significant bit of each byte. -/
theorem sealed_crc_is_msb_first (b : List Nat) :
    BitReverse32 (crc32 0 b) = spec_msb_crc32 b := by
  unfold crc32 spec_msb_crc32
  have h0 : u32 0 ^^^ 0xFFFFFFFF < 2 ^ 32 := by decide
  have h1 : BitReverse32 (u32 0 ^^^ 0xFFFFFFFF) = 0xFFFFFFFF := by decide
  have h2 : BitReverse32 0xFFFFFFFF = 0xFFFFFFFF := by decide
  simp only []
  rw [BitReverse32_xor, crc32_fold_msb b _ h0, h1, h2]

/-! ## What `crc32` itself computes -/

theorem BitReverseTable_eq_spec : BitReverseTable = (List.range 256).map spec_reverse_byte := by
  decide

theorem spec_reverse_byte_u8 (b : Nat) : spec_reverse_byte b = spec_reverse_byte (u8 b) := by
  have hbit : ∀ j, j < 8 → (u8 b).testBit j = b.testBit j := by
    intro j hj
    show (b % 2 ^ 8).testBit j = b.testBit j
    rw [Nat.testBit_mod_two_pow]
    simp [hj]
  have hr : List.range 8 = [0, 1, 2, 3, 4, 5, 6, 7] := by decide
  simp only [spec_reverse_byte, hr, List.foldl_cons, List.foldl_nil,
    hbit 0 (by decide), hbit 1 (by decide), hbit 2 (by decide), hbit 3 (by decide),
    hbit 4 (by decide), hbit 5 (by decide), hbit 6 (by decide), hbit 7 (by decide)]

theorem spec_reverse_byte_eq (b : Nat) :
    spec_reverse_byte b = BitReverseTable.getD (u8 b) 0 := by
  have hb : u8 b < 256 := Nat.mod_lt _ (by decide)
  rw [spec_reverse_byte_u8, BitReverseTable_eq_spec, List.getD_eq_getElem?_getD,
    List.getElem?_map, List.getElem?_range hb]
  rfl

theorem crc32_eq_spec_reflected (seed : Nat) (bytes : List Nat) :
    crc32 seed bytes = spec_reflected_crc32 seed (bytes.map spec_reverse_byte) := by
  unfold crc32 spec_reflected_crc32
  simp only [List.foldl_map]
  have hf : (fun c b => crc32_tab.getD ((c ^^^ u8 (spec_reverse_byte b)) &&& 0xFF) 0 ^^^
      (c >>> 8)) = crc32_step := by
    funext c b
    have hlt := BitReverseTable_lt (u8 b)
    rw [spec_reverse_byte_eq]
    unfold crc32_step
    rw [show u8 (BitReverseTable.getD (u8 b) 0) = BitReverseTable.getD (u8 b) 0 from
      Nat.mod_eq_of_lt hlt]
  rw [hf]

/-- C22, the claim as stated fails: on the nine characters `123456789` with seed
0 the function returns 0x1898913F, which is the reflected table-driven CRC over
the bit-reversed bytes itself, not its bit reversal 0xFC891918. -/
theorem crc32_output_is_not_reversed :
    crc32 0 [0x31, 0x32, 0x33, 0x34, 0x35, 0x36, 0x37, 0x38, 0x39] = 0x1898913F ∧
    BitReverse32 (spec_reflected_crc32 0
      ([0x31, 0x32, 0x33, 0x34, 0x35, 0x36, 0x37, 0x38, 0x39].map spec_reverse_byte)) =
        0xFC891918 ∧
    crc32 0 [0x31, 0x32, 0x33, 0x34, 0x35, 0x36, 0x37, 0x38, 0x39] ≠
      BitReverse32 (spec_reflected_crc32 0
        ([0x31, 0x32, 0x33, 0x34, 0x35, 0x36, 0x37, 0x38, 0x39].map spec_reverse_byte)) := by
  decide

/-- C22, amended: for every seed and byte sequence, `crc32 seed bytes` equals
the standard table-driven reflected CRC-32 update (seed complemented on entry,
result complemented on exit) run over the bytes with every byte bit-reversed;
the function bit-reverses each input byte but not its output, and the final
`BitReverse32` is applied by its callers, so that the value they seal is the
bit reversal of that CRC. -/
theorem crc32_is_reflected_crc_of_reversed_bytes (seed : Nat) (bytes : List Nat) :
    crc32 seed bytes = spec_reflected_crc32 seed (bytes.map spec_reverse_byte) ∧
    (∀ i, i < 256 → BitReverseTable.getD i 0 = spec_reverse_byte i) ∧
    BitReverse32 (crc32 seed bytes) =
      BitReverse32 (spec_reflected_crc32 seed (bytes.map spec_reverse_byte)) := by
  refine ⟨crc32_eq_spec_reflected seed bytes, fun i hi => ?_, ?_⟩
  · rw [spec_reverse_byte_eq, show u8 i = i from Nat.mod_eq_of_lt hi]
  · rw [crc32_eq_spec_reflected]

/-- Instance of C22 amended: the table entry of byte 0x31 is its bit reversal
0x8C, and the function agrees with the reference on `123456789`. -/
theorem crc32_is_reflected_crc_of_reversed_bytes_witness :
    (0x31 < 256) ∧ BitReverseTable.getD 0x31 0 = spec_reverse_byte 0x31 ∧
    spec_reverse_byte 0x31 = 0x8C ∧
    crc32 0 [0x31, 0x32, 0x33, 0x34, 0x35, 0x36, 0x37, 0x38, 0x39] =
      spec_reflected_crc32 0
        ([0x31, 0x32, 0x33, 0x34, 0x35, 0x36, 0x37, 0x38, 0x39].map spec_reverse_byte) :=
  ⟨by decide,
   (crc32_is_reflected_crc_of_reversed_bytes 0 []).2.1 0x31 (by decide),
   by decide,
   (crc32_is_reflected_crc_of_reversed_bytes 0
     [0x31, 0x32, 0x33, 0x34, 0x35, 0x36, 0x37, 0x38, 0x39]).1⟩

/-! ## Error detection -/

theorem crc32_tab_top_bytes_nodup :
    ((List.range 256).map (fun i => crc32_tab.getD i 0 / 2 ^ 24)).Nodup := by
  decide

theorem crc32_tab_top_inj (i j : Nat) (hi : i < 256) (hj : j < 256)
    (h : crc32_tab.getD i 0 / 2 ^ 24 = crc32_tab.getD j 0 / 2 ^ 24) : i = j :=
  List.inj_on_of_nodup_map crc32_tab_top_bytes_nodup (List.mem_range.mpr hi)
    (List.mem_range.mpr hj) h

theorem xor_high_div (a s : Nat) (hs : s < 2 ^ 32) :
    (a ^^^ (s >>> 8)) / 2 ^ 24 = a / 2 ^ 24 := by
  rw [← Nat.shiftRight_eq_div_pow, shiftRight_xor]
  have h0 : (s >>> 8) >>> 24 = 0 := by
    rw [Nat.shiftRight_eq_div_pow, Nat.shiftRight_eq_div_pow, Nat.div_div_eq_div_mul]
    exact Nat.div_eq_of_lt (by simpa using hs)
  rw [h0, Nat.xor_zero, Nat.shiftRight_eq_div_pow]

/-- For a fixed input byte the step of `crc32` is injective on 32-bit states. -/
theorem crc32_step_state_inj (s1 s2 b : Nat) (h1 : s1 < 2 ^ 32) (h2 : s2 < 2 ^ 32)
    (h : crc32_step s1 b = crc32_step s2 b) : s1 = s2 := by
  unfold crc32_step at h
  generalize BitReverseTable.getD (u8 b) 0 = rb at h
  rw [Nat.and_pow_two_sub_one_eq_mod (s1 ^^^ rb) 8,
    Nat.and_pow_two_sub_one_eq_mod (s2 ^^^ rb) 8] at h
  have htop := congrArg (fun v => v / 2 ^ 24) h
  simp only [xor_high_div _ _ h1, xor_high_div _ _ h2] at htop
  have hidx : (s1 ^^^ rb) % 2 ^ 8 = (s2 ^^^ rb) % 2 ^ 8 :=
    crc32_tab_top_inj _ _ (Nat.mod_lt _ (by decide)) (Nat.mod_lt _ (by decide)) htop
  rw [hidx] at h
  have hhigh : s1 >>> 8 = s2 >>> 8 := Nat.xor_right_inj.mp h
  rw [mod_two_pow_xor, mod_two_pow_xor] at hidx
  have hlow : s1 % 2 ^ 8 = s2 % 2 ^ 8 := Nat.xor_left_inj.mp hidx
  simp only [Nat.shiftRight_eq_div_pow, Nat.reducePow] at hhigh hlow
  omega

/-- For a fixed state the step of `crc32` is injective on bytes. -/
theorem crc32_step_byte_inj (s x y : Nat) (hx : x < 256) (hy : y < 256)
    (h : crc32_step s x = crc32_step s y) : x = y := by
  have hrx := BitReverse32_reversed_byte x
  have hry := BitReverse32_reversed_byte y
  have hlx := BitReverseTable_lt (u8 x)
  have hly := BitReverseTable_lt (u8 y)
  unfold crc32_step at h
  generalize BitReverseTable.getD (u8 x) 0 = rx at h hrx hlx
  generalize BitReverseTable.getD (u8 y) 0 = ry at h hry hly
  rw [Nat.and_pow_two_sub_one_eq_mod (s ^^^ rx) 8,
    Nat.and_pow_two_sub_one_eq_mod (s ^^^ ry) 8] at h
  have htab := Nat.xor_left_inj.mp h
  have hidx : (s ^^^ rx) % 2 ^ 8 = (s ^^^ ry) % 2 ^ 8 :=
    crc32_tab_top_inj _ _ (Nat.mod_lt _ (by decide)) (Nat.mod_lt _ (by decide))
      (congrArg (fun v => v / 2 ^ 24) htab)
  rw [mod_two_pow_xor, mod_two_pow_xor] at hidx
  have hr : rx % 2 ^ 8 = ry % 2 ^ 8 := Nat.xor_right_inj.mp hidx
  rw [Nat.mod_eq_of_lt (by simpa using hlx), Nat.mod_eq_of_lt (by simpa using hly)] at hr
  subst hr
  rw [hrx] at hry
  simp only [u8, Nat.shiftLeft_eq, Nat.reducePow] at hry
  omega

theorem crc32_fold_inj (bytes : List Nat) (s1 s2 : Nat) (h1 : s1 < 2 ^ 32) (h2 : s2 < 2 ^ 32)
    (hne : s1 ≠ s2) : bytes.foldl crc32_step s1 ≠ bytes.foldl crc32_step s2 := by
  induction bytes generalizing s1 s2 with
  | nil => exact hne
  | cons b rest ih =>
    exact ih _ _ (crc32_step_lt s1 b h1) (crc32_step_lt s2 b h2)
      (fun h => hne (crc32_step_state_inj s1 s2 b h1 h2 h))

/-- Replacing one byte of the input by a different byte changes `crc32`. -/
theorem crc32_detects_byte_change (seed : Nat) (pre post : List Nat) (x y : Nat)
    (hx : x < 256) (hy : y < 256) (hxy : x ≠ y) :
    crc32 seed (pre ++ x :: post) ≠ crc32 seed (pre ++ y :: post) := by
  unfold crc32
  simp only [List.foldl_append, List.foldl_cons]
  have h0 : u32 seed ^^^ 0xFFFFFFFF < 2 ^ 32 :=
    Nat.xor_lt_two_pow (Nat.mod_lt _ (by decide)) (by decide)
  have hs := crc32_fold_lt pre _ h0
  intro h
  have h' := Nat.xor_left_inj.mp h
  exact crc32_fold_inj post _ _ (crc32_step_lt _ x hs) (crc32_step_lt _ y hs)
    (fun e => hxy (crc32_step_byte_inj _ x y hx hy e)) h'

/-- C24: `crc32` detects every single-bit flip: for every seed and every two
byte sequences of the same length that differ in exactly one bit (bit `k` of
the byte `x` that follows `pre` and precedes `post`), the two checksums
differ. -/
theorem crc32_detects_single_bit_flip (seed : Nat) (pre post : List Nat) (x k : Nat)
    (hx : x < 256) (hk : k < 8) :
    crc32 seed (pre ++ x :: post) ≠ crc32 seed (pre ++ (x ^^^ 2 ^ k) :: post) := by
  have hp : 2 ^ k < 2 ^ 8 := Nat.pow_lt_pow_right (by decide) hk
  have hx8 : x < 2 ^ 8 := hx
  have hy : x ^^^ 2 ^ k < 256 := Nat.xor_lt_two_pow hx8 hp
  have hne : x ≠ x ^^^ 2 ^ k := by
    intro h
    have h2 : x ^^^ 0 = x ^^^ 2 ^ k := by rw [Nat.xor_zero]; exact h
    have h3 := Nat.xor_right_inj.mp h2
    have h4 : 0 < 2 ^ k := Nat.two_pow_pos k
    omega
  exact crc32_detects_byte_change seed pre post x (x ^^^ 2 ^ k) hx hy hne

/-- Instance of C24: bit 3 of the label byte of the 12-byte header of a
quadlet read request to node 2, address 0x1800, label 5. -/
theorem crc32_detects_single_bit_flip_witness :
    bytesOfQuads (make_1394_header 2 0x1800 QREAD 5) =
      [255, 194] ++ 20 :: [64, 255, 208, 0, 0, 0, 0, 24, 0] ∧
    (20 < 256 ∧ 3 < 8) ∧
    crc32 0 ([255, 194] ++ 20 :: [64, 255, 208, 0, 0, 0, 0, 24, 0]) ≠
      crc32 0 ([255, 194] ++ (20 ^^^ 2 ^ 3) :: [64, 255, 208, 0, 0, 0, 0, 24, 0]) :=
  ⟨by decide, ⟨by decide, by decide⟩,
   crc32_detects_single_bit_flip 0 [255, 194] [64, 255, 208, 0, 0, 0, 0, 24, 0] 20 3
     (by decide) (by decide)⟩

/-! ## Width of the block length field -/

/-- The wire bytes of the length quadlet of a block request, for any `nBytes`. -/
theorem length_quadlet_bytes_mod (nBytes : Nat) :
    bytesOfQuad (bswap_32 (u32 ((nBytes &&& 0xffff) <<< 16))) =
      [nBytes / 256 % 256, nBytes % 256, 0, 0] := by
  have hm : nBytes &&& 0xffff = nBytes % 2 ^ 16 := Nat.and_pow_two_sub_one_eq_mod nBytes 16
  rw [bytesOfQuad_bswap_32, hm]
  simp only [u32, Nat.shiftLeft_eq, Nat.reducePow, List.cons.injEq, and_true]
  refine ⟨?_, ?_, ?_, ?_⟩ <;> omega

/-- Bytes 12..15 of a buffer that starts with a request header and the length
quadlet. -/
theorem length_field_of_block_request (node addr tcode tl nBytes : Nat) (rest : List Nat) :
    beAt (bytesOfQuads ((make_1394_header node addr tcode tl ++
      [bswap_32 (u32 ((nBytes &&& 0xffff) <<< 16))]) ++ rest)) 12 2 = nBytes % 65536 ∧
    beAt (bytesOfQuads ((make_1394_header node addr tcode tl ++
      [bswap_32 (u32 ((nBytes &&& 0xffff) <<< 16))]) ++ rest)) 14 2 = 0 := by
  have hlen : (bytesOfQuads (make_1394_header node addr tcode tl)).length = 12 := by
    rw [bytesOfQuads_length, make_1394_header_length]
  have hq : bytesOfQuads [bswap_32 (u32 ((nBytes &&& 0xffff) <<< 16))] =
      [nBytes / 256 % 256, nBytes % 256, 0, 0] := by
    simp [bytesOfQuads, length_quadlet_bytes_mod]
  rw [bytesOfQuads_append, bytesOfQuads_append, hq, List.append_assoc]
  constructor
  · rw [beAt_append_right_of_length _ _ 12 2 hlen, beAt_append_left _ _ 0 2 (by simp)]
    simp only [beAt, byteAt, u8, List.getD_cons_succ, List.getD_cons_zero, Nat.reducePow,
      Nat.reduceAdd, Nat.zero_add]
    omega
  · have h := beAt_append_right (bytesOfQuads (make_1394_header node addr tcode tl))
      ([nBytes / 256 % 256, nBytes % 256, 0, 0] ++ bytesOfQuads rest) 2 2
    rw [hlen] at h
    rw [h, beAt_append_left _ _ 2 2 (by simp)]
    simp [beAt, byteAt, u8]

theorem CheckFirewirePacket_long_block (packet : List Nat) (length node tl : Nat)
    (h : 65536 ≤ length) : CheckFirewirePacket packet length node BRESPONSE tl = false := by
  cases hc : CheckFirewirePacket packet length node BRESPONSE tl with
  | false => rfl
  | true =>
    have hl := CheckFirewirePacket_BRESPONSE_length packet length node tl hc
    have h12 := byteAt_lt packet 12
    have h13 := byteAt_lt packet 13
    omega

theorem ReadBlock_long_block (st : Port) (boardId addr : Nat) (rdata : List Nat) (nbytes : Nat)
    (h : 65536 ≤ nbytes) : (ReadBlock st boardId addr rdata nbytes).1 = false := by
  rcases ReadBlock_cases st boardId addr rdata nbytes with hc | ⟨h4, _⟩ | ⟨h4, h0, hm, hn⟩
  · rw [hc]
  · omega
  · rw [ReadBlock_result st boardId addr rdata nbytes h4 h0 hm hn,
      CheckFirewirePacket_long_block _ _ _ _ h]
    simp

/-- C28: the block length field is 16 bits wide.  `make_bread_packet` and
`make_bwrite_packet` store `nBytes mod 65536` big-endian in bytes 12..13 (bytes
14..15 are zero); for every expected length of 65536 or more, every response
packet, node and label, `CheckFirewirePacket` with tcode BRESPONSE returns
false; so a `ReadBlock` of 65536 bytes or more never succeeds. -/
theorem block_length_field_is_16_bits :
    (∀ node addr nBytes tl,
      beAt (bytesOfQuads (make_bread_packet node addr nBytes tl)) 12 2 = nBytes % 65536 ∧
      beAt (bytesOfQuads (make_bread_packet node addr nBytes tl)) 14 2 = 0) ∧
    (∀ (packet : List Nat) (node addr tl N : Nat) (data : Option (List Nat)),
      6 + N ≤ packet.length → (∀ d, data = some d → d.length = N) →
      beAt (bytesOfQuads (make_bwrite_packet packet node addr data (4 * N) tl)) 12 2 =
        (4 * N) % 65536 ∧
      beAt (bytesOfQuads (make_bwrite_packet packet node addr data (4 * N) tl)) 14 2 = 0) ∧
    (∀ (packet : List Nat) (length node tl : Nat), 65536 ≤ length →
      CheckFirewirePacket packet length node BRESPONSE tl = false) ∧
    (∀ (st : Port) (boardId addr : Nat) (rdata : List Nat) (nbytes : Nat), 65536 ≤ nbytes →
      (ReadBlock st boardId addr rdata nbytes).1 = false) := by
  refine ⟨fun node addr nBytes tl => ?_, fun packet node addr tl N data hbuf hdata => ?_,
    CheckFirewirePacket_long_block, ReadBlock_long_block⟩
  · exact length_field_of_block_request node addr BREAD tl nBytes _
  · obtain ⟨a0, a1, a2, a3, a4, c, mid, tail, hp, hmid, _⟩ := buffer_split packet N hbuf
    rw [hp, make_bwrite_packet_eq a0 a1 a2 a3 a4 c mid tail node addr tl N data hmid hdata,
      List.append_assoc, List.append_assoc]
    exact length_field_of_block_request node addr BWRITE tl (4 * N) _

/-- Instance of C28: a block read request for 65540 bytes carries the length
4, a block write of two quadlets the length 8, a response is refused when
65540 bytes are expected, and a read of 65540 bytes fails. -/
theorem block_length_field_is_16_bits_witness :
    beAt (bytesOfQuads (make_bread_packet 2 0x1800 65540 5)) 12 2 = 4 ∧
    beAt (bytesOfQuads (make_bwrite_packet (List.replicate 32 0) 2 0x1800 none
      (4 * 2) 5)) 12 2 = 8 ∧
    CheckFirewirePacket (sampleBlockResponse 65540) 65540 2 BRESPONSE 5 = false ∧
    (ReadBlock (samplePort 0 1) 2 0x1800 [] 65540).1 = false :=
  ⟨(block_length_field_is_16_bits.1 2 0x1800 65540 5).1,
   (block_length_field_is_16_bits.2.1 (List.replicate 32 0) 2 0x1800 5 2 none
      (by decide) (by simp)).1,
   block_length_field_is_16_bits.2.2.1 (sampleBlockResponse 65540) 65540 2 5 (by decide),
   block_length_field_is_16_bits.2.2.2 (samplePort 0 1) 2 0x1800 [] 65540 (by decide)⟩

/-! ## The PROM programmer -/

theorem scanTrailingFF_one (sector : List Nat) (h1 : byteAt sector 65535 = 0xFF)
    (h2 : byteAt sector 65534 ≠ 0xFF) : scanTrailingFF sector SECTOR_SIZE 0 = 1 := by
  show scanTrailingFF sector (65534 + 1 + 1) 0 = 1
  rw [scanTrailingFF, scanTrailingFF]
  simp [SECTOR_SIZE, h1, h2]

theorem scanBlank_of_blank (nextSector : List Nat)
    (h : ∀ k, k < SECTOR_SIZE → byteAt nextSector k = 0xFF) (fuel k : Nat)
    (hk : k + fuel = SECTOR_SIZE) : scanBlank nextSector fuel k = SECTOR_SIZE := by
  induction fuel generalizing k with
  | zero => simpa [scanBlank] using hk
  | succ fuel ih =>
    have hlt : k < SECTOR_SIZE := by omega
    rw [scanBlank]
    simp only [hlt, if_true, h k hlt, bne_self_eq_false, Bool.false_eq_true, if_false]
    exact ih (k + 1) (by omega)

/-- The bound `SECTOR_SIZE` on the iterations of the trailing-blank scan is
never the reason it stops: more iterations give the same count. -/
theorem scanTrailingFF_enough (sector : List Nat) (fuel extra n : Nat)
    (h : SECTOR_SIZE ≤ n + fuel) :
    scanTrailingFF sector (fuel + extra) n = scanTrailingFF sector fuel n := by
  induction fuel generalizing n with
  | zero =>
    have hn : ¬ n < SECTOR_SIZE := by omega
    cases extra with
    | zero => rfl
    | succ e =>
      rw [Nat.zero_add, scanTrailingFF, scanTrailingFF, if_neg hn]
  | succ fuel ih =>
    rw [show fuel + 1 + extra = (fuel + extra) + 1 by omega, scanTrailingFF, scanTrailingFF,
      ih (n + 1) (by omega)]

/-- The same for the scan of the following sector. -/
theorem scanBlank_enough (nextSector : List Nat) (fuel extra k : Nat)
    (h : SECTOR_SIZE ≤ k + fuel) :
    scanBlank nextSector (fuel + extra) k = scanBlank nextSector fuel k := by
  induction fuel generalizing k with
  | zero =>
    have hn : ¬ k < SECTOR_SIZE := by omega
    cases extra with
    | zero => rfl
    | succ e =>
      rw [Nat.zero_add, scanBlank, scanBlank, if_neg hn]
  | succ fuel ih =>
    rw [show fuel + 1 + extra = (fuel + extra) + 1 by omega, scanBlank, scanBlank,
      ih (k + 1) (by omega)]

/-- The trailing-blank count is at most `SECTOR_SIZE`. -/
theorem scanTrailingFF_le (sector : List Nat) (fuel n : Nat) (h : n ≤ SECTOR_SIZE) :
    scanTrailingFF sector fuel n ≤ SECTOR_SIZE := by
  induction fuel generalizing n with
  | zero => simpa [scanTrailingFF] using h
  | succ fuel ih =>
    rw [scanTrailingFF]
    split_ifs with h1 h2
    · exact h
    · exact ih (n + 1) (by omega)
    · exact h

/-- The outcome of the sector pass when the sector ends with exactly one blank
byte and the following sector is blank. -/
theorem PromDownload_sector_of_one_blank (DownloadedSector nextSector : List Nat)
    (h1 : byteAt DownloadedSector 65535 = 0xFF) (h2 : byteAt DownloadedSector 65534 ≠ 0xFF)
    (h : ∀ k, k < SECTOR_SIZE → byteAt nextSector k = 0xFF) :
    PromDownload_sector DownloadedSector nextSector = (4096, 15, true) := by
  unfold PromDownload_sector
  rw [scanTrailingFF_one DownloadedSector h1 h2,
    scanBlank_of_blank nextSector h SECTOR_SIZE 0 (by simp)]
  simp [SECTOR_SIZE, MAX_LINE]

theorem byteAt_replicate (n v i : Nat) (h : i < n) : byteAt (List.replicate n v) i = u8 v := by
  simp only [byteAt, List.getD_eq_getElem?_getD, List.getElem?_replicate, h, if_true,
    Option.getD_some]

/-- C29, evaluation of the code: the sector holds 65535 zero bytes followed by
one 0xFF byte and the following sector is blank.  The scan finds one trailing
blank byte, the following sector confirms the end of the data, and the pass
then writes 4096 full lines and a last line of 15 bytes: 65551 bytes, so the
last `WriteDataLine` call starts at offset 65536 of the 65536-byte array
`DownloadedSector` and reads 15 bytes past its end. -/
theorem PromDownload_reads_past_sector :
    PromDownload_sector (List.replicate 65535 0 ++ [0xFF]) (List.replicate 65536 0xFF) =
      (4096, 15, true) ∧
    (PromDownload_sector (List.replicate 65535 0 ++ [0xFF]) (List.replicate 65536 0xFF)).1
        * MAX_LINE +
      (PromDownload_sector (List.replicate 65535 0 ++ [0xFF]) (List.replicate 65536 0xFF)).2.1
        = 65551 ∧
    ¬ ((PromDownload_sector (List.replicate 65535 0 ++ [0xFF]) (List.replicate 65536 0xFF)).1
        * MAX_LINE +
      (PromDownload_sector (List.replicate 65535 0 ++ [0xFF]) (List.replicate 65536 0xFF)).2.1
        ≤ SECTOR_SIZE) ∧
    (PromDownload_lines (List.replicate 65535 0 ++ [0xFF]) (List.replicate 65536 0xFF)).getLast?
      = some (65536, 15) := by
  have h1 : byteAt (List.replicate 65535 0 ++ [0xFF]) 65535 = 0xFF := by
    have h := byteAt_append_right (List.replicate 65535 0) [0xFF] 0
    rw [List.length_replicate] at h
    exact h
  have h2 : byteAt (List.replicate 65535 0 ++ [0xFF]) 65534 ≠ 0xFF := by
    rw [byteAt_append_left _ _ _ (by rw [List.length_replicate]; decide),
      byteAt_replicate _ _ _ (by decide)]
    decide
  have h3 : ∀ k, k < SECTOR_SIZE → byteAt (List.replicate 65536 0xFF) k = 0xFF := by
    intro k hk
    rw [byteAt_replicate _ _ _ (by simpa [SECTOR_SIZE] using hk)]
    decide
  have hs := PromDownload_sector_of_one_blank _ _ h1 h2 h3
  refine ⟨hs, ?_, ?_, ?_⟩
  · rw [hs]; decide
  · rw [hs]; decide
  · unfold PromDownload_lines
    rw [hs]
    simp [MAX_LINE]

/-- When the trailing-blank count that reaches the line computation is 0, or at
least 256, or a multiple of 16, the bytes written stay inside the sector. -/
theorem PromDownload_extent_ok (numTrailingFF : Nat) (h : numTrailingFF ≤ SECTOR_SIZE)
    (hc : numTrailingFF = 0 ∨ 256 ≤ numTrailingFF ∨ numTrailingFF % 16 = 0) :
    (if numTrailingFF < 256 then SECTOR_SIZE / MAX_LINE
      else (SECTOR_SIZE - numTrailingFF) / MAX_LINE) * MAX_LINE +
      (SECTOR_SIZE - numTrailingFF) % MAX_LINE ≤ SECTOR_SIZE := by
  simp only [SECTOR_SIZE, MAX_LINE] at h ⊢
  split_ifs with hlt <;> omega

/-- Outside the failing case the pass stays inside the sector: when the scan
finds no trailing blank, at least 256 of them, a multiple of 16, or when the
following sector is not blank, `lastLine * MAX_LINE + extraBytes` is at most
`SECTOR_SIZE`. -/
theorem PromDownload_sector_within (DownloadedSector nextSector : List Nat)
    (h : scanTrailingFF DownloadedSector SECTOR_SIZE 0 = 0 ∨
      256 ≤ scanTrailingFF DownloadedSector SECTOR_SIZE 0 ∨
      scanTrailingFF DownloadedSector SECTOR_SIZE 0 % 16 = 0 ∨
      scanBlank nextSector SECTOR_SIZE 0 ≠ SECTOR_SIZE) :
    (PromDownload_sector DownloadedSector nextSector).1 * MAX_LINE +
      (PromDownload_sector DownloadedSector nextSector).2.1 ≤ SECTOR_SIZE := by
  have hle := scanTrailingFF_le DownloadedSector SECTOR_SIZE 0 (Nat.zero_le _)
  unfold PromDownload_sector
  generalize scanTrailingFF DownloadedSector SECTOR_SIZE 0 = n at h hle
  generalize scanBlank nextSector SECTOR_SIZE 0 = k at h
  simp only [SECTOR_SIZE, MAX_LINE, beq_iff_eq] at h hle ⊢
  by_cases h0 : n > 0
  · by_cases h256 : n < 256
    · by_cases hk : k = 65536
      · simp only [h0, h256, hk, if_true]
        omega
      · simp [h0, h256, hk]
    · simp only [h0, h256, if_true, if_false]
      omega
  · have hn : n = 0 := by omega
    subst hn
    simp

theorem bytesToWrite_eq (len : Nat) (h : len ≤ 20) : bytesToWrite len = (len + 3) / 4 * 4 := by
  have h1 : u32 len = len := Nat.mod_eq_of_lt (by omega)
  have h2 : u32 (len + 3) = len + 3 := Nat.mod_eq_of_lt (by omega)
  have h3 := and_field (len + 3) 2 6
  unfold bytesToWrite
  rw [h1, h2]
  simp only [Nat.reducePow, Nat.reduceSub, Nat.reduceShiftLeft] at h3
  rw [h3]
  omega

/-- C30: in `PromFPGASerialNumberProgram` a string longer than 20 characters
is rejected before any store; for a string of `len ≤ 20` characters
`bytesToWrite = (len+3) & 0xFC` is a multiple of 4, at least `len`, at most 20,
and the least such multiple of 4; the stores of the copy and of the 0xFF padding
go to the indices `0 .. bytesToWrite-1` in order, all inside the 20-byte
buffer. -/
theorem PromFPGASerialNumber_padding (str : List Nat) :
    (20 < str.length → PromFPGASerialNumber_stores str = none) ∧
    (str.length ≤ 20 →
      bytesToWrite str.length % 4 = 0 ∧ str.length ≤ bytesToWrite str.length ∧
      bytesToWrite str.length ≤ 20 ∧
      (∀ m, m % 4 = 0 → str.length ≤ m → bytesToWrite str.length ≤ m) ∧
      ∃ stores, PromFPGASerialNumber_stores str = some stores ∧
        stores.map Prod.fst = List.range (bytesToWrite str.length) ∧
        ∀ s ∈ stores, s.1 < 20) := by
  constructor
  · intro h
    simp [PromFPGASerialNumber_stores, h]
  · intro h
    have hb := bytesToWrite_eq str.length h
    have hidx : ((List.range str.length).map (fun i => (i, u8 (str.getD i 0))) ++
        (List.range' str.length (bytesToWrite str.length - str.length)).map
          (fun i => (i, 0xff))).map Prod.fst = List.range (bytesToWrite str.length) := by
      have hsplit : bytesToWrite str.length =
          (bytesToWrite str.length - str.length) + str.length := by omega
      rw [List.map_append, List.map_map, List.map_map]
      have e1 : (Prod.fst ∘ fun i => (i, u8 (str.getD i 0))) = id := rfl
      have e2 : (Prod.fst ∘ fun i : Nat => (i, 0xff)) = id := rfl
      rw [e1, e2, List.map_id, List.map_id]
      conv_rhs => rw [hsplit, List.range_eq_range']
      rw [List.range_eq_range', ← List.range'_append_1, Nat.zero_add]
    refine ⟨by omega, by omega, by omega, fun m hm hle => by omega, _, ?_, hidx, ?_⟩
    · simp [PromFPGASerialNumber_stores, Nat.not_lt.mpr h]
    · intro s hs
      have hmem : s.1 ∈ List.range (bytesToWrite str.length) := by
        rw [← hidx]
        exact List.mem_map_of_mem Prod.fst hs
      have := List.mem_range.mp hmem
      omega

/-- Instance of C30: the 17-character string `FPGA 123456-78901` is padded to
20 bytes, the 21-character string `FPGA 123456-78901234` is rejected. -/
theorem PromFPGASerialNumber_padding_witness :
    bytesToWrite 17 = 20 ∧
    (PromFPGASerialNumber_stores
      [70, 80, 71, 65, 32, 49, 50, 51, 52, 53, 54, 45, 55, 56, 57, 48, 49]).isSome = true ∧
    PromFPGASerialNumber_stores
      [70, 80, 71, 65, 32, 49, 50, 51, 52, 53, 54, 45, 55, 56, 57, 48, 49, 50, 51, 52, 53] =
        none :=
  ⟨by decide,
   by
    obtain ⟨stores, hs, _⟩ := ((PromFPGASerialNumber_padding
      [70, 80, 71, 65, 32, 49, 50, 51, 52, 53, 54, 45, 55, 56, 57, 48, 49]).2 (by decide)).2.2.2.2
    rw [hs]; rfl,
   (PromFPGASerialNumber_padding
      [70, 80, 71, 65, 32, 49, 50, 51, 52, 53, 54, 45, 55, 56, 57, 48, 49, 50, 51, 52, 53]).1
      (by decide)⟩

end Amp1394
